import Mathlib

/-!
Shallow embedding of the collaborative workflow engine in
backend/app/core/workflow.py (class WorkflowEngine).

Modelling conventions:
* uuid4 identifiers are modelled as natural numbers drawn from a fresh-id
  counter (nextId) threaded through the engine state; every place the source
  calls uuid.uuid4() consumes one counter value.
* datetime timestamps (created_at / updated_at / completed_at) carry no
  logical content for any verified property and are elided.
* Python dictionaries are passed by reference; the task "data" mappings are
  the only dictionaries the engine mutates in place after sharing them
  (task_template.get("data", {}) in create_workflow and
  task["data"]["input"] = input_data in provide_input), so data mappings are
  modelled as references (Nat) into a store (heap) carried by the engine
  state.  All other dictionaries are freshly constructed or never mutated in
  place and are modelled as plain values.
* Raising ValueError is modelled by Except String; the engine state a caller
  holds after a raise is the unmodified state (the source validates before
  mutating).
* Task handlers, notification handlers and event listeners are external
  collaborators.  Handlers are modelled as pure functions that either return
  a result or raise (Except).  Notification handlers and event listeners do
  not touch engine state (their exceptions are caught and logged in the
  source), so _trigger_event / _notify_assignee / _notify_approver are
  state-identities here.
* The mutual recursion complete_task -> _process_next_task -> _execute_task
  -> complete_task terminates in the source because the task cursor strictly
  increases; it is modelled with a fuel parameter, and the public entry
  points pass fuel that is ample for every terminating source execution.
-/

namespace DOB

/-- Status eines Workflows (workflow.py, class WorkflowStatus). -/
inductive WorkflowStatus where
  | created
  | running
  | waiting
  | completed
  | failed
  | cancelled
deriving DecidableEq

/-- Status einer Task (workflow.py, class TaskStatus). -/
inductive TaskStatus where
  | pending
  | running
  | waiting_approval
  | waiting_input
  | completed
  | failed
  | cancelled
  | skipped
deriving DecidableEq

/-- Status einer Genehmigung (workflow.py, class ApprovalStatus). -/
inductive ApprovalStatus where
  | pending
  | approved
  | rejected
  | delegated
deriving DecidableEq

/-- JSON-like values appearing in task data mappings and history payloads. -/
inductive Val where
  | vs : String → Val
  | vn : Nat → Val
  | vb : Bool → Val
  | vss : List String → Val
  | vmap : List (String × Val) → Val

/-- A Python dict with string keys, insertion ordered. -/
abbrev DataMap := List (String × Val)

/-- Genehmigung (approval dict built in create_workflow / delegate_approval). -/
structure Approval where
  id : Nat
  approver : String
  status : ApprovalStatus
  comment : String
deriving DecidableEq

/-- Task dict built in create_workflow.  The data mapping is a reference into
the engine heap (see module comment). -/
structure Task where
  id : Nat
  name : String
  type : String
  status : TaskStatus
  assignee : Option String
  approvers : List String
  dataRef : Nat
  dependencies : List Nat
  result : Option DataMap
  approvals : List Approval

/-- History event appended by _add_history_event. -/
structure HEvent where
  id : Nat
  type : String
  data : List (String × Val)

/-- Workflow dict built in create_workflow. -/
structure Workflow where
  id : Nat
  template_id : String
  name : String
  status : WorkflowStatus
  tasks : List Task
  dataRef : Nat
  current_task_index : Nat
  history : List HEvent

/-- Task entry of a workflow template.  The source reads template tasks with
dict .get defaults; a registered template may carry its own task ids (tid),
which create_workflow never reads. -/
structure TaskTemplate where
  tid : Option Nat
  name : String
  type : String
  assignee : Option String
  approvers : List String
  dataRef : Nat
  dependencies : List Nat

/-- Workflow template as registered with register_workflow_template. -/
structure Template where
  name : String
  tasks : List TaskTemplate

/-- Snapshot task as produced by export_workflow (json round trip materializes
the data mapping, so no heap reference remains). -/
structure SnapTask where
  id : Nat
  name : String
  type : String
  status : TaskStatus
  assignee : Option String
  approvers : List String
  data : DataMap
  dependencies : List Nat
  result : Option DataMap
  approvals : List Approval

/-- Snapshot of a whole workflow (export_workflow / import_workflow payload). -/
structure Snapshot where
  id : Nat
  template_id : String
  name : String
  status : WorkflowStatus
  tasks : List SnapTask
  data : DataMap
  current_task_index : Nat
  history : List HEvent

/-- State of a WorkflowEngine instance.  workflows / workflow_templates are
the dict fields of the Python object; heap holds the mutable data mappings;
nextId is the fresh-identifier supply standing in for uuid4. -/
structure Engine where
  workflows : List (Nat × Workflow)
  workflow_templates : List (String × Template)
  heap : List (Nat × DataMap)
  nextId : Nat

/-- Registered task handlers (self.task_handlers), keyed by task type.  A
handler receives (workflow_id, task_id, task data) and either returns a
result dict or raises. -/
abbrev Handlers := String → Option (Nat → Nat → DataMap → Except String DataMap)

/-- Dict lookup on an association list; cons-front assignment together with
first-match lookup gives exactly Python dict read/write semantics. -/
def alookup {α β : Type} [DecidableEq α] : List (α × β) → α → Option β
  | [], _ => none
  | p :: ps, k => if p.1 = k then some p.2 else alookup ps k

/-- Dict assignment d[k] = v: replace in place if the key exists, else append
(Python dicts preserve insertion order). -/
def setKey (m : DataMap) (k : String) (v : Val) : DataMap :=
  if m.any (fun p => p.1 = k) then
    m.map (fun p => if p.1 = k then (k, v) else p)
  else
    m ++ [(k, v)]

/-- Dict read self.workflows[workflow_id]; cons-front update below makes
List.lookup behave exactly like Python dict assignment. -/
def lookupW (s : Engine) (wid : Nat) : Option Workflow :=
  alookup s.workflows wid

/-- Dict assignment self.workflows[workflow_id] = workflow. -/
def setW (s : Engine) (wid : Nat) (w : Workflow) : Engine :=
  { s with workflows := (wid, w) :: s.workflows }

/-- In-place mutation of the workflow object found under wid (a no-op when the
id is absent, which internal callers never hit). -/
def modifyW (s : Engine) (wid : Nat) (f : Workflow → Workflow) : Engine :=
  match lookupW s wid with
  | none => s
  | some w => setW s wid (f w)

/-- Heap read for a data-mapping reference. -/
def getHeap (s : Engine) (r : Nat) : DataMap :=
  (alookup s.heap r).getD []

/-- Heap update for a data-mapping reference. -/
def setHeap (s : Engine) (r : Nat) (m : DataMap) : Engine :=
  { s with heap := (r, m) :: s.heap }

/-- Draw one fresh identifier (stands in for str(uuid.uuid4())). -/
def Engine.freshId (s : Engine) : Nat × Engine :=
  (s.nextId, { s with nextId := s.nextId + 1 })

/-- The find-task-by-id loop used by every task operation: first task with a
matching id, together with its index (task, task_index). -/
def findTask : List Task → Nat → Option (Task × Nat)
  | [], _ => none
  | t :: ts, tid =>
    if t.id = tid then some (t, 0)
    else (findTask ts tid).map (fun p => (p.1, p.2 + 1))

/-- The find-approval-by-id loop: first approval with a matching id. -/
def findApproval : List Approval → Nat → Option Approval
  | [], _ => none
  | a :: as_, aid => if a.id = aid then some a else findApproval as_ aid

/-- In-place mutation of the first task with the given id. -/
def updFirstTask : List Task → Nat → (Task → Task) → List Task
  | [], _, _ => []
  | t :: ts, tid, f =>
    if t.id = tid then f t :: ts else t :: updFirstTask ts tid f

/-- In-place mutation of the task at a given index (workflow.tasks[cursor]). -/
def updTaskAt : List Task → Nat → (Task → Task) → List Task
  | [], _, _ => []
  | t :: ts, 0, f => f t :: ts
  | t :: ts, i + 1, f => t :: updTaskAt ts i f

/-- In-place mutation of the first approval with the given id. -/
def updFirstApproval : List Approval → Nat → (Approval → Approval) → List Approval
  | [], _, _ => []
  | a :: as_, aid, f =>
    if a.id = aid then f a :: as_ else a :: updFirstApproval as_ aid f

/-- Mutate the first task with the given id inside workflow wid. -/
def modifyTask (s : Engine) (wid tid : Nat) (f : Task → Task) : Engine :=
  modifyW s wid (fun w => { w with tasks := updFirstTask w.tasks tid f })

/-- _add_history_event: draws a uuid for the event and appends it to the
workflow's history list. -/
def add_history_event (s : Engine) (wid : Nat) (etype : String)
    (payload : List (String × Val)) : Engine :=
  let (eid, s1) := s.freshId
  modifyW s1 wid (fun w =>
    { w with history := w.history ++ [{ id := eid, type := etype, data := payload }] })

/-- _trigger_event: listener exceptions are caught and logged; listeners are
external collaborators, so engine state is unchanged. -/
def trigger_event (s : Engine) (_etype : String) (_payload : List (String × Val)) : Engine :=
  s

/-- _notify_assignee: external notification collaborator, exceptions caught;
engine state unchanged. -/
def notify_assignee (s : Engine) (_wid _tid : Nat) : Engine :=
  s

/-- _notify_approver: external notification collaborator, exceptions caught;
engine state unchanged. -/
def notify_approver (s : Engine) (_wid _tid _aid : Nat) : Engine :=
  s

/-- register_workflow_template: silent upsert into self.workflow_templates. -/
def register_workflow_template (s : Engine) (template_id : String) (t : Template) : Engine :=
  { s with workflow_templates := (template_id, t) :: s.workflow_templates }

/-- Approval instances built for one task template in create_workflow; the
first argument is the fresh-id counter. -/
def mkApprovals (c : Nat) : List String → List Approval × Nat
  | [] => ([], c)
  | ap :: rest =>
    let r := mkApprovals (c + 1) rest
    ({ id := c, approver := ap, status := ApprovalStatus.pending, comment := "" } :: r.1, r.2)

/-- Task instances built from the template's task list in create_workflow.
Each task draws one fresh id, then one per approver; the data mapping
reference is shared with the template (task_template.get("data", {}) copies
the reference, not the dict). -/
def mkTasks (c : Nat) : List TaskTemplate → List Task × Nat
  | [] => ([], c)
  | tt :: rest =>
    let aps := mkApprovals (c + 1) tt.approvers
    let r := mkTasks aps.2 rest
    ({ id := c, name := tt.name, type := tt.type, status := TaskStatus.pending,
       assignee := tt.assignee, approvers := tt.approvers, dataRef := tt.dataRef,
       dependencies := tt.dependencies, result := none, approvals := aps.1 } :: r.1, r.2)

/-- create_workflow: raise when the template is unknown, otherwise build a
workflow in status CREATED from the template's task list, store it and record
a workflow_created history event.  dataRef is the reference of the caller's
data dict.  Returns the new workflow id. -/
def create_workflow (s : Engine) (template_id : String) (dataRef : Nat) :
    Except String (Nat × Engine) :=
  match alookup s.workflow_templates template_id with
  | none => Except.error "Workflow-Vorlage nicht gefunden"
  | some tmpl =>
    let (wid, s1) := s.freshId
    let tc := mkTasks s1.nextId tmpl.tasks
    let s2 : Engine := { s1 with nextId := tc.2 }
    let w : Workflow :=
      { id := wid, template_id := template_id, name := tmpl.name,
        status := WorkflowStatus.created, tasks := tc.1, dataRef := dataRef,
        current_task_index := 0, history := [] }
    let s3 := setW s2 wid w
    let s4 := add_history_event s3 wid "workflow_created"
      [("template_id", Val.vs template_id), ("workflow_id", Val.vn wid),
       ("workflow_name", Val.vs tmpl.name)]
    Except.ok (wid, trigger_event s4 "workflow_created" [])

/-- Dependency check loop of _process_next_task: every id in the dependency
list must resolve (first match by id) to a task with status COMPLETED; a
missing task counts as unmet. -/
def depsMet (ts : List Task) (deps : List Nat) : Bool :=
  deps.all (fun dep_id =>
    match findTask ts dep_id with
    | none => false
    | some (dt, _) => dt.status = TaskStatus.completed)

/-- Failure path of _execute_task (the except block, reused verbatim by the
unknown-task-type branch): the task transitions to FAILED with the raised
message recorded in history, then the owning workflow transitions to FAILED. -/
def execute_task_fail (s : Engine) (wid tid : Nat) (taskName wName reason : String) : Engine :=
  let s1 := modifyTask s wid tid (fun t => { t with status := TaskStatus.failed })
  let s2 := add_history_event s1 wid "task_failed"
    [("workflow_id", Val.vn wid), ("task_id", Val.vn tid),
     ("task_name", Val.vs taskName), ("reason", Val.vs reason)]
  let s3 := trigger_event s2 "task_failed" []
  let s4 := modifyW s3 wid (fun w => { w with status := WorkflowStatus.failed })
  let s5 := add_history_event s4 wid "workflow_failed"
    [("workflow_id", Val.vn wid), ("workflow_name", Val.vs wName),
     ("reason", Val.vs ("Task fehlgeschlagen: " ++ taskName))]
  trigger_event s5 "workflow_failed" []

mutual

/-- _process_next_task: cursor past the end completes the workflow; unmet
dependencies of the cursor task park the workflow in WAITING; otherwise the
cursor task is set RUNNING and dispatched. -/
def process_next_task : Nat → Handlers → Engine → Nat → Engine
  | 0, _, s, _ => s
  | fuel + 1, h, s, wid =>
    match lookupW s wid with
    | none => s
    | some w =>
      if w.tasks.length ≤ w.current_task_index then
        let s1 := modifyW s wid (fun w2 => { w2 with status := WorkflowStatus.completed })
        let s2 := add_history_event s1 wid "workflow_completed"
          [("workflow_id", Val.vn wid), ("workflow_name", Val.vs w.name)]
        trigger_event s2 "workflow_completed" []
      else
        match w.tasks[w.current_task_index]? with
        | none => s
        | some task =>
          if depsMet w.tasks task.dependencies then
            let s1 := modifyW s wid (fun w2 =>
              { w2 with
                tasks := updTaskAt w2.tasks w2.current_task_index
                  (fun t => { t with status := TaskStatus.running }) })
            let s2 := add_history_event s1 wid "task_started"
              [("workflow_id", Val.vn wid), ("task_id", Val.vn task.id),
               ("task_name", Val.vs task.name)]
            execute_task fuel h (trigger_event s2 "task_started" []) wid task.id
          else
            let s1 := modifyW s wid (fun w2 => { w2 with status := WorkflowStatus.waiting })
            let s2 := add_history_event s1 wid "workflow_waiting"
              [("workflow_id", Val.vn wid), ("workflow_name", Val.vs w.name),
               ("reason", Val.vs "Abhängigkeiten nicht erfüllt")]
            trigger_event s2 "workflow_waiting" []
termination_by structural fuel h s wid => fuel

/-- _execute_task: dispatch by task type — registered handler (exceptions
captured into the failure path, including errors raised by the nested
complete_task), manual (notify only), input (park in WAITING_INPUT), unknown
type (failure path). -/
def execute_task : Nat → Handlers → Engine → Nat → Nat → Engine
  | 0, _, s, _, _ => s
  | fuel + 1, h, s, wid, tid =>
    match lookupW s wid with
    | none => s
    | some w =>
      match findTask w.tasks tid with
      | none => s
      | some (task, _) =>
        match h task.type with
        | some handler =>
          match handler wid tid (getHeap s task.dataRef) with
          | Except.ok result =>
            match complete_task_fuel fuel h s wid tid result with
            | Except.ok s1 => s1
            | Except.error e => execute_task_fail s wid tid task.name w.name e
          | Except.error e => execute_task_fail s wid tid task.name w.name e
        | none =>
          if task.type = "manual" then
            if task.assignee.isSome then notify_assignee s wid tid else s
          else if task.type = "input" then
            let s1 := modifyTask s wid tid (fun t => { t with status := TaskStatus.waiting_input })
            let s2 := add_history_event s1 wid "task_waiting_input"
              [("workflow_id", Val.vn wid), ("task_id", Val.vn tid),
               ("task_name", Val.vs task.name)]
            let s3 := trigger_event s2 "task_waiting_input" []
            if task.assignee.isSome then notify_assignee s3 wid tid else s3
          else
            execute_task_fail s wid tid task.name w.name ("Unbekannter Task-Typ: " ++ task.type)
termination_by structural fuel h s wid tid => fuel

/-- complete_task: only a RUNNING or WAITING_INPUT task can complete.  The
task is set COMPLETED with its result stored; a task with approvers is then
re-parked in WAITING_APPROVAL (approvers notified), otherwise the cursor is
set past this task and processing continues. -/
def complete_task_fuel : Nat → Handlers → Engine → Nat → Nat → DataMap → Except String Engine
  | 0, _, s, _, _, _ => Except.ok s
  | fuel + 1, h, s, wid, tid, result =>
    match lookupW s wid with
    | none => Except.error "Workflow nicht gefunden"
    | some w =>
      match findTask w.tasks tid with
      | none => Except.error "Task nicht gefunden"
      | some (task, task_index) =>
        if task.status = TaskStatus.running ∨ task.status = TaskStatus.waiting_input then
          let s1 := modifyTask s wid tid (fun t =>
            { t with status := TaskStatus.completed, result := some result })
          let s2 := add_history_event s1 wid "task_completed"
            [("workflow_id", Val.vn wid), ("task_id", Val.vn tid),
             ("task_name", Val.vs task.name)]
          let s3 := trigger_event s2 "task_completed" []
          if task.approvers.isEmpty then
            let s4 := modifyW s3 wid (fun w2 => { w2 with current_task_index := task_index + 1 })
            Except.ok (process_next_task fuel h s4 wid)
          else
            let s4 := modifyTask s3 wid tid (fun t =>
              { t with status := TaskStatus.waiting_approval })
            let s5 := add_history_event s4 wid "task_waiting_approval"
              [("workflow_id", Val.vn wid), ("task_id", Val.vn tid),
               ("task_name", Val.vs task.name),
               ("approvers", Val.vss (task.approvals.map (fun a => a.approver)))]
            Except.ok (trigger_event s5 "task_waiting_approval" [])
        else
          Except.error "Task kann nicht abgeschlossen werden"
termination_by structural fuel h s wid tid result => fuel

end

/-- Ample fuel for the public entry points: the cursor strictly increases once
per three nested calls of the mutual recursion, so this bound is never reached
on executions the source terminates on. -/
def fuelFor (s : Engine) (wid : Nat) : Nat :=
  match lookupW s wid with
  | none => 1
  | some w => 3 * w.tasks.length + 9

/-- Public complete_task entry point. -/
def complete_task (h : Handlers) (s : Engine) (wid tid : Nat) (result : DataMap) :
    Except String Engine :=
  complete_task_fuel (fuelFor s wid) h s wid tid result

/-- start_workflow: only a CREATED workflow may start; set RUNNING and process
the first task. -/
def start_workflow (h : Handlers) (s : Engine) (wid : Nat) : Except String Engine :=
  match lookupW s wid with
  | none => Except.error "Workflow nicht gefunden"
  | some w =>
    if w.status = WorkflowStatus.created then
      let s1 := modifyW s wid (fun w2 => { w2 with status := WorkflowStatus.running })
      let s2 := add_history_event s1 wid "workflow_started"
        [("workflow_id", Val.vn wid), ("workflow_name", Val.vs w.name)]
      let s3 := trigger_event s2 "workflow_started" []
      Except.ok (process_next_task (fuelFor s3 wid) h s3 wid)
    else Except.error "Workflow kann nicht gestartet werden"

/-- Consensus scan loop of approve_task: computes (all_completed,
any_rejected) with the source's early break on the first PENDING approval. -/
def scanApprovals (anyRej : Bool) : List Approval → Bool × Bool
  | [] => (true, anyRej)
  | a :: rest =>
    if a.status = ApprovalStatus.pending then (false, anyRej)
    else scanApprovals (if a.status = ApprovalStatus.rejected then true else anyRej) rest

/-- approve_task: record the verdict on one PENDING approval of a
WAITING_APPROVAL task, then evaluate consensus over the task's approvals.
Only when no approval is PENDING any more does anything further happen: any
rejection fails the task and the workflow, otherwise the cursor is set past
this task and processing continues. -/
def approve_task (h : Handlers) (s : Engine) (wid tid aid : Nat) (approved : Bool)
    (comment : String) : Except String Engine :=
  match lookupW s wid with
  | none => Except.error "Workflow nicht gefunden"
  | some w =>
    match findTask w.tasks tid with
    | none => Except.error "Task nicht gefunden"
    | some (task, task_index) =>
      if task.status = TaskStatus.waiting_approval then
        match findApproval task.approvals aid with
        | none => Except.error "Genehmigung nicht gefunden"
        | some ap =>
          if ap.status = ApprovalStatus.pending then
            let newStatus := if approved then ApprovalStatus.approved else ApprovalStatus.rejected
            let newApprovals := updFirstApproval task.approvals aid (fun a => { a with status := newStatus, comment := comment })
            let s1 := modifyTask s wid tid (fun t => { t with approvals := newApprovals })
            let etype := if approved then "task_approved" else "task_rejected"
            let s2 := add_history_event s1 wid etype
              [("workflow_id", Val.vn wid), ("task_id", Val.vn tid),
               ("task_name", Val.vs task.name), ("approver", Val.vs ap.approver),
               ("comment", Val.vs comment)]
            let s3 := trigger_event s2 etype []
            let scan := scanApprovals false newApprovals
            if scan.1 then
              if scan.2 then
                let s4 := modifyTask s3 wid tid (fun t => { t with status := TaskStatus.failed })
                let s5 := add_history_event s4 wid "task_failed"
                  [("workflow_id", Val.vn wid), ("task_id", Val.vn tid),
                   ("task_name", Val.vs task.name), ("reason", Val.vs "Genehmigung abgelehnt")]
                let s6 := trigger_event s5 "task_failed" []
                let s7 := modifyW s6 wid (fun w2 => { w2 with status := WorkflowStatus.failed })
                let s8 := add_history_event s7 wid "workflow_failed"
                  [("workflow_id", Val.vn wid), ("workflow_name", Val.vs w.name),
                   ("reason", Val.vs ("Task fehlgeschlagen: " ++ task.name))]
                Except.ok (trigger_event s8 "workflow_failed" [])
              else
                let s4 := modifyW s3 wid (fun w2 =>
                  { w2 with current_task_index := task_index + 1 })
                Except.ok (process_next_task (fuelFor s4 wid) h s4 wid)
            else
              Except.ok s3
          else Except.error "Genehmigung kann nicht aktualisiert werden"
      else Except.error "Task benötigt keine Genehmigung"

/-- delegate_approval: same state preconditions as approve_task; the source
approval becomes DELEGATED, a brand-new PENDING approval for the new approver
is appended, the new approver is notified.  Consensus is not evaluated. -/
def delegate_approval (s : Engine) (wid tid aid : Nat) (new_approver : String)
    (comment : String) : Except String Engine :=
  match lookupW s wid with
  | none => Except.error "Workflow nicht gefunden"
  | some w =>
    match findTask w.tasks tid with
    | none => Except.error "Task nicht gefunden"
    | some (task, _) =>
      if task.status = TaskStatus.waiting_approval then
        match findApproval task.approvals aid with
        | none => Except.error "Genehmigung nicht gefunden"
        | some ap =>
          if ap.status = ApprovalStatus.pending then
            let r := s.freshId
            let newApproval : Approval :=
              { id := r.1, approver := new_approver, status := ApprovalStatus.pending,
                comment := "" }
            let s2 := modifyTask r.2 wid tid (fun t =>
              { t with approvals :=
                  updFirstApproval t.approvals aid (fun a =>
                    { a with status := ApprovalStatus.delegated, comment := comment })
                  ++ [newApproval] })
            let s3 := add_history_event s2 wid "approval_delegated"
              [("workflow_id", Val.vn wid), ("task_id", Val.vn tid),
               ("task_name", Val.vs task.name), ("old_approver", Val.vs ap.approver),
               ("new_approver", Val.vs new_approver), ("comment", Val.vs comment)]
            let s4 := trigger_event s3 "approval_delegated" []
            Except.ok (notify_approver s4 wid tid r.1)
          else Except.error "Genehmigung kann nicht delegiert werden"
      else Except.error "Task benötigt keine Genehmigung"

/-- provide_input: only a WAITING_INPUT task accepts input.  The task is set
RUNNING, input_data is written into the task's data dict in place
(task.data is a shared reference, so this write is visible through every
holder of the same reference), and the task is re-dispatched. -/
def provide_input (h : Handlers) (s : Engine) (wid tid : Nat) (input_data : DataMap) :
    Except String Engine :=
  match lookupW s wid with
  | none => Except.error "Workflow nicht gefunden"
  | some w =>
    match findTask w.tasks tid with
    | none => Except.error "Task nicht gefunden"
    | some (task, _) =>
      if task.status = TaskStatus.waiting_input then
        let s1 := modifyTask s wid tid (fun t => { t with status := TaskStatus.running })
        let s2 := setHeap s1 task.dataRef
          (setKey (getHeap s1 task.dataRef) "input" (Val.vmap input_data))
        let s3 := add_history_event s2 wid "input_provided"
          [("workflow_id", Val.vn wid), ("task_id", Val.vn tid),
           ("task_name", Val.vs task.name)]
        let s4 := trigger_event s3 "input_provided" []
        Except.ok (execute_task (fuelFor s4 wid) h s4 wid tid)
      else Except.error "Task benötigt keine Eingabe"

/-- Per-task effect of cancel_workflow: every task whose status is in
[PENDING, RUNNING, WAITING_APPROVAL, WAITING_INPUT] is set CANCELLED, every
other task is left untouched. -/
def cancelTask (t : Task) : Task :=
  if t.status = TaskStatus.pending ∨ t.status = TaskStatus.running ∨
      t.status = TaskStatus.waiting_approval ∨ t.status = TaskStatus.waiting_input
  then { t with status := TaskStatus.cancelled } else t

/-- cancel_workflow: a terminal workflow cannot be cancelled; otherwise the
workflow and every PENDING / RUNNING / WAITING_APPROVAL / WAITING_INPUT task
transition to CANCELLED, every other task is left untouched. -/
def cancel_workflow (s : Engine) (wid : Nat) (reason : String) : Except String Engine :=
  match lookupW s wid with
  | none => Except.error "Workflow nicht gefunden"
  | some w =>
    if w.status = WorkflowStatus.completed ∨ w.status = WorkflowStatus.failed ∨
        w.status = WorkflowStatus.cancelled then
      Except.error "Workflow kann nicht abgebrochen werden"
    else
      let s1 := modifyW s wid (fun w2 =>
        { w2 with status := WorkflowStatus.cancelled,
                  tasks := w2.tasks.map cancelTask })
      let s2 := add_history_event s1 wid "workflow_cancelled"
        [("workflow_id", Val.vn wid), ("workflow_name", Val.vs w.name),
         ("reason", Val.vs reason)]
      Except.ok (trigger_event s2 "workflow_cancelled" [])

/-- export_workflow: json.loads(json.dumps(workflow)) — a deep, self-contained
copy; data mapping references are materialized into values. -/
def export_workflow (s : Engine) (wid : Nat) : Except String Snapshot :=
  match lookupW s wid with
  | none => Except.error "Workflow nicht gefunden"
  | some w =>
    Except.ok
      { id := w.id, template_id := w.template_id, name := w.name, status := w.status,
        tasks := w.tasks.map (fun t =>
          { id := t.id, name := t.name, type := t.type, status := t.status,
            assignee := t.assignee, approvers := t.approvers,
            data := getHeap s t.dataRef, dependencies := t.dependencies,
            result := t.result, approvals := t.approvals }),
        data := getHeap s w.dataRef, current_task_index := w.current_task_index,
        history := w.history }

/-- Fresh ids for the approvals of one imported task: returns the rebuilt
approvals, the id-translation map extended with (old id, new id) entries
(latest write first, as cons + first-match lookup is exactly dict
assignment), and the advanced counter. -/
def importApprovals (c : Nat) (idMap : List (Nat × Nat)) :
    List Approval → List Approval × List (Nat × Nat) × Nat
  | [] => ([], idMap, c)
  | a :: rest =>
    let r := importApprovals (c + 1) ((a.id, c) :: idMap) rest
    ({ a with id := c } :: r.1, r.2.1, r.2.2)

/-- Fresh ids (and fresh heap references for the materialized data dicts) for
imported tasks; dependencies are not yet rewritten.  Returns the rebuilt
tasks, the heap additions, the extended id map and the advanced counter. -/
def importTasks (c : Nat) (idMap : List (Nat × Nat)) :
    List SnapTask → List Task × List (Nat × DataMap) × List (Nat × Nat) × Nat
  | [] => ([], [], idMap, c)
  | st :: rest =>
    let aps := importApprovals (c + 2) ((st.id, c + 1) :: idMap) st.approvals
    let r := importTasks aps.2.2 aps.2.1 rest
    ({ id := c + 1, name := st.name, type := st.type, status := st.status,
       assignee := st.assignee, approvers := st.approvers, dataRef := c,
       dependencies := st.dependencies, result := st.result, approvals := aps.1 } :: r.1,
     (c, st.data) :: r.2.1, r.2.2.1, r.2.2.2)

/-- import_workflow: deep-copy the snapshot, regenerate the workflow id, every
task id and every approval id, rewrite dependency ids through the
id-translation map (ids outside the map are silently dropped), register the
result as a new workflow and record a workflow_imported event. -/
def import_workflow (s : Engine) (snap : Snapshot) : Nat × Engine :=
  let p := s.freshId
  let wid := p.1
  let wdRef := p.2.nextId
  let s2 : Engine :=
    { p.2 with
      nextId := p.2.nextId + 1
      heap := (wdRef, snap.data) :: p.2.heap }
  let r := importTasks s2.nextId [(snap.id, wid)] snap.tasks
  let s3 : Engine := { s2 with nextId := r.2.2.2, heap := r.2.1 ++ s2.heap }
  let idMap := r.2.2.1
  let tasks1 := r.1.map (fun t =>
    { t with dependencies := t.dependencies.filterMap (fun d => alookup idMap d) })
  let w : Workflow :=
    { id := wid, template_id := snap.template_id, name := snap.name, status := snap.status,
      tasks := tasks1, dataRef := wdRef, current_task_index := snap.current_task_index,
      history := snap.history }
  let s4 := setW s3 wid w
  let s5 := add_history_event s4 wid "workflow_imported"
    [("workflow_id", Val.vn wid), ("workflow_name", Val.vs snap.name),
     ("original_id", Val.vn snap.id)]
  (wid, trigger_event s5 "workflow_imported" [])

/-- Status of workflow wid, none when absent. -/
def wfStatusOf (s : Engine) (wid : Nat) : Option WorkflowStatus :=
  (lookupW s wid).map (fun w => w.status)

/-- Cursor of workflow wid. -/
def cursorOf (s : Engine) (wid : Nat) : Option Nat :=
  (lookupW s wid).map (fun w => w.current_task_index)

/-- Status of the first task with id tid in workflow wid. -/
def taskStatusOf (s : Engine) (wid tid : Nat) : Option TaskStatus :=
  (lookupW s wid).bind (fun w => (findTask w.tasks tid).map (fun p => p.1.status))

/-- Approvals of the first task with id tid in workflow wid. -/
def approvalsOf (s : Engine) (wid tid : Nat) : Option (List Approval) :=
  (lookupW s wid).bind (fun w => (findTask w.tasks tid).map (fun p => p.1.approvals))

/-- History of workflow wid. -/
def historyOf (s : Engine) (wid : Nat) : Option (List HEvent) :=
  (lookupW s wid).map (fun w => w.history)

/-- Data mapping currently stored for task j of the registered template, read
through the template task's (shared) heap reference. -/
def templateTaskData (s : Engine) (template_id : String) (j : Nat) : Option DataMap :=
  (alookup s.workflow_templates template_id).bind (fun t =>
    (t.tasks[j]?).map (fun tt => getHeap s tt.dataRef))

/-- All task ids and approval ids of a task list, in order. -/
def taskApprovalIds (ts : List Task) : List Nat :=
  ts.flatMap (fun t => t.id :: t.approvals.map (fun a => a.id))

/-- All ids appearing in a workflow: the workflow id, every task id and every
approval id. -/
def workflowIds (w : Workflow) : List Nat :=
  w.id :: taskApprovalIds w.tasks

/-- All task and approval ids of a snapshot task list. -/
def snapTaskIds (sts : List SnapTask) : List Nat :=
  sts.flatMap (fun st => st.id :: st.approvals.map (fun a => a.id))

/-- Success projection of a fallible operation (callers observe either the
returned state or the raised error). -/
def exOk {ε α : Type} : Except ε α → Option α
  | Except.ok a => some a
  | Except.error _ => none

/-- Approval list after approve_task records the verdict st on the first
approval with the given id. -/
def recordVerdict (l : List Approval) (aid : Nat) (st : ApprovalStatus)
    (comment : String) : List Approval :=
  updFirstApproval l aid (fun a => { a with status := st, comment := comment })

/-! ### Concrete sample states used by the witness and counterexample theorems -/

/-- No registered task handlers. -/
def hNone : Handlers := fun _ => none

/-- A handler registry where type auto always raises. -/
def hBoom : Handlers := fun ty =>
  if ty = "auto" then some (fun _ _ _ => Except.error "boom") else none

/-- A handler registry where type auto always succeeds. -/
def hOk : Handlers := fun ty =>
  if ty = "auto" then some (fun _ _ _ => Except.ok [("ok", Val.vb true)]) else none

/-- Task awaiting approval by A and B (both PENDING). -/
def sampleTaskAB : Task :=
  { id := 1, name := "review", type := "manual", status := TaskStatus.waiting_approval,
    assignee := none, approvers := ["A", "B"], dataRef := 0, dependencies := [],
    result := none,
    approvals := [{ id := 10, approver := "A", status := ApprovalStatus.pending, comment := "" },
                  { id := 11, approver := "B", status := ApprovalStatus.pending, comment := "" }] }

/-- Automatic follow-up task (type auto). -/
def sampleTaskAuto : Task :=
  { id := 2, name := "auto-step", type := "auto", status := TaskStatus.pending,
    assignee := none, approvers := [], dataRef := 0, dependencies := [], result := none,
    approvals := [] }

/-- Manual follow-up task. -/
def sampleTaskManual : Task :=
  { id := 3, name := "manual-step", type := "manual", status := TaskStatus.pending,
    assignee := none, approvers := [], dataRef := 0, dependencies := [], result := none,
    approvals := [] }

/-- Single-task workflow awaiting approval. -/
def sampleWF1 : Workflow :=
  { id := 0, template_id := "t", name := "W1", status := WorkflowStatus.running,
    tasks := [sampleTaskAB], dataRef := 0, current_task_index := 0, history := [] }

def sampleS1 : Engine :=
  { workflows := [(0, sampleWF1)], workflow_templates := [], heap := [(0, [])], nextId := 100 }

/-- Approval-gated task followed by an automatic task. -/
def sampleWF2 : Workflow :=
  { id := 0, template_id := "t", name := "W2", status := WorkflowStatus.running,
    tasks := [sampleTaskAB, sampleTaskAuto], dataRef := 0, current_task_index := 0,
    history := [] }

def sampleS2 : Engine :=
  { workflows := [(0, sampleWF2)], workflow_templates := [], heap := [(0, [])], nextId := 100 }

/-- Approval-gated task followed by a manual task. -/
def sampleWF3 : Workflow :=
  { id := 0, template_id := "t", name := "W3", status := WorkflowStatus.running,
    tasks := [sampleTaskAB, sampleTaskManual], dataRef := 0, current_task_index := 0,
    history := [] }

def sampleS3 : Engine :=
  { workflows := [(0, sampleWF3)], workflow_templates := [], heap := [(0, [])], nextId := 100 }

/-- The sample approval-gated task after approver A has already approved. -/
def sampleTaskAB2 : Task :=
  { sampleTaskAB with
    approvals := [{ id := 10, approver := "A", status := ApprovalStatus.approved, comment := "" },
                  { id := 11, approver := "B", status := ApprovalStatus.pending, comment := "" }] }

def sampleWF3b : Workflow := { sampleWF3 with tasks := [sampleTaskAB2, sampleTaskManual] }

def sampleS3b : Engine :=
  { workflows := [(0, sampleWF3b)], workflow_templates := [], heap := [(0, [])], nextId := 200 }

/-- Task B depending on the later task C (the §9 scheduling limitation). -/
def sampleTaskB : Task :=
  { id := 4, name := "B", type := "manual", status := TaskStatus.pending, assignee := none,
    approvers := [], dataRef := 0, dependencies := [5], result := none, approvals := [] }

def sampleTaskC : Task :=
  { id := 5, name := "C", type := "manual", status := TaskStatus.pending, assignee := none,
    approvers := [], dataRef := 0, dependencies := [], result := none, approvals := [] }

/-- Workflow parked in WAITING at cursor task B, whose dependency C sits later
in the task sequence. -/
def sampleWF4 : Workflow :=
  { id := 0, template_id := "t", name := "W4", status := WorkflowStatus.waiting,
    tasks := [sampleTaskB, sampleTaskC], dataRef := 0, current_task_index := 0, history := [] }

def sampleS4 : Engine :=
  { workflows := [(0, sampleWF4)], workflow_templates := [], heap := [(0, [])], nextId := 100 }

/-- Input-type task template whose data dict lives at heap reference 0. -/
def sampleTT : TaskTemplate :=
  { tid := some 7, name := "collect", type := "input", assignee := none, approvers := [],
    dataRef := 0, dependencies := [] }

def sampleTpl : Template := { name := "Tpl", tasks := [sampleTT] }

def sampleS5 : Engine :=
  { workflows := [], workflow_templates := [("T", sampleTpl)], heap := [(0, [])], nextId := 100 }

/-- The input-type task of the sample template as materialized by
create_workflow and parked in WAITING_INPUT by start_workflow; its data
mapping reference (0) is shared with the template. -/
def sampleTaskInput : Task :=
  { id := 101, name := "collect", type := "input", status := TaskStatus.waiting_input,
    assignee := none, approvers := [], dataRef := 0, dependencies := [], result := none,
    approvals := [] }

def sampleWF5 : Workflow :=
  { id := 100, template_id := "T", name := "Tpl", status := WorkflowStatus.running,
    tasks := [sampleTaskInput], dataRef := 50, current_task_index := 0, history := [] }

def sampleS5b : Engine :=
  { workflows := [(100, sampleWF5)], workflow_templates := [("T", sampleTpl)],
    heap := [(0, [])], nextId := 103 }

/-- Template with one plain task and one approval-gated task. -/
def sampleTT2 : TaskTemplate :=
  { tid := some 8, name := "check", type := "manual", assignee := none,
    approvers := ["A", "B"], dataRef := 0, dependencies := [] }

def sampleTpl2 : Template := { name := "Tpl2", tasks := [sampleTT, sampleTT2] }

def sampleS6 : Engine :=
  { workflows := [], workflow_templates := [("T2", sampleTpl2)], heap := [(0, [])], nextId := 100 }

/-- Running automatic task (dispatch target for the handler-failure claim). -/
def sampleTaskAuto2 : Task :=
  { id := 6, name := "auto2", type := "auto", status := TaskStatus.running, assignee := none,
    approvers := [], dataRef := 0, dependencies := [], result := none, approvals := [] }

def sampleWF7 : Workflow :=
  { id := 0, template_id := "t", name := "W7", status := WorkflowStatus.running,
    tasks := [sampleTaskAuto2], dataRef := 0, current_task_index := 0, history := [] }

def sampleS7 : Engine :=
  { workflows := [(0, sampleWF7)], workflow_templates := [], heap := [(0, [])], nextId := 100 }

/-- Workflow with one COMPLETED task (with stored result) and one PENDING. -/
def sampleTaskDone : Task :=
  { id := 1, name := "done", type := "manual", status := TaskStatus.completed,
    assignee := none, approvers := [], dataRef := 0, dependencies := [],
    result := some [("ok", Val.vb true)], approvals := [] }

def sampleWF8 : Workflow :=
  { id := 0, template_id := "t", name := "W8", status := WorkflowStatus.running,
    tasks := [sampleTaskDone, sampleTaskManual], dataRef := 0, current_task_index := 1,
    history := [] }

def sampleS8 : Engine :=
  { workflows := [(0, sampleWF8)], workflow_templates := [], heap := [], nextId := 100 }

/-- Two-task workflow with an intra-workflow dependency and one dangling
dependency id (999), used for the export/import round trip. -/
def sampleTaskExp1 : Task :=
  { id := 1, name := "first", type := "manual", status := TaskStatus.completed,
    assignee := none, approvers := [], dataRef := 0, dependencies := [], result := none,
    approvals := [] }

def sampleTaskExp2 : Task :=
  { id := 2, name := "second", type := "manual", status := TaskStatus.pending,
    assignee := none, approvers := ["A"], dataRef := 0, dependencies := [1, 999],
    result := none,
    approvals := [{ id := 3, approver := "A", status := ApprovalStatus.pending, comment := "" }] }

def sampleWF9 : Workflow :=
  { id := 0, template_id := "t", name := "W9", status := WorkflowStatus.running,
    tasks := [sampleTaskExp1, sampleTaskExp2], dataRef := 0, current_task_index := 1,
    history := [] }

def sampleS9 : Engine :=
  { workflows := [(0, sampleWF9)], workflow_templates := [], heap := [(0, [])], nextId := 100 }

/-- Snapshot produced by exporting sampleWF9 from sampleS9. -/
def sampleSnap9 : Snapshot :=
  { id := 0, template_id := "t", name := "W9", status := WorkflowStatus.running,
    tasks := [{ id := 1, name := "first", type := "manual", status := TaskStatus.completed,
                assignee := none, approvers := [], data := [], dependencies := [],
                result := none, approvals := [] },
              { id := 2, name := "second", type := "manual", status := TaskStatus.pending,
                assignee := none, approvers := ["A"], data := [], dependencies := [1, 999],
                result := none,
                approvals := [{ id := 3, approver := "A", status := ApprovalStatus.pending,
                                comment := "" }] }],
    data := [], current_task_index := 1, history := [] }

/-- Quiescence of one task with respect to the advancement entry points: the
task cannot be completed (complete_task accepts only RUNNING or WAITING_INPUT),
cannot receive input (provide_input accepts only WAITING_INPUT), and none of
its approvals can be acted on (approve_task and delegate_approval both require
a PENDING approval of a WAITING_APPROVAL task). -/
def taskQuiescent (t : Task) : Bool :=
  !decide (t.status = TaskStatus.running) && !decide (t.status = TaskStatus.waiting_input) &&
  (!decide (t.status = TaskStatus.waiting_approval) ||
    t.approvals.all (fun a => !decide (a.status = ApprovalStatus.pending)))

/-- The starvation configuration of the dependency gate: workflow wid is
parked in WAITING, its cursor task has an unmet (missing or not COMPLETED)
dependency, and every task of the workflow is quiescent, so no advancement
entry point can make progress on this workflow. -/
def stuckAt (s : Engine) (wid : Nat) : Bool :=
  match lookupW s wid with
  | none => false
  | some w =>
    decide (w.status = WorkflowStatus.waiting) &&
    (match w.tasks[w.current_task_index]? with
     | none => false
     | some task => !depsMet w.tasks task.dependencies) &&
    w.tasks.all taskQuiescent

/-- Invariant of workflow wid: no task with a non-empty approver list has
status COMPLETED.  complete_task, the only writer of COMPLETED, immediately
re-parks such a task in WAITING_APPROVAL, and every later resolution of its
approvals leaves the status field untouched. -/
def noCompletedApproverTask (s : Engine) (wid : Nat) : Bool :=
  match lookupW s wid with
  | none => true
  | some w =>
    w.tasks.all (fun t => t.approvers.isEmpty || !decide (t.status = TaskStatus.completed))

/-- Observable outcome of one entry-point call: the new state on success, the
unchanged state when the call raises (every entry point raises before it
mutates). -/
def advResult (r : Except String Engine) (s : Engine) : Engine :=
  match r with
  | Except.ok s2 => s2
  | Except.error _ => s

/-- One normal advancement step: any task-advancing entry point
(start_workflow, complete_task, approve_task, delegate_approval,
provide_input) called on any workflow with any arguments; a call that raises
leaves the engine unchanged. -/
inductive AdvStep (h : Handlers) : Engine → Engine → Prop
  | start (s : Engine) (wid : Nat) :
      AdvStep h s (advResult (start_workflow h s wid) s)
  | complete (s : Engine) (wid tid : Nat) (r : DataMap) :
      AdvStep h s (advResult (complete_task h s wid tid r) s)
  | approve (s : Engine) (wid tid aid : Nat) (b : Bool) (c : String) :
      AdvStep h s (advResult (approve_task h s wid tid aid b c) s)
  | delegate (s : Engine) (wid tid aid : Nat) (na c : String) :
      AdvStep h s (advResult (delegate_approval s wid tid aid na c) s)
  | input (s : Engine) (wid tid : Nat) (d : DataMap) :
      AdvStep h s (advResult (provide_input h s wid tid d) s)

/-- Running approval-gated task used by the C10 witness. -/
def sampleTaskRun : Task :=
  { id := 8, name := "gated", type := "manual", status := TaskStatus.running,
    assignee := none, approvers := ["A"], dataRef := 0, dependencies := [], result := none,
    approvals := [{ id := 9, approver := "A", status := ApprovalStatus.pending, comment := "" }] }

def sampleWF10 : Workflow :=
  { id := 0, template_id := "t", name := "W10", status := WorkflowStatus.running,
    tasks := [sampleTaskRun], dataRef := 0, current_task_index := 0, history := [] }

def sampleS10 : Engine :=
  { workflows := [(0, sampleWF10)], workflow_templates := [], heap := [(0, [])], nextId := 100 }

/-! ### Basic lemmas about the state helpers -/

@[simp]
theorem trigger_event_eq (s : Engine) (e : String) (p : List (String × Val)) :
    trigger_event s e p = s := rfl

@[simp]
theorem notify_assignee_eq (s : Engine) (wid tid : Nat) :
    notify_assignee s wid tid = s := rfl

@[simp]
theorem notify_approver_eq (s : Engine) (wid tid aid : Nat) :
    notify_approver s wid tid aid = s := rfl

@[simp]
theorem lookupW_setW_self (s : Engine) (wid : Nat) (w : Workflow) :
    lookupW (setW s wid w) wid = some w := by
  simp [lookupW, setW, alookup]

@[simp]
theorem lookupW_setW_ne (s : Engine) (wid wid2 : Nat) (w : Workflow) (h : wid ≠ wid2) :
    lookupW (setW s wid w) wid2 = lookupW s wid2 := by
  simp [lookupW, setW, alookup, h]

@[simp]
theorem lookupW_modifyW_self (s : Engine) (wid : Nat) (f : Workflow → Workflow) :
    lookupW (modifyW s wid f) wid = (lookupW s wid).map f := by
  unfold modifyW
  cases h : lookupW s wid <;> simp [h]

@[simp]
theorem lookupW_modifyW_ne (s : Engine) (wid wid2 : Nat) (f : Workflow → Workflow)
    (h : wid ≠ wid2) :
    lookupW (modifyW s wid f) wid2 = lookupW s wid2 := by
  unfold modifyW
  cases h2 : lookupW s wid <;> simp [h, h2]

@[simp]
theorem lookupW_setHeap (s : Engine) (r : Nat) (m : DataMap) (wid : Nat) :
    lookupW (setHeap s r m) wid = lookupW s wid := rfl

@[simp]
theorem lookupW_nextId (s : Engine) (n : Nat) (wid : Nat) :
    lookupW { s with nextId := n } wid = lookupW s wid := rfl

@[simp]
theorem lookupW_add_history_self (s : Engine) (wid : Nat) (t : String)
    (p : List (String × Val)) :
    lookupW (add_history_event s wid t p) wid =
      (lookupW s wid).map (fun w =>
        { w with history := w.history ++ [{ id := s.nextId, type := t, data := p }] }) := by
  unfold add_history_event Engine.freshId
  simp

@[simp]
theorem lookupW_add_history_ne (s : Engine) (wid wid2 : Nat) (t : String)
    (p : List (String × Val)) (h : wid ≠ wid2) :
    lookupW (add_history_event s wid t p) wid2 = lookupW s wid2 := by
  unfold add_history_event Engine.freshId
  simp [h]

/-- A task found by id has that id. -/
theorem findTask_some_id {ts : List Task} {tid : Nat} {t : Task} {i : Nat}
    (h : findTask ts tid = some (t, i)) : t.id = tid := by
  induction ts generalizing i with
  | nil => simp [findTask] at h
  | cons a as ih =>
    rw [findTask] at h
    by_cases ha : a.id = tid
    · rw [if_pos ha] at h
      simp at h
      exact h.1 ▸ ha
    · rw [if_neg ha] at h
      cases h2 : findTask as tid with
      | none => simp [h2] at h
      | some p =>
        obtain ⟨t2, j⟩ := p
        simp [h2] at h
        obtain ⟨ht2, hi⟩ := h
        subst ht2
        exact ih h2

/-- Updating the first task with a given id is visible to findTask at the same
index, provided the update keeps the id. -/
theorem findTask_updFirstTask {ts : List Task} {tid : Nat} {t : Task} {i : Nat}
    (f : Task → Task) (h : findTask ts tid = some (t, i)) (hid : (f t).id = tid) :
    findTask (updFirstTask ts tid f) tid = some (f t, i) := by
  induction ts generalizing i with
  | nil => simp [findTask] at h
  | cons a as ih =>
    rw [findTask] at h
    by_cases ha : a.id = tid
    · rw [if_pos ha] at h
      simp at h
      obtain ⟨ha2, hi⟩ := h
      subst ha2
      subst hi
      simp [updFirstTask, ha, findTask, hid]
    · rw [if_neg ha] at h
      cases h2 : findTask as tid with
      | none => simp [h2] at h
      | some p =>
        obtain ⟨t2, j⟩ := p
        simp [h2] at h
        obtain ⟨ht2, hi⟩ := h
        subst ht2
        rw [updFirstTask, if_neg ha, findTask, if_neg ha, ih h2]
        simp [hi]

/-- Status read after modifyTask with an id-preserving update. -/
theorem taskStatusOf_modifyTask {s : Engine} {wid tid : Nat} {w : Workflow} {t : Task}
    {i : Nat} (f : Task → Task) (hw : lookupW s wid = some w)
    (ht : findTask w.tasks tid = some (t, i)) (hid : (f t).id = tid) :
    taskStatusOf (modifyTask s wid tid f) wid tid = some (f t).status := by
  simp [taskStatusOf, modifyTask, hw, findTask_updFirstTask f ht hid]

/-- Approvals read after modifyTask with an id-preserving update. -/
theorem approvalsOf_modifyTask {s : Engine} {wid tid : Nat} {w : Workflow} {t : Task}
    {i : Nat} (f : Task → Task) (hw : lookupW s wid = some w)
    (ht : findTask w.tasks tid = some (t, i)) (hid : (f t).id = tid) :
    approvalsOf (modifyTask s wid tid f) wid tid = some (f t).approvals := by
  simp [approvalsOf, modifyTask, hw, findTask_updFirstTask f ht hid]

@[simp]
theorem nextId_setW (s : Engine) (wid : Nat) (w : Workflow) :
    (setW s wid w).nextId = s.nextId := rfl

@[simp]
theorem nextId_modifyW (s : Engine) (wid : Nat) (f : Workflow → Workflow) :
    (modifyW s wid f).nextId = s.nextId := by
  unfold modifyW
  cases lookupW s wid <;> rfl

@[simp]
theorem nextId_modifyTask (s : Engine) (wid tid : Nat) (f : Task → Task) :
    (modifyTask s wid tid f).nextId = s.nextId := by
  simp [modifyTask]

@[simp]
theorem taskStatusOf_add_history (s : Engine) (wid tid : Nat) (ty : String)
    (p : List (String × Val)) :
    taskStatusOf (add_history_event s wid ty p) wid tid = taskStatusOf s wid tid := by
  simp only [taskStatusOf, lookupW_add_history_self]
  cases lookupW s wid <;> simp

@[simp]
theorem approvalsOf_add_history (s : Engine) (wid tid : Nat) (ty : String)
    (p : List (String × Val)) :
    approvalsOf (add_history_event s wid ty p) wid tid = approvalsOf s wid tid := by
  simp only [approvalsOf, lookupW_add_history_self]
  cases lookupW s wid <;> simp

@[simp]
theorem wfStatusOf_add_history (s : Engine) (wid : Nat) (ty : String)
    (p : List (String × Val)) :
    wfStatusOf (add_history_event s wid ty p) wid = wfStatusOf s wid := by
  simp only [wfStatusOf, lookupW_add_history_self]
  cases lookupW s wid <;> simp

@[simp]
theorem cursorOf_add_history (s : Engine) (wid : Nat) (ty : String)
    (p : List (String × Val)) :
    cursorOf (add_history_event s wid ty p) wid = cursorOf s wid := by
  simp only [cursorOf, lookupW_add_history_self]
  cases lookupW s wid <;> simp

@[simp]
theorem historyOf_add_history (s : Engine) (wid : Nat) (ty : String)
    (p : List (String × Val)) :
    historyOf (add_history_event s wid ty p) wid =
      (historyOf s wid).map (fun hs => hs ++ [{ id := s.nextId, type := ty, data := p }]) := by
  simp only [historyOf, lookupW_add_history_self]
  cases lookupW s wid <;> simp

@[simp]
theorem wfStatusOf_modifyTask (s : Engine) (wid tid : Nat) (f : Task → Task) :
    wfStatusOf (modifyTask s wid tid f) wid = wfStatusOf s wid := by
  simp only [wfStatusOf, modifyTask, lookupW_modifyW_self]
  cases lookupW s wid <;> simp

@[simp]
theorem cursorOf_modifyTask (s : Engine) (wid tid : Nat) (f : Task → Task) :
    cursorOf (modifyTask s wid tid f) wid = cursorOf s wid := by
  simp only [cursorOf, modifyTask, lookupW_modifyW_self]
  cases lookupW s wid <;> simp

@[simp]
theorem historyOf_modifyTask (s : Engine) (wid tid : Nat) (f : Task → Task) :
    historyOf (modifyTask s wid tid f) wid = historyOf s wid := by
  simp only [historyOf, modifyTask, lookupW_modifyW_self]
  cases lookupW s wid <;> simp

@[simp]
theorem taskStatusOf_modifyW_status (s : Engine) (wid tid : Nat) (x : WorkflowStatus) :
    taskStatusOf (modifyW s wid (fun w => { w with status := x })) wid tid =
      taskStatusOf s wid tid := by
  simp only [taskStatusOf, lookupW_modifyW_self]
  cases lookupW s wid <;> simp

@[simp]
theorem wfStatusOf_modifyW_status (s : Engine) (wid : Nat) (x : WorkflowStatus) :
    wfStatusOf (modifyW s wid (fun w => { w with status := x })) wid =
      (lookupW s wid).map (fun _ => x) := by
  simp only [wfStatusOf, lookupW_modifyW_self]
  cases lookupW s wid <;> simp

@[simp]
theorem historyOf_modifyW_status (s : Engine) (wid : Nat) (x : WorkflowStatus) :
    historyOf (modifyW s wid (fun w => { w with status := x })) wid = historyOf s wid := by
  simp only [historyOf, lookupW_modifyW_self]
  cases lookupW s wid <;> simp

@[simp]
theorem cursorOf_modifyW_status (s : Engine) (wid : Nat) (x : WorkflowStatus) :
    cursorOf (modifyW s wid (fun w => { w with status := x })) wid = cursorOf s wid := by
  simp only [cursorOf, lookupW_modifyW_self]
  cases lookupW s wid <;> simp

/-- History read after modifyTask. -/
theorem historyOf_modifyTask_eq {s : Engine} {wid : Nat} {w : Workflow}
    (tid : Nat) (f : Task → Task) (hw : lookupW s wid = some w) :
    historyOf (modifyTask s wid tid f) wid = some w.history := by
  simp [historyOf, modifyTask, hw]

/-- An approval found by id has that id. -/
theorem findApproval_some_id {l : List Approval} {aid : Nat} {a : Approval}
    (h : findApproval l aid = some a) : a.id = aid := by
  induction l with
  | nil => simp [findApproval] at h
  | cons b bs ih =>
    rw [findApproval] at h
    by_cases hb : b.id = aid
    · rw [if_pos hb] at h
      cases h
      exact hb
    · rw [if_neg hb] at h
      exact ih h

/-- updFirstApproval keeps every approval whose id differs from the target. -/
theorem updFirstApproval_mem_other {l : List Approval} {aid : Nat} {f : Approval → Approval}
    {a : Approval} (ha : a ∈ l) (hne : a.id ≠ aid) : a ∈ updFirstApproval l aid f := by
  induction l with
  | nil => simp at ha
  | cons b bs ih =>
    rw [updFirstApproval]
    by_cases hb : b.id = aid
    · rw [if_pos hb]
      rcases List.mem_cons.mp ha with rfl | hmem
      · exact absurd hb hne
      · exact List.mem_cons_of_mem _ hmem
    · rw [if_neg hb]
      rcases List.mem_cons.mp ha with rfl | hmem
      · exact List.mem_cons_self _ _
      · exact List.mem_cons_of_mem _ (ih hmem)

/-- The approval actually found by id is replaced by its update in
updFirstApproval. -/
theorem updFirstApproval_mem_updated {l : List Approval} {aid : Nat} {ap : Approval}
    (f : Approval → Approval) (h : findApproval l aid = some ap) :
    f ap ∈ updFirstApproval l aid f := by
  induction l with
  | nil => simp [findApproval] at h
  | cons b bs ih =>
    rw [findApproval] at h
    rw [updFirstApproval]
    by_cases hb : b.id = aid
    · rw [if_pos hb] at h
      cases h
      rw [if_pos hb]
      exact List.mem_cons_self _ _
    · rw [if_neg hb] at h
      rw [if_neg hb]
      exact List.mem_cons_of_mem _ (ih h)

/-- The consensus scan never flags completion when some approval is PENDING. -/
theorem scanApprovals_fst_false {l : List Approval} (r : Bool) {a : Approval}
    (ha : a ∈ l) (hp : a.status = ApprovalStatus.pending) :
    (scanApprovals r l).1 = false := by
  induction l generalizing r with
  | nil => simp at ha
  | cons b bs ih =>
    rw [scanApprovals]
    by_cases hb : b.status = ApprovalStatus.pending
    · rw [if_pos hb]
    · rw [if_neg hb]
      rcases List.mem_cons.mp ha with rfl | hmem
      · exact absurd hp hb
      · exact ih _ hmem

/-- The consensus scan returns (True, r) on a list with no PENDING and no
REJECTED approval. -/
theorem scanApprovals_resolved (r : Bool) {l : List Approval}
    (h : ∀ a ∈ l, a.status ≠ ApprovalStatus.pending ∧ a.status ≠ ApprovalStatus.rejected) :
    scanApprovals r l = (true, r) := by
  induction l generalizing r with
  | nil => rfl
  | cons b bs ih =>
    obtain ⟨hp, hr⟩ := h b (List.mem_cons_self _ _)
    rw [scanApprovals, if_neg hp, if_neg hr]
    exact ih _ (fun a ha => h a (List.mem_cons_of_mem _ ha))

/-- Once the any_rejected accumulator is set, a pending-free tail keeps it. -/
theorem scanApprovals_true {l : List Approval}
    (hnp : ∀ a ∈ l, a.status ≠ ApprovalStatus.pending) :
    scanApprovals true l = (true, true) := by
  induction l with
  | nil => rfl
  | cons b bs ih =>
    rw [scanApprovals, if_neg (hnp b (List.mem_cons_self _ _))]
    have hif : (if b.status = ApprovalStatus.rejected then true else true) = true := by
      split <;> rfl
    rw [hif]
    exact ih (fun x hx => hnp x (List.mem_cons_of_mem _ hx))

/-- The consensus scan reports (True, True) when no approval is PENDING and
some approval is REJECTED. -/
theorem scanApprovals_rejected (r : Bool) {l : List Approval}
    (hnp : ∀ a ∈ l, a.status ≠ ApprovalStatus.pending) {a : Approval} (ha : a ∈ l)
    (hr : a.status = ApprovalStatus.rejected) :
    scanApprovals r l = (true, true) := by
  induction l generalizing r with
  | nil => simp at ha
  | cons b bs ih =>
    have hbp := hnp b (List.mem_cons_self _ _)
    rw [scanApprovals, if_neg hbp]
    rcases List.mem_cons.mp ha with rfl | hmem
    · rw [if_pos hr]
      exact scanApprovals_true (fun x hx => hnp x (List.mem_cons_of_mem _ hx))
    · split
      · exact ih _ (fun x hx => hnp x (List.mem_cons_of_mem _ hx)) hmem
      · exact ih _ (fun x hx => hnp x (List.mem_cons_of_mem _ hx)) hmem

/-- A DELEGATED approval is transparent to the consensus scan (excluded from
future consensus checks). -/
theorem scanApprovals_delegated (r : Bool) (l1 l2 : List Approval) {a : Approval}
    (ha : a.status = ApprovalStatus.delegated) :
    scanApprovals r (l1 ++ a :: l2) = scanApprovals r (l1 ++ l2) := by
  induction l1 generalizing r with
  | nil =>
    simp only [List.nil_append]
    rw [scanApprovals, if_neg (by simp [ha]), if_neg (by simp [ha])]
  | cons b bs ih =>
    simp only [List.cons_append]
    rw [scanApprovals, scanApprovals]
    by_cases hb : b.status = ApprovalStatus.pending
    · rw [if_pos hb, if_pos hb]
    · rw [if_neg hb, if_neg hb]
      exact ih _

/-- Accessor facts for the task-FAILED → workflow-FAILED update chain shared
by _execute_task's except block and approve_task's rejection branch. -/
theorem failureChain_status {s : Engine} {wid tid : Nat} {w : Workflow} {t : Task} {i : Nat}
    (ty1 ty2 : String) (p1 p2 : List (String × Val))
    (hw : lookupW s wid = some w) (ht : findTask w.tasks tid = some (t, i)) :
    taskStatusOf
        (add_history_event
          (modifyW
            (add_history_event
              (modifyTask s wid tid (fun t2 => { t2 with status := TaskStatus.failed }))
              wid ty1 p1)
            wid (fun w2 => { w2 with status := WorkflowStatus.failed }))
          wid ty2 p2) wid tid = some TaskStatus.failed ∧
    wfStatusOf
        (add_history_event
          (modifyW
            (add_history_event
              (modifyTask s wid tid (fun t2 => { t2 with status := TaskStatus.failed }))
              wid ty1 p1)
            wid (fun w2 => { w2 with status := WorkflowStatus.failed }))
          wid ty2 p2) wid = some WorkflowStatus.failed := by
  have hid : t.id = tid := findTask_some_id ht
  constructor
  · rw [taskStatusOf_add_history, taskStatusOf_modifyW_status, taskStatusOf_add_history]
    rw [taskStatusOf_modifyTask _ hw ht (by simpa using hid)]
  · rw [wfStatusOf_add_history, wfStatusOf_modifyW_status, lookupW_add_history_self]
    simp [modifyTask, hw]

/-- A task found by id is a member of the list. -/
theorem findTask_mem {ts : List Task} {tid : Nat} {t : Task} {i : Nat}
    (h : findTask ts tid = some (t, i)) : t ∈ ts := by
  induction ts generalizing i with
  | nil => simp [findTask] at h
  | cons a as ih =>
    rw [findTask] at h
    by_cases ha : a.id = tid
    · rw [if_pos ha] at h
      simp at h
      exact List.mem_cons.mpr (Or.inl h.1.symm)
    · rw [if_neg ha] at h
      cases h2 : findTask as tid with
      | none => simp [h2] at h
      | some p =>
        obtain ⟨t2, j⟩ := p
        simp [h2] at h
        obtain ⟨ht2, hi⟩ := h
        subst ht2
        exact List.mem_cons_of_mem _ (ih h2)

/-- Members of updTaskAt come from the original list, possibly updated. -/
theorem updTaskAt_mem {ts : List Task} {i : Nat} {f : Task → Task} {t2 : Task}
    (h : t2 ∈ updTaskAt ts i f) : ∃ t ∈ ts, t2 = t ∨ t2 = f t := by
  induction ts generalizing i with
  | nil => simp [updTaskAt] at h
  | cons a as ih =>
    cases i with
    | zero =>
      rw [updTaskAt] at h
      rcases List.mem_cons.mp h with rfl | hmem
      · exact ⟨a, List.mem_cons_self _ _, Or.inr rfl⟩
      · exact ⟨t2, List.mem_cons_of_mem _ hmem, Or.inl rfl⟩
    | succ j =>
      rw [updTaskAt] at h
      rcases List.mem_cons.mp h with rfl | hmem
      · exact ⟨t2, List.mem_cons_self _ _, Or.inl rfl⟩
      · obtain ⟨t, htm, hor⟩ := ih hmem
        exact ⟨t, List.mem_cons_of_mem _ htm, hor⟩

/-- Members of updFirstTask come from the original list, possibly updated. -/
theorem updFirstTask_mem {ts : List Task} {tid : Nat} {f : Task → Task} {t2 : Task}
    (h : t2 ∈ updFirstTask ts tid f) : ∃ t ∈ ts, t2 = t ∨ t2 = f t := by
  induction ts with
  | nil => simp [updFirstTask] at h
  | cons a as ih =>
    rw [updFirstTask] at h
    by_cases ha : a.id = tid
    · rw [if_pos ha] at h
      rcases List.mem_cons.mp h with rfl | hmem
      · exact ⟨a, List.mem_cons_self _ _, Or.inr rfl⟩
      · exact ⟨t2, List.mem_cons_of_mem _ hmem, Or.inl rfl⟩
    · rw [if_neg ha] at h
      rcases List.mem_cons.mp h with rfl | hmem
      · exact ⟨t2, List.mem_cons_self _ _, Or.inl rfl⟩
      · obtain ⟨t, htm, hor⟩ := ih hmem
        exact ⟨t, List.mem_cons_of_mem _ htm, hor⟩

@[simp]
theorem cursorOf_execute_task_fail (s : Engine) (wid tid : Nat) (n1 n2 r : String) :
    cursorOf (execute_task_fail s wid tid n1 n2 r) wid = cursorOf s wid := by
  unfold execute_task_fail
  simp

/-- Dispatching a task whose workflow holds no task type with a registered
handler never moves the cursor (manual, input and unknown types only change
task or workflow status). -/
theorem cursorOf_execute_task_no_handler (fuel : Nat) (h : Handlers) (s : Engine)
    (wid tid : Nat)
    (hnh : ∀ w2, lookupW s wid = some w2 → ∀ t2 ∈ w2.tasks, h t2.type = none) :
    cursorOf (execute_task fuel h s wid tid) wid = cursorOf s wid := by
  cases fuel with
  | zero => simp [execute_task]
  | succ fuel =>
    cases hw : lookupW s wid with
    | none => simp [execute_task, hw]
    | some w =>
      cases ht : findTask w.tasks tid with
      | none => simp [execute_task, hw, ht]
      | some p =>
        obtain ⟨t, i⟩ := p
        simp only [execute_task, hw, ht, hnh w hw t (findTask_mem ht)]
        by_cases hman : t.type = "manual"
        · rw [if_pos hman]
          split <;> simp
        · rw [if_neg hman]
          by_cases hinp : t.type = "input"
          · rw [if_pos hinp]
            split <;> simp
          · rw [if_neg hinp]
            simp

/-- One processing step from a workflow none of whose task types has a
registered handler leaves the cursor where it is (the workflow completes, or
parks in WAITING, or starts a manual/input task without advancing). -/
theorem processNext_no_cascade (fuel : Nat) (h : Handlers) (s : Engine) (wid : Nat)
    (w : Workflow) (hw : lookupW s wid = some w)
    (hnh : ∀ t ∈ w.tasks, h t.type = none) :
    cursorOf (process_next_task (fuel + 1) h s wid) wid = some w.current_task_index := by
  simp only [process_next_task, hw]
  by_cases hlen : w.tasks.length ≤ w.current_task_index
  · rw [if_pos hlen]
    simp [cursorOf, hw]
  · rw [if_neg hlen]
    cases hget : w.tasks[w.current_task_index]? with
    | none =>
      exact absurd (List.getElem?_eq_none_iff.mp hget) hlen
    | some task =>
      dsimp only
      by_cases hdep : depsMet w.tasks task.dependencies
      · rw [if_pos hdep]
        rw [cursorOf_execute_task_no_handler]
        · simp [cursorOf, hw]
        · intro w2 hw2 t2 ht2
          rw [trigger_event_eq, lookupW_add_history_self] at hw2
          simp only [lookupW_modifyW_self, hw, Option.map_some'] at hw2
          injection hw2 with hw2e
          subst hw2e
          have ht2b : t2 ∈ updTaskAt w.tasks w.current_task_index
              (fun t3 => { t3 with status := TaskStatus.running }) := by
            simpa using ht2
          obtain ⟨t, htm, hor⟩ := updTaskAt_mem ht2b
          rcases hor with rfl | rfl
          · simpa using hnh _ htm
          · simpa using hnh _ htm
      · rw [if_neg hdep]
        simp [cursorOf, hw]

/-! ### C8 — cancel_workflow -/

/-- C8: cancel_workflow raises an invalid-state error whenever the workflow's
status is terminal (COMPLETED, FAILED or CANCELLED); otherwise it sets the
workflow's status to CANCELLED and sets every task whose status is
non-terminal (PENDING, RUNNING, WAITING_APPROVAL or WAITING_INPUT) to
CANCELLED, while every already-terminal task — in particular every COMPLETED
task and its stored result — is left unchanged (cancelTask is the identity on
them). -/
theorem c8_cancel_workflow (s : Engine) (wid : Nat) (reason : String) (w : Workflow)
    (hw : lookupW s wid = some w) :
    (w.status = WorkflowStatus.completed ∨ w.status = WorkflowStatus.failed ∨
        w.status = WorkflowStatus.cancelled →
      cancel_workflow s wid reason = Except.error "Workflow kann nicht abgebrochen werden") ∧
    (¬ (w.status = WorkflowStatus.completed ∨ w.status = WorkflowStatus.failed ∨
        w.status = WorkflowStatus.cancelled) →
      ∃ s2, cancel_workflow s wid reason = Except.ok s2 ∧
        wfStatusOf s2 wid = some WorkflowStatus.cancelled ∧
        (lookupW s2 wid).map Workflow.tasks = some (w.tasks.map cancelTask) ∧
        ∀ t ∈ w.tasks, t.status = TaskStatus.completed → cancelTask t = t) := by
  constructor
  · intro hterm
    simp [cancel_workflow, hw, hterm]
  · intro hterm
    have hc : cancel_workflow s wid reason = Except.ok
        (add_history_event
          (modifyW s wid (fun w2 =>
            { w2 with status := WorkflowStatus.cancelled,
                      tasks := w2.tasks.map cancelTask }))
          wid "workflow_cancelled"
          [("workflow_id", Val.vn wid), ("workflow_name", Val.vs w.name),
           ("reason", Val.vs reason)]) := by
      simp [cancel_workflow, hw, hterm]
    refine ⟨_, hc, ?_, ?_, ?_⟩
    · simp [wfStatusOf, hw]
    · simp [hw]
    · intro t _ hts
      simp [cancelTask, hts]

/-- Witness for c8_cancel_workflow: cancelling a running two-task workflow
whose first task is COMPLETED (with stored result) and second is PENDING. -/
theorem c8_cancel_workflow_witness :
    ∃ s2, cancel_workflow sampleS8 0 "stop" = Except.ok s2 ∧
      wfStatusOf s2 0 = some WorkflowStatus.cancelled ∧
      (lookupW s2 0).map Workflow.tasks = some (sampleWF8.tasks.map cancelTask) ∧
      ∀ t ∈ sampleWF8.tasks, t.status = TaskStatus.completed → cancelTask t = t :=
  (c8_cancel_workflow sampleS8 0 "stop" sampleWF8 rfl).2 (by decide)

/-! ### C7 — delegate_approval -/

/-- C7: on a PENDING approval of a WAITING_APPROVAL task, delegate_approval
marks the source approval DELEGATED, appends a brand-new PENDING approval for
the new approver without deleting or modifying any other approval, leaves the
task in WAITING_APPROVAL, does not itself resolve consensus (cursor and
workflow status unchanged), and fails with an invalid-state error when the
task is not WAITING_APPROVAL or the source approval is not PENDING; a
DELEGATED approval is transparent to every later consensus scan. -/
theorem c7_delegate_approval (s : Engine) (wid tid aid : Nat) (na comment : String)
    (w : Workflow) (task : Task) (i : Nat)
    (hw : lookupW s wid = some w) (ht : findTask w.tasks tid = some (task, i)) :
    (task.status ≠ TaskStatus.waiting_approval →
      delegate_approval s wid tid aid na comment =
        Except.error "Task benötigt keine Genehmigung") ∧
    (∀ ap, task.status = TaskStatus.waiting_approval →
      findApproval task.approvals aid = some ap → ap.status ≠ ApprovalStatus.pending →
      delegate_approval s wid tid aid na comment =
        Except.error "Genehmigung kann nicht delegiert werden") ∧
    (∀ ap, task.status = TaskStatus.waiting_approval →
      findApproval task.approvals aid = some ap → ap.status = ApprovalStatus.pending →
      ∃ s2, delegate_approval s wid tid aid na comment = Except.ok s2 ∧
        approvalsOf s2 wid tid = some
          (updFirstApproval task.approvals aid (fun a =>
            { a with status := ApprovalStatus.delegated, comment := comment })
            ++ [{ id := s.nextId, approver := na, status := ApprovalStatus.pending,
                  comment := "" }]) ∧
        (∀ a ∈ task.approvals, a.id ≠ aid →
          a ∈ updFirstApproval task.approvals aid (fun a2 =>
            { a2 with status := ApprovalStatus.delegated, comment := comment })
            ++ [{ id := s.nextId, approver := na, status := ApprovalStatus.pending,
                  comment := "" }]) ∧
        taskStatusOf s2 wid tid = some TaskStatus.waiting_approval ∧
        cursorOf s2 wid = some w.current_task_index ∧
        wfStatusOf s2 wid = some w.status) ∧
    (∀ (r : Bool) (l1 l2 : List Approval) (a : Approval),
      a.status = ApprovalStatus.delegated →
      scanApprovals r (l1 ++ a :: l2) = scanApprovals r (l1 ++ l2)) := by
  have hid : task.id = tid := findTask_some_id ht
  refine ⟨?_, ?_, ?_, fun r l1 l2 a ha => scanApprovals_delegated r l1 l2 ha⟩
  · intro hst
    simp [delegate_approval, hw, ht, hst]
  · intro ap hst hap hpend
    simp [delegate_approval, hw, ht, hst, hap, hpend]
  · intro ap hst hap hpend
    have hw2 : lookupW { s with nextId := s.nextId + 1 } wid = some w := hw
    have hc : delegate_approval s wid tid aid na comment = Except.ok
        (add_history_event
          (modifyTask { s with nextId := s.nextId + 1 } wid tid (fun t =>
            { t with approvals :=
                updFirstApproval t.approvals aid (fun a =>
                  { a with status := ApprovalStatus.delegated, comment := comment })
                ++ [{ id := s.nextId, approver := na, status := ApprovalStatus.pending,
                      comment := "" }] }))
          wid "approval_delegated"
          [("workflow_id", Val.vn wid), ("task_id", Val.vn tid),
           ("task_name", Val.vs task.name), ("old_approver", Val.vs ap.approver),
           ("new_approver", Val.vs na), ("comment", Val.vs comment)]) := by
      simp [delegate_approval, hw, ht, hst, hap, hpend, Engine.freshId]
    refine ⟨_, hc, ?_, ?_, ?_, ?_, ?_⟩
    · rw [approvalsOf_add_history]
      exact approvalsOf_modifyTask _ hw2 ht hid
    · intro a ha hane
      exact List.mem_append_left _ (updFirstApproval_mem_other ha hane)
    · rw [taskStatusOf_add_history]
      rw [taskStatusOf_modifyTask _ hw2 ht hid]
      simpa using hst
    · rw [cursorOf_add_history, cursorOf_modifyTask]
      simp [cursorOf, hw2]
    · rw [wfStatusOf_add_history, wfStatusOf_modifyTask]
      simp [wfStatusOf, hw2]

/-- Witness for c7_delegate_approval: delegating approval 10 (approver A) of
the sample task to approver C. -/
theorem c7_delegate_approval_witness :
    ∃ s2, delegate_approval sampleS1 0 1 10 "C" "away" = Except.ok s2 ∧
      approvalsOf s2 0 1 = some
        (updFirstApproval sampleTaskAB.approvals 10 (fun a =>
          { a with status := ApprovalStatus.delegated, comment := "away" })
          ++ [{ id := 100, approver := "C", status := ApprovalStatus.pending,
                comment := "" }]) ∧
      (∀ a ∈ sampleTaskAB.approvals, a.id ≠ 10 →
        a ∈ updFirstApproval sampleTaskAB.approvals 10 (fun a2 =>
          { a2 with status := ApprovalStatus.delegated, comment := "away" })
          ++ [{ id := 100, approver := "C", status := ApprovalStatus.pending,
                comment := "" }]) ∧
      taskStatusOf s2 0 1 = some TaskStatus.waiting_approval ∧
      cursorOf s2 0 = some sampleWF1.current_task_index ∧
      wfStatusOf s2 0 = some sampleWF1.status :=
  (c7_delegate_approval sampleS1 0 1 10 "C" "away" sampleWF1 sampleTaskAB 0 rfl rfl).2.2.1
    { id := 10, approver := "A", status := ApprovalStatus.pending, comment := "" }
    rfl rfl rfl

@[simp]
theorem heap_setW (s : Engine) (wid : Nat) (w : Workflow) : (setW s wid w).heap = s.heap := rfl

@[simp]
theorem heap_modifyW (s : Engine) (wid : Nat) (f : Workflow → Workflow) :
    (modifyW s wid f).heap = s.heap := by
  unfold modifyW
  cases lookupW s wid <;> rfl

@[simp]
theorem heap_modifyTask (s : Engine) (wid tid : Nat) (f : Task → Task) :
    (modifyTask s wid tid f).heap = s.heap := by
  simp [modifyTask]

@[simp]
theorem heap_add_history (s : Engine) (wid : Nat) (ty : String) (p : List (String × Val)) :
    (add_history_event s wid ty p).heap = s.heap := by
  unfold add_history_event Engine.freshId
  simp

@[simp]
theorem heap_execute_task_fail (s : Engine) (wid tid : Nat) (n1 n2 r : String) :
    (execute_task_fail s wid tid n1 n2 r).heap = s.heap := by
  unfold execute_task_fail
  simp

@[simp]
theorem templates_setW (s : Engine) (wid : Nat) (w : Workflow) :
    (setW s wid w).workflow_templates = s.workflow_templates := rfl

@[simp]
theorem templates_modifyW (s : Engine) (wid : Nat) (f : Workflow → Workflow) :
    (modifyW s wid f).workflow_templates = s.workflow_templates := by
  unfold modifyW
  cases lookupW s wid <;> rfl

@[simp]
theorem templates_modifyTask (s : Engine) (wid tid : Nat) (f : Task → Task) :
    (modifyTask s wid tid f).workflow_templates = s.workflow_templates := by
  simp [modifyTask]

@[simp]
theorem templates_add_history (s : Engine) (wid : Nat) (ty : String)
    (p : List (String × Val)) :
    (add_history_event s wid ty p).workflow_templates = s.workflow_templates := by
  unfold add_history_event Engine.freshId
  simp

@[simp]
theorem templates_execute_task_fail (s : Engine) (wid tid : Nat) (n1 n2 r : String) :
    (execute_task_fail s wid tid n1 n2 r).workflow_templates = s.workflow_templates := by
  unfold execute_task_fail
  simp

@[simp]
theorem templates_setHeap (s : Engine) (r : Nat) (m : DataMap) :
    (setHeap s r m).workflow_templates = s.workflow_templates := rfl

/-- Task processing never touches the heap of data mappings nor the template
store: every write in the recursive core goes through the workflow
dictionary. -/
theorem stores_preserved (fuel : Nat) :
    (∀ h s wid, (process_next_task fuel h s wid).heap = s.heap ∧
      (process_next_task fuel h s wid).workflow_templates = s.workflow_templates) ∧
    (∀ h s wid tid, (execute_task fuel h s wid tid).heap = s.heap ∧
      (execute_task fuel h s wid tid).workflow_templates = s.workflow_templates) ∧
    (∀ h s wid tid r s2, complete_task_fuel fuel h s wid tid r = Except.ok s2 →
      s2.heap = s.heap ∧ s2.workflow_templates = s.workflow_templates) := by
  induction fuel with
  | zero =>
    refine ⟨fun h s wid => ⟨rfl, rfl⟩, fun h s wid tid => ⟨rfl, rfl⟩,
      fun h s wid tid r s2 hok => ?_⟩
    simp only [complete_task_fuel, Except.ok.injEq] at hok
    subst hok
    exact ⟨rfl, rfl⟩
  | succ n ih =>
    obtain ⟨ihp, ihe, ihc⟩ := ih
    refine ⟨?_, ?_, ?_⟩
    · intro h s wid
      cases hw : lookupW s wid with
      | none => simp [process_next_task, hw]
      | some w =>
        simp only [process_next_task, hw]
        by_cases hlen : w.tasks.length ≤ w.current_task_index
        · rw [if_pos hlen]
          simp
        · rw [if_neg hlen]
          cases hget : w.tasks[w.current_task_index]? with
          | none => simp
          | some task =>
            dsimp only
            by_cases hdep : depsMet w.tasks task.dependencies
            · rw [if_pos hdep]
              constructor
              · rw [(ihe h _ wid task.id).1]
                simp
              · rw [(ihe h _ wid task.id).2]
                simp
            · rw [if_neg hdep]
              simp
    · intro h s wid tid
      cases hw : lookupW s wid with
      | none => simp [execute_task, hw]
      | some w =>
        cases ht : findTask w.tasks tid with
        | none => simp [execute_task, hw, ht]
        | some p =>
          obtain ⟨t, i⟩ := p
          simp only [execute_task, hw, ht]
          cases hh : h t.type with
          | some handler =>
            dsimp only
            cases hr : handler wid tid (getHeap s t.dataRef) with
            | ok result =>
              dsimp only
              cases hcc : complete_task_fuel n h s wid tid result with
              | ok s1 =>
                dsimp only
                exact ihc h s wid tid result s1 hcc
              | error e =>
                dsimp only
                simp
            | error e =>
              dsimp only
              simp
          | none =>
            dsimp only
            by_cases hman : t.type = "manual"
            · rw [if_pos hman]
              split <;> exact ⟨rfl, rfl⟩
            · rw [if_neg hman]
              by_cases hinp : t.type = "input"
              · rw [if_pos hinp]
                split <;> simp
              · rw [if_neg hinp]
                simp
    · intro h s wid tid r s2 hok
      cases hw : lookupW s wid with
      | none => simp [complete_task_fuel, hw] at hok
      | some w =>
        cases ht : findTask w.tasks tid with
        | none => simp [complete_task_fuel, hw, ht] at hok
        | some p =>
          obtain ⟨t, i⟩ := p
          simp only [complete_task_fuel, hw, ht] at hok
          by_cases hrun : t.status = TaskStatus.running ∨ t.status = TaskStatus.waiting_input
          · rw [if_pos hrun] at hok
            by_cases hemp : t.approvers.isEmpty
            · rw [if_pos hemp] at hok
              injection hok with hok2
              subst hok2
              constructor
              · rw [(ihp h _ wid).1]
                simp
              · rw [(ihp h _ wid).2]
                simp
            · rw [if_neg hemp] at hok
              injection hok with hok2
              subst hok2
              simp
          · rw [if_neg hrun] at hok
            exact absurd hok (by simp)

@[simp]
theorem getHeap_setHeap_self (s : Engine) (r : Nat) (m : DataMap) :
    getHeap (setHeap s r m) r = m := by
  simp [getHeap, setHeap, alookup]

@[simp]
theorem getHeap_setHeap_ne (s : Engine) (r r2 : Nat) (m : DataMap) (h : r ≠ r2) :
    getHeap (setHeap s r m) r2 = getHeap s r2 := by
  simp [getHeap, setHeap, alookup, h]

/-- getHeap only reads the heap component. -/
theorem getHeap_congr {s1 s2 : Engine} (h : s1.heap = s2.heap) (r : Nat) :
    getHeap s1 r = getHeap s2 r := by
  unfold getHeap
  rw [h]

theorem mkTasks_length (c : Nat) (tts : List TaskTemplate) :
    (mkTasks c tts).1.length = tts.length := by
  induction tts generalizing c with
  | nil => rfl
  | cons tt rest ih => simp [mkTasks, ih]

/-- Each task built by create_workflow shares its template task's data-mapping
reference (the dict is aliased, not copied). -/
theorem mkTasks_dataRef (c : Nat) (tts : List TaskTemplate) (j : Nat) (tt : TaskTemplate)
    (h : tts[j]? = some tt) :
    ∃ t, (mkTasks c tts).1[j]? = some t ∧ t.dataRef = tt.dataRef := by
  induction tts generalizing c j with
  | nil => simp at h
  | cons tt0 rest ih =>
    cases j with
    | zero =>
      simp at h
      subst h
      refine ⟨{ id := c, name := tt0.name, type := tt0.type, status := TaskStatus.pending,
                assignee := tt0.assignee, approvers := tt0.approvers, dataRef := tt0.dataRef,
                dependencies := tt0.dependencies, result := none,
                approvals := (mkApprovals (c + 1) tt0.approvers).1 }, ?_, rfl⟩
      simp only [mkTasks, List.getElem?_cons_zero]
    | succ j2 =>
      simp at h
      obtain ⟨t, ht, hdr⟩ := ih (mkApprovals (c + 1) tt0.approvers).2 j2 h
      refine ⟨t, ?_, hdr⟩
      simp only [mkTasks, List.getElem?_cons_succ]
      exact ht

/-! ### C2 — unanimous approval advances the cursor -/

/-- Processing with the public fuel budget from a workflow none of whose task
types has a registered handler leaves the cursor unchanged. -/
theorem cursorOf_processNext_fuelFor (h : Handlers) (s : Engine) (wid : Nat) (w : Workflow)
    (hw : lookupW s wid = some w) (hnh : ∀ t ∈ w.tasks, h t.type = none) :
    cursorOf (process_next_task (fuelFor s wid) h s wid) wid = some w.current_task_index := by
  have hf : fuelFor s wid = (3 * w.tasks.length + 8) + 1 := by
    simp [fuelFor, hw]
  rw [hf]
  exact processNext_no_cascade _ h s wid w hw hnh

/-- Counterexample to C2 as stated: with an automatic follow-up task whose
handler succeeds, resolving unanimous approval on the task at cursor 0
advances the cursor by two (the approval advance plus the auto task's own
completion), not by exactly one. -/
theorem c2_counterexample :
    ((exOk (approve_task hOk sampleS2 0 1 10 true "")).bind
        (fun s2 => exOk (approve_task hOk s2 0 1 11 true ""))).bind
      (fun s3 => cursorOf s3 0) = some 2 ∧
    some (2 : Nat) ≠ some (0 + 1) := by
  constructor
  · decide
  · decide

/-- C2 amended: for a WAITING_APPROVAL task at the cursor, approving one of
two live approvals while the other is still PENDING leaves the task in
WAITING_APPROVAL with the cursor and workflow status unchanged; once the
recorded approval leaves every approval of the task non-PENDING and
non-REJECTED (delegated approvals count as resolved and are excluded from the
consensus check), the engine sets the cursor one past the approved task and
resumes processing there — and when no task type of the workflow has a
registered handler (no automatic cascading), the cursor after the call is
exactly one past its previous value. -/
theorem c2_unanimous_approval (h : Handlers) (s : Engine) (wid tid aid : Nat)
    (comment : String) (w : Workflow) (task : Task) (i : Nat) (ap : Approval)
    (hw : lookupW s wid = some w) (ht : findTask w.tasks tid = some (task, i))
    (hst : task.status = TaskStatus.waiting_approval)
    (hap : findApproval task.approvals aid = some ap)
    (hpend : ap.status = ApprovalStatus.pending)
    (hcur : w.current_task_index = i) :
    ((∃ b ∈ recordVerdict task.approvals aid ApprovalStatus.approved comment,
        b.status = ApprovalStatus.pending) →
      ∃ s2, approve_task h s wid tid aid true comment = Except.ok s2 ∧
        taskStatusOf s2 wid tid = some TaskStatus.waiting_approval ∧
        cursorOf s2 wid = some w.current_task_index ∧
        wfStatusOf s2 wid = some w.status) ∧
    ((∀ b ∈ recordVerdict task.approvals aid ApprovalStatus.approved comment,
        b.status ≠ ApprovalStatus.pending ∧ b.status ≠ ApprovalStatus.rejected) →
      (∀ t ∈ w.tasks, h t.type = none) →
      ∃ s2, approve_task h s wid tid aid true comment = Except.ok s2 ∧
        cursorOf s2 wid = some (w.current_task_index + 1)) := by
  have hid : task.id = tid := findTask_some_id ht
  constructor
  · rintro ⟨b, hb, hbp⟩
    simp only [recordVerdict] at hb
    have hscan : (scanApprovals false (updFirstApproval task.approvals aid
        (fun a => { a with status := ApprovalStatus.approved, comment := comment }))).1
        = false := scanApprovals_fst_false false hb hbp
    have hc : approve_task h s wid tid aid true comment = Except.ok
        (add_history_event
          (modifyTask s wid tid (fun t =>
            { t with approvals :=
                updFirstApproval task.approvals aid (fun a => { a with status := ApprovalStatus.approved, comment := comment }) }))
          wid "task_approved"
          [("workflow_id", Val.vn wid), ("task_id", Val.vn tid),
           ("task_name", Val.vs task.name), ("approver", Val.vs ap.approver),
           ("comment", Val.vs comment)]) := by
      simp only [approve_task, hw, ht, hst, hap, hpend, if_true, if_false,
        Bool.false_eq_true, reduceIte, trigger_event_eq]
      rw [if_neg (by rw [hscan]; exact Bool.false_ne_true)]
    refine ⟨_, hc, ?_, ?_, ?_⟩
    · rw [taskStatusOf_add_history]
      rw [taskStatusOf_modifyTask _ hw ht (by simpa using hid)]
      simpa using hst
    · rw [cursorOf_add_history, cursorOf_modifyTask]
      simp [cursorOf, hw]
    · rw [wfStatusOf_add_history, wfStatusOf_modifyTask]
      simp [wfStatusOf, hw]
  · intro hres hnh
    have hfApp : ∀ b ∈ updFirstApproval task.approvals aid
        (fun a => { a with status := ApprovalStatus.approved, comment := comment }),
        b.status ≠ ApprovalStatus.pending ∧ b.status ≠ ApprovalStatus.rejected := by
      simpa [recordVerdict] using hres
    have hscan : scanApprovals false (updFirstApproval task.approvals aid
        (fun a => { a with status := ApprovalStatus.approved, comment := comment }))
        = (true, false) := scanApprovals_resolved false hfApp
    have hc : approve_task h s wid tid aid true comment = Except.ok
        (process_next_task
          (fuelFor
            (modifyW
              (add_history_event
                (modifyTask s wid tid (fun t =>
                  { t with approvals :=
                      updFirstApproval task.approvals aid (fun a => { a with status := ApprovalStatus.approved, comment := comment }) }))
                wid "task_approved"
                [("workflow_id", Val.vn wid), ("task_id", Val.vn tid),
                 ("task_name", Val.vs task.name), ("approver", Val.vs ap.approver),
                 ("comment", Val.vs comment)])
              wid (fun w2 => { w2 with current_task_index := i + 1 }))
            wid)
          h
          (modifyW
            (add_history_event
              (modifyTask s wid tid (fun t =>
                { t with approvals :=
                    updFirstApproval task.approvals aid (fun a => { a with status := ApprovalStatus.approved, comment := comment }) }))
              wid "task_approved"
              [("workflow_id", Val.vn wid), ("task_id", Val.vn tid),
               ("task_name", Val.vs task.name), ("approver", Val.vs ap.approver),
               ("comment", Val.vs comment)])
            wid (fun w2 => { w2 with current_task_index := i + 1 }))
          wid) := by
      simp only [approve_task, hw, ht, hst, hap, hpend, if_true, if_false,
        Bool.false_eq_true, reduceIte, trigger_event_eq, hscan]
    refine ⟨_, hc, ?_⟩
    · rw [hcur]
      refine cursorOf_processNext_fuelFor h _ wid
        { w with
          tasks := updFirstTask w.tasks tid (fun t =>
            { t with approvals :=
                updFirstApproval task.approvals aid (fun a => { a with status := ApprovalStatus.approved, comment := comment }) }),
          history := w.history ++ [{ id := s.nextId, type := "task_approved", data := [("workflow_id", Val.vn wid), ("task_id", Val.vn tid), ("task_name", Val.vs task.name), ("approver", Val.vs ap.approver), ("comment", Val.vs comment)] }],
          current_task_index := i + 1 } ?_ ?_
      · rw [lookupW_modifyW_self, lookupW_add_history_self]
        simp [modifyTask, hw]
      · intro t2 ht2
        obtain ⟨t, htm, hor⟩ := updFirstTask_mem ht2
        rcases hor with rfl | rfl
        · exact hnh _ htm
        · simpa using hnh _ htm

/-- Witness for c2_unanimous_approval: approving approval 10 of the sample
two-task workflow leaves it WAITING_APPROVAL; approving the remaining
approval 11 afterwards moves the cursor from 0 to 1 (the follow-up task is
manual, no handler registered). -/
theorem c2_unanimous_approval_witness :
    (∃ s2, approve_task hNone sampleS3 0 1 10 true "" = Except.ok s2 ∧
      taskStatusOf s2 0 1 = some TaskStatus.waiting_approval ∧
      cursorOf s2 0 = some 0 ∧
      wfStatusOf s2 0 = some WorkflowStatus.running) ∧
    (∃ s3, approve_task hNone sampleS3b 0 1 11 true "" = Except.ok s3 ∧
      cursorOf s3 0 = some 1) := by
  constructor
  · exact (c2_unanimous_approval hNone sampleS3 0 1 10 "" sampleWF3 sampleTaskAB 0
      { id := 10, approver := "A", status := ApprovalStatus.pending, comment := "" }
      rfl rfl rfl rfl rfl rfl).1 (by decide)
  · exact (c2_unanimous_approval hNone sampleS3b 0 1 11 "" sampleWF3b sampleTaskAB2 0
      { id := 11, approver := "B", status := ApprovalStatus.pending, comment := "" }
      rfl rfl rfl rfl rfl rfl).2 (by decide) (fun t _ => rfl)

/-! ### C4 — create_workflow shares template task data by reference -/

/-- Counterexample to C4 as stated: creating a workflow from the registered
template, starting it (the input task parks in WAITING_INPUT) and supplying
input mutates the template's stored task data — the template's task 0 data
mapping gains the input key, so the Template Store copy did change. -/
theorem c4_counterexample :
    templateTaskData sampleS5 "T" 0 = some [] ∧
    (((exOk (create_workflow sampleS5 "T" 50)).bind (fun p =>
        (exOk (start_workflow hNone p.2 p.1)).bind (fun s =>
          exOk (provide_input hNone s p.1 101 [("x", Val.vn 5)])))).bind
      (fun s => templateTaskData s "T" 0))
      = some [("input", Val.vmap [("x", Val.vn 5)])] ∧
    some ([] : DataMap) ≠ some [("input", Val.vmap [("x", Val.vn 5)])] := by
  refine ⟨rfl, rfl, ?_⟩
  intro hne
  injection hne with h2
  exact List.noConfusion h2

/-- C4 amended: create_workflow copies the template's task list into fresh
Task/Approval instances with new ids, but each task's data mapping is shared
by reference with the template task; provide_input writes the supplied input
into that shared mapping in place, so the write is visible through the
template's own reference — the template's stored task data changes. -/
theorem c4_shared_template_data (s : Engine) (template_id : String) (dr : Nat)
    (tpl : Template) (hreg : alookup s.workflow_templates template_id = some tpl) :
    (∃ p, create_workflow s template_id dr = Except.ok p ∧
      ∃ w2, lookupW p.2 p.1 = some w2 ∧
        ∀ (j : Nat) (tt : TaskTemplate), tpl.tasks[j]? = some tt →
          ∃ t : Task, w2.tasks[j]? = some t ∧ t.dataRef = tt.dataRef) ∧
    (∀ (h : Handlers) (s3 : Engine) (wid3 tid3 : Nat) (w3 : Workflow) (t3 : Task) (i3 : Nat)
        (input : DataMap),
      lookupW s3 wid3 = some w3 → findTask w3.tasks tid3 = some (t3, i3) →
      t3.status = TaskStatus.waiting_input →
      ∃ s4, provide_input h s3 wid3 tid3 input = Except.ok s4 ∧
        getHeap s4 t3.dataRef = setKey (getHeap s3 t3.dataRef) "input" (Val.vmap input) ∧
        ∀ (tid2 : String) (tpl2 : Template) (j2 : Nat) (tt2 : TaskTemplate),
          alookup s3.workflow_templates tid2 = some tpl2 →
          tpl2.tasks[j2]? = some tt2 → tt2.dataRef = t3.dataRef →
          templateTaskData s4 tid2 j2 =
            some (setKey (getHeap s3 t3.dataRef) "input" (Val.vmap input))) := by
  constructor
  · have hc : create_workflow s template_id dr = Except.ok
        (s.nextId,
          add_history_event
            (setW { s with nextId := (mkTasks (s.nextId + 1) tpl.tasks).2 } s.nextId
              { id := s.nextId, template_id := template_id, name := tpl.name,
                status := WorkflowStatus.created,
                tasks := (mkTasks (s.nextId + 1) tpl.tasks).1, dataRef := dr,
                current_task_index := 0, history := [] })
            s.nextId "workflow_created"
            [("template_id", Val.vs template_id), ("workflow_id", Val.vn s.nextId),
             ("workflow_name", Val.vs tpl.name)]) := by
      simp only [create_workflow, hreg, Engine.freshId, trigger_event_eq]
    refine ⟨_, hc, ?_⟩
    refine ⟨{ id := s.nextId, template_id := template_id, name := tpl.name,
              status := WorkflowStatus.created,
              tasks := (mkTasks (s.nextId + 1) tpl.tasks).1, dataRef := dr,
              current_task_index := 0,
              history := [{ id := (mkTasks (s.nextId + 1) tpl.tasks).2, type := "workflow_created", data := [("template_id", Val.vs template_id), ("workflow_id", Val.vn s.nextId), ("workflow_name", Val.vs tpl.name)] }] },
      ?_, ?_⟩
    · rw [lookupW_add_history_self, lookupW_setW_self]
      simp
    · intro j tt htt
      exact mkTasks_dataRef _ _ _ _ htt
  · intro h s3 wid3 tid3 w3 t3 i3 input hw3 ht3 hst3
    have hc : provide_input h s3 wid3 tid3 input = Except.ok
        (execute_task
          (fuelFor
            (add_history_event
              (setHeap (modifyTask s3 wid3 tid3 (fun t => { t with status := TaskStatus.running }))
                t3.dataRef
                (setKey
                  (getHeap (modifyTask s3 wid3 tid3 (fun t => { t with status := TaskStatus.running }))
                    t3.dataRef)
                  "input" (Val.vmap input)))
              wid3 "input_provided"
              [("workflow_id", Val.vn wid3), ("task_id", Val.vn tid3),
               ("task_name", Val.vs t3.name)])
            wid3)
          h
          (add_history_event
            (setHeap (modifyTask s3 wid3 tid3 (fun t => { t with status := TaskStatus.running }))
              t3.dataRef
              (setKey
                (getHeap (modifyTask s3 wid3 tid3 (fun t => { t with status := TaskStatus.running }))
                  t3.dataRef)
                "input" (Val.vmap input)))
            wid3 "input_provided"
            [("workflow_id", Val.vn wid3), ("task_id", Val.vn tid3),
             ("task_name", Val.vs t3.name)])
          wid3 tid3) := by
      simp only [provide_input, hw3, ht3, hst3, reduceIte, trigger_event_eq]
    refine ⟨_, hc, ?_, ?_⟩
    · rw [getHeap_congr ((stores_preserved _).2.1 h _ wid3 tid3).1 t3.dataRef]
      rw [getHeap_congr (heap_add_history _ _ _ _) t3.dataRef]
      rw [getHeap_setHeap_self]
      rw [getHeap_congr (heap_modifyTask s3 wid3 tid3 _) t3.dataRef]
    · intro tid2 tpl2 j2 tt2 hreg2 htt2 hdr2
      unfold templateTaskData
      rw [((stores_preserved _).2.1 h _ wid3 tid3).2, templates_add_history, templates_setHeap,
        templates_modifyTask, hreg2]
      simp only [Option.some_bind, htt2, Option.map_some']
      rw [hdr2]
      rw [getHeap_congr ((stores_preserved _).2.1 h _ wid3 tid3).1 t3.dataRef]
      rw [getHeap_congr (heap_add_history _ _ _ _) t3.dataRef]
      rw [getHeap_setHeap_self]
      rw [getHeap_congr (heap_modifyTask s3 wid3 tid3 _) t3.dataRef]

/-- Witness for c4_shared_template_data: the sample template and the workflow
created from it, with input supplied to the parked input task. -/
theorem c4_shared_template_data_witness :
    (∃ p, create_workflow sampleS5 "T" 50 = Except.ok p ∧
      ∃ w2, lookupW p.2 p.1 = some w2 ∧
        ∀ (j : Nat) (tt : TaskTemplate), sampleTpl.tasks[j]? = some tt →
          ∃ t : Task, w2.tasks[j]? = some t ∧ t.dataRef = tt.dataRef) ∧
    (∃ s4, provide_input hNone sampleS5b 100 101 [("x", Val.vn 5)] = Except.ok s4 ∧
      getHeap s4 0 = setKey (getHeap sampleS5b 0) "input" (Val.vmap [("x", Val.vn 5)]) ∧
      ∀ (tid2 : String) (tpl2 : Template) (j2 : Nat) (tt2 : TaskTemplate),
        alookup sampleS5b.workflow_templates tid2 = some tpl2 →
        tpl2.tasks[j2]? = some tt2 → tt2.dataRef = 0 →
        templateTaskData s4 tid2 j2 =
          some (setKey (getHeap sampleS5b 0) "input" (Val.vmap [("x", Val.vn 5)]))) :=
  ⟨(c4_shared_template_data sampleS5 "T" 50 sampleTpl rfl).1,
   (c4_shared_template_data sampleS5b "T" 50 sampleTpl rfl).2 hNone sampleS5b 100 101
     sampleWF5 sampleTaskInput 0 [("x", Val.vn 5)] rfl rfl rfl⟩

/-! ### C5 — create_workflow id freshness -/

/-- Counter behavior, id bounds and distinctness for the approvals built by
create_workflow. -/
theorem mkApprovals_spec (c : Nat) (l : List String) :
    (mkApprovals c l).2 = c + l.length ∧
    (mkApprovals c l).1.length = l.length ∧
    (∀ a ∈ (mkApprovals c l).1, c ≤ a.id ∧ a.id < c + l.length) ∧
    ((mkApprovals c l).1.map (fun a => a.id)).Nodup := by
  induction l generalizing c with
  | nil => exact ⟨rfl, rfl, by simp [mkApprovals], by simp [mkApprovals]⟩
  | cons ap rest ih =>
    obtain ⟨h2, hlen, hbound, hnd⟩ := ih (c + 1)
    refine ⟨?_, ?_, ?_, ?_⟩
    · simp only [mkApprovals, h2, List.length_cons]
      omega
    · simp [mkApprovals, hlen]
    · intro a ha
      rw [mkApprovals] at ha
      rcases List.mem_cons.mp ha with rfl | hmem
      · simp only [List.length_cons]
        omega
      · have := hbound a hmem
        simp only [List.length_cons]
        omega
    · rw [mkApprovals]
      simp only [List.map_cons, List.nodup_cons]
      refine ⟨?_, hnd⟩
      intro hmem
      obtain ⟨a, hamem, haid⟩ := List.mem_map.mp hmem
      have := (hbound a hamem).1
      omega

/-- Counter behavior, id bounds and pairwise distinctness for the tasks (and
their approvals) built by create_workflow. -/
theorem mkTasks_spec (c : Nat) (tts : List TaskTemplate) :
    c ≤ (mkTasks c tts).2 ∧
    (∀ x ∈ taskApprovalIds (mkTasks c tts).1, c ≤ x ∧ x < (mkTasks c tts).2) ∧
    (taskApprovalIds (mkTasks c tts).1).Nodup := by
  induction tts generalizing c with
  | nil =>
    exact ⟨Nat.le_refl c, by simp [mkTasks, taskApprovalIds], by simp [mkTasks, taskApprovalIds]⟩
  | cons tt rest ih =>
    obtain ⟨ha2, halen, habound, hand⟩ := mkApprovals_spec (c + 1) tt.approvers
    obtain ⟨ihle, ihbound, ihnd⟩ := ih (mkApprovals (c + 1) tt.approvers).2
    have hids : taskApprovalIds (mkTasks c (tt :: rest)).1
        = c :: ((mkApprovals (c + 1) tt.approvers).1.map (fun a => a.id)
            ++ taskApprovalIds (mkTasks (mkApprovals (c + 1) tt.approvers).2 rest).1) := by
      simp [mkTasks, taskApprovalIds]
    have hsnd : (mkTasks c (tt :: rest)).2
        = (mkTasks (mkApprovals (c + 1) tt.approvers).2 rest).2 := by
      simp [mkTasks]
    refine ⟨?_, ?_, ?_⟩
    · rw [hsnd]
      omega
    · intro x hx
      rw [hids] at hx
      rw [hsnd]
      rcases List.mem_cons.mp hx with rfl | hx2
      · exact ⟨Nat.le_refl x, by omega⟩
      · rcases List.mem_append.mp hx2 with hx3 | hx3
        · obtain ⟨a, ham, rfl⟩ := List.mem_map.mp hx3
          have := habound a ham
          constructor <;> omega
        · have := ihbound x hx3
          constructor <;> omega
    · rw [hids, List.nodup_cons]
      constructor
      · intro hmem
        rcases List.mem_append.mp hmem with hx3 | hx3
        · obtain ⟨a, ham, haid⟩ := List.mem_map.mp hx3
          have := (habound a ham).1
          omega
        · have := (ihbound c hx3).1
          omega
      · rw [List.nodup_append]
        refine ⟨hand, ihnd, ?_⟩
        intro x hx3 hx4
        obtain ⟨a, ham, rfl⟩ := List.mem_map.mp hx3
        have h1 := (habound a ham).2
        have h2 := (ihbound a.id hx4).1
        omega

/-- C5: create_workflow raises a not-found error for an unregistered template
id; otherwise it returns a new workflow in status CREATED whose task count
equals the template's, and whose task and approval ids are freshly generated
(all above the engine's fresh-id watermark), pairwise distinct, and distinct
from every id appearing in the template (which, as stored engine ids, sit
below the watermark). -/
theorem c5_create_workflow (s : Engine) (template_id : String) (dr : Nat) :
    (alookup s.workflow_templates template_id = none →
      create_workflow s template_id dr = Except.error "Workflow-Vorlage nicht gefunden") ∧
    (∀ tpl, alookup s.workflow_templates template_id = some tpl →
      ∃ p, create_workflow s template_id dr = Except.ok p ∧
        ∃ w2, lookupW p.2 p.1 = some w2 ∧
          w2.status = WorkflowStatus.created ∧
          w2.tasks.length = tpl.tasks.length ∧
          (taskApprovalIds w2.tasks).Nodup ∧
          (∀ x ∈ taskApprovalIds w2.tasks, s.nextId < x) ∧
          (∀ x ∈ taskApprovalIds w2.tasks, ∀ tt ∈ tpl.tasks, ∀ oid,
            tt.tid = some oid → oid < s.nextId → x ≠ oid)) := by
  constructor
  · intro hnone
    simp [create_workflow, hnone]
  · intro tpl hreg
    have hc : create_workflow s template_id dr = Except.ok
        (s.nextId,
          add_history_event
            (setW { s with nextId := (mkTasks (s.nextId + 1) tpl.tasks).2 } s.nextId
              { id := s.nextId, template_id := template_id, name := tpl.name,
                status := WorkflowStatus.created,
                tasks := (mkTasks (s.nextId + 1) tpl.tasks).1, dataRef := dr,
                current_task_index := 0, history := [] })
            s.nextId "workflow_created"
            [("template_id", Val.vs template_id), ("workflow_id", Val.vn s.nextId),
             ("workflow_name", Val.vs tpl.name)]) := by
      simp only [create_workflow, hreg, Engine.freshId, trigger_event_eq]
    refine ⟨_, hc, ?_⟩
    refine ⟨{ id := s.nextId, template_id := template_id, name := tpl.name,
              status := WorkflowStatus.created,
              tasks := (mkTasks (s.nextId + 1) tpl.tasks).1, dataRef := dr,
              current_task_index := 0,
              history := [{ id := (mkTasks (s.nextId + 1) tpl.tasks).2, type := "workflow_created", data := [("template_id", Val.vs template_id), ("workflow_id", Val.vn s.nextId), ("workflow_name", Val.vs tpl.name)] }] },
      ?_, rfl, mkTasks_length _ _, ?_, ?_, ?_⟩
    · rw [lookupW_add_history_self, lookupW_setW_self]
      simp
    · exact (mkTasks_spec (s.nextId + 1) tpl.tasks).2.2
    · intro x hx
      have := ((mkTasks_spec (s.nextId + 1) tpl.tasks).2.1 x hx).1
      omega
    · intro x hx tt htt oid hoid hlt
      have := ((mkTasks_spec (s.nextId + 1) tpl.tasks).2.1 x hx).1
      omega

/-- Witness for c5_create_workflow: instantiating the template with one plain
task and one two-approver task registered in the sample engine. -/
theorem c5_create_workflow_witness :
    ∃ p, create_workflow sampleS6 "T2" 50 = Except.ok p ∧
      ∃ w2, lookupW p.2 p.1 = some w2 ∧
        w2.status = WorkflowStatus.created ∧
        w2.tasks.length = sampleTpl2.tasks.length ∧
        (taskApprovalIds w2.tasks).Nodup ∧
        (∀ x ∈ taskApprovalIds w2.tasks, sampleS6.nextId < x) ∧
        (∀ x ∈ taskApprovalIds w2.tasks, ∀ tt ∈ sampleTpl2.tasks, ∀ oid,
          tt.tid = some oid → oid < sampleS6.nextId → x ≠ oid) :=
  (c5_create_workflow sampleS6 "T2" 50).2 sampleTpl2 rfl

/-! ### C9 — export_workflow then import_workflow -/

/-- Counter behavior, id bounds, distinctness and id-map effect of the
approval-freshening pass of import_workflow. -/
theorem importApprovals_spec (c : Nat) (m : List (Nat × Nat)) (aps : List Approval) :
    (importApprovals c m aps).2.2 = c + aps.length ∧
    (importApprovals c m aps).1.length = aps.length ∧
    (∀ a2 ∈ (importApprovals c m aps).1, c ≤ a2.id ∧ a2.id < c + aps.length) ∧
    ((importApprovals c m aps).1.map (fun a => a.id)).Nodup ∧
    (∀ d, d ∉ aps.map (fun a => a.id) →
      alookup (importApprovals c m aps).2.1 d = alookup m d) := by
  induction aps generalizing c m with
  | nil => exact ⟨rfl, rfl, by simp [importApprovals], by simp [importApprovals],
      fun d _ => rfl⟩
  | cons a rest ih =>
    obtain ⟨h2, hlen, hbound, hnd, hmap⟩ := ih (c + 1) ((a.id, c) :: m)
    refine ⟨?_, ?_, ?_, ?_, ?_⟩
    · simp only [importApprovals, h2, List.length_cons]
      omega
    · simp [importApprovals, hlen]
    · intro a2 ha2
      rw [importApprovals] at ha2
      rcases List.mem_cons.mp ha2 with rfl | hmem
      · simp only [List.length_cons]
        omega
      · have := hbound a2 hmem
        simp only [List.length_cons]
        omega
    · rw [importApprovals]
      simp only [List.map_cons, List.nodup_cons]
      refine ⟨?_, hnd⟩
      intro hmem
      obtain ⟨a2, hamem, haid⟩ := List.mem_map.mp hmem
      have := (hbound a2 hamem).1
      omega
    · intro d hd
      rw [importApprovals]
      have hd1 : d ≠ a.id := by
        intro hda
        exact hd (by simp [hda])
      have hd2 : d ∉ rest.map (fun a2 => a2.id) := by
        intro hdr
        exact hd (by simp [hdr])
      rw [hmap d hd2]
      rw [alookup]
      rw [if_neg (fun h : a.id = d => hd1 h.symm)]

/-- Lengths, counter behavior, id-map effect, id bounds, distinctness and
per-index correspondence of the task-freshening pass of import_workflow. -/
theorem importTasks_spec (c : Nat) (m : List (Nat × Nat)) (sts : List SnapTask)
    (hnd : (snapTaskIds sts).Nodup) :
    (importTasks c m sts).1.length = sts.length ∧
    c ≤ (importTasks c m sts).2.2.2 ∧
    (∀ d, d ∉ snapTaskIds sts → alookup (importTasks c m sts).2.2.1 d = alookup m d) ∧
    (∀ x ∈ taskApprovalIds (importTasks c m sts).1, c ≤ x ∧ x < (importTasks c m sts).2.2.2) ∧
    (taskApprovalIds (importTasks c m sts).1).Nodup ∧
    (∀ (k : Nat) (st : SnapTask), sts[k]? = some st →
      ∃ t : Task, (importTasks c m sts).1[k]? = some t ∧
        t.name = st.name ∧ t.dependencies = st.dependencies ∧
        alookup (importTasks c m sts).2.2.1 st.id = some t.id) := by
  induction sts generalizing c m with
  | nil =>
    exact ⟨rfl, Nat.le_refl c, fun d _ => rfl, by simp [importTasks, taskApprovalIds],
      by simp [importTasks, taskApprovalIds], fun k st hk => by simp at hk⟩
  | cons st rest ih =>
    have hnd2 : ((st.id :: st.approvals.map (fun a => a.id)) ++ snapTaskIds rest).Nodup := by
      simpa only [snapTaskIds, List.flatMap_cons, List.cons_append] using hnd
    obtain ⟨n1, n2, disj⟩ := List.nodup_append.mp hnd2
    have hstap : st.id ∉ st.approvals.map (fun a => a.id) := (List.nodup_cons.mp n1).1
    have hstrest : st.id ∉ snapTaskIds rest := disj (List.mem_cons_self _ _)
    obtain ⟨ha2, halen, habound, hanod, hamap⟩ :=
      importApprovals_spec (c + 2) ((st.id, c + 1) :: m) st.approvals
    obtain ⟨ihlen, ihle, ihmap, ihbound, ihnd, ihidx⟩ :=
      ih (importApprovals (c + 2) ((st.id, c + 1) :: m) st.approvals).2.2
        (importApprovals (c + 2) ((st.id, c + 1) :: m) st.approvals).2.1 n2
    have hfst : (importTasks c m (st :: rest)).1
        = { id := c + 1, name := st.name, type := st.type, status := st.status,
            assignee := st.assignee, approvers := st.approvers, dataRef := c,
            dependencies := st.dependencies, result := st.result,
            approvals := (importApprovals (c + 2) ((st.id, c + 1) :: m) st.approvals).1 }
          :: (importTasks (importApprovals (c + 2) ((st.id, c + 1) :: m) st.approvals).2.2
              (importApprovals (c + 2) ((st.id, c + 1) :: m) st.approvals).2.1 rest).1 := by
      simp [importTasks]
    have hmapeq : (importTasks c m (st :: rest)).2.2.1
        = (importTasks (importApprovals (c + 2) ((st.id, c + 1) :: m) st.approvals).2.2
            (importApprovals (c + 2) ((st.id, c + 1) :: m) st.approvals).2.1 rest).2.2.1 := by
      simp [importTasks]
    have hcnt : (importTasks c m (st :: rest)).2.2.2
        = (importTasks (importApprovals (c + 2) ((st.id, c + 1) :: m) st.approvals).2.2
            (importApprovals (c + 2) ((st.id, c + 1) :: m) st.approvals).2.1 rest).2.2.2 := by
      simp [importTasks]
    have hids : taskApprovalIds (importTasks c m (st :: rest)).1
        = (c + 1) :: ((importApprovals (c + 2) ((st.id, c + 1) :: m) st.approvals).1.map (fun a => a.id)
            ++ taskApprovalIds (importTasks (importApprovals (c + 2) ((st.id, c + 1) :: m) st.approvals).2.2
                (importApprovals (c + 2) ((st.id, c + 1) :: m) st.approvals).2.1 rest).1) := by
      rw [hfst]
      simp [taskApprovalIds]
    refine ⟨?_, ?_, ?_, ?_, ?_, ?_⟩
    · rw [hfst]
      simp [ihlen]
    · rw [hcnt]
      omega
    · intro d hd
      have hcons : snapTaskIds (st :: rest)
          = (st.id :: st.approvals.map (fun a => a.id)) ++ snapTaskIds rest := by
        simp only [snapTaskIds, List.flatMap_cons, List.cons_append]
      have hd1 : d ≠ st.id := by
        intro hda
        apply hd
        rw [hcons]
        exact List.mem_append_left _ (by simp [hda])
      have hd2 : d ∉ st.approvals.map (fun a => a.id) := by
        intro hdr
        apply hd
        rw [hcons]
        exact List.mem_append_left _ (List.mem_cons_of_mem _ hdr)
      have hd3 : d ∉ snapTaskIds rest := by
        intro hdr
        apply hd
        rw [hcons]
        exact List.mem_append_right _ hdr
      rw [hmapeq, ihmap d hd3, hamap d hd2]
      rw [alookup]
      rw [if_neg (fun h : st.id = d => hd1 h.symm)]
    · intro x hx
      rw [hids] at hx
      rw [hcnt]
      rcases List.mem_cons.mp hx with rfl | hx2
      · omega
      · rcases List.mem_append.mp hx2 with hx3 | hx3
        · obtain ⟨a, ham, rfl⟩ := List.mem_map.mp hx3
          have := habound a ham
          constructor <;> omega
        · have := ihbound x hx3
          constructor <;> omega
    · rw [hids, List.nodup_cons]
      constructor
      · intro hmem
        rcases List.mem_append.mp hmem with hx3 | hx3
        · obtain ⟨a, ham, haid⟩ := List.mem_map.mp hx3
          have := (habound a ham).1
          omega
        · have := (ihbound (c + 1) hx3).1
          omega
      · rw [List.nodup_append]
        refine ⟨hanod, ihnd, ?_⟩
        intro x hx3 hx4
        obtain ⟨a, ham, rfl⟩ := List.mem_map.mp hx3
        have h1 := (habound a ham).2
        have h2 := (ihbound a.id hx4).1
        omega
    · intro k st2 hk
      cases k with
      | zero =>
        simp at hk
        subst hk
        refine ⟨{ id := c + 1, name := st.name, type := st.type, status := st.status,
                  assignee := st.assignee, approvers := st.approvers, dataRef := c,
                  dependencies := st.dependencies, result := st.result,
                  approvals := (importApprovals (c + 2) ((st.id, c + 1) :: m) st.approvals).1 },
          ?_, rfl, rfl, ?_⟩
        · rw [hfst]
          simp only [List.getElem?_cons_zero]
        · rw [hmapeq, ihmap st.id hstrest, hamap st.id hstap]
          rw [alookup]
          simp
      | succ k2 =>
        simp at hk
        obtain ⟨t, ht, hna, hdep, hlk⟩ := ihidx k2 st2 hk
        refine ⟨t, ?_, hna, hdep, ?_⟩
        · rw [hfst]
          simp only [List.getElem?_cons_succ]
          exact ht
        · rw [hmapeq]
          exact hlk

/-- Exporting materializes data but keeps every task and approval id. -/
theorem snapTaskIds_export (s : Engine) (ts : List Task) :
    snapTaskIds (ts.map (fun t =>
      ({ id := t.id, name := t.name, type := t.type, status := t.status,
         assignee := t.assignee, approvers := t.approvers, data := getHeap s t.dataRef,
         dependencies := t.dependencies, result := t.result,
         approvals := t.approvals } : SnapTask))) = taskApprovalIds ts := by
  induction ts with
  | nil => rfl
  | cons t ts ih =>
    simp only [snapTaskIds, taskApprovalIds] at ih ⊢
    simp [ih]

/-- Rewriting dependency lists changes no task or approval id. -/
theorem taskApprovalIds_map_deps (l : List Task) (g : Task → List Nat) :
    taskApprovalIds (l.map (fun t => { t with dependencies := g t })) = taskApprovalIds l := by
  induction l with
  | nil => rfl
  | cons t ts ih =>
    simp only [taskApprovalIds] at ih ⊢
    simp [ih]

/-- C9: importing an exported workflow registers a new workflow with the same
number of tasks in the same order; an id-translation map sends each old task
id to the new id of the task at the same position, every dependency list is
rewritten through that map (so the dependency structure is isomorphic under
it and ids not belonging to the snapshot are silently dropped); the new
workflow id, task ids and approval ids are freshly generated, pairwise
distinct and disjoint from the exported workflow's ids. -/
theorem c9_export_import (s : Engine) (wid : Nat) (w : Workflow) (snap : Snapshot)
    (hw : lookupW s wid = some w)
    (hsnap : export_workflow s wid = Except.ok snap)
    (hnd : (workflowIds w).Nodup)
    (hbelow : ∀ x ∈ workflowIds w, x < s.nextId) :
    ∃ s2, import_workflow s snap = (s.nextId, s2) ∧
    ∃ w2, lookupW s2 s.nextId = some w2 ∧
      w2.tasks.length = w.tasks.length ∧
      s.nextId ∉ workflowIds w ∧
      (taskApprovalIds w2.tasks).Nodup ∧
      (∀ x ∈ taskApprovalIds w2.tasks, s.nextId < x ∧ x ∉ workflowIds w) ∧
      ∃ tr : Nat → Option Nat,
        (∀ (k : Nat) (t : Task), w.tasks[k]? = some t →
          ∃ t2 : Task, w2.tasks[k]? = some t2 ∧ t2.name = t.name ∧
            tr t.id = some t2.id ∧ t2.dependencies = t.dependencies.filterMap tr) ∧
        (∀ d, d ∉ workflowIds w → tr d = none) := by
  simp only [export_workflow, hw] at hsnap
  injection hsnap with hs
  subst hs
  have hndc := List.nodup_cons.mp (by simpa only [workflowIds] using hnd)
  have hndt : (taskApprovalIds w.tasks).Nodup := hndc.2
  set sts := w.tasks.map (fun t =>
    ({ id := t.id, name := t.name, type := t.type, status := t.status,
       assignee := t.assignee, approvers := t.approvers, data := getHeap s t.dataRef,
       dependencies := t.dependencies, result := t.result,
       approvals := t.approvals } : SnapTask)) with hsts
  have hsnapids : snapTaskIds sts = taskApprovalIds w.tasks := snapTaskIds_export s w.tasks
  obtain ⟨slen, sle, smap, sbound, snodup, sidx⟩ :=
    importTasks_spec (s.nextId + 1 + 1) [(w.id, s.nextId)] sts
      (by rw [hsnapids]; exact hndt)
  simp only [import_workflow, Engine.freshId, trigger_event_eq]
  refine ⟨_, rfl, ?_⟩
  simp only [lookupW_add_history_self, lookupW_setW_self, Option.map_some']
  refine ⟨_, rfl, ?_, ?_, ?_, ?_, ?_⟩
  · simp only [List.length_map]
    rw [slen, hsts, List.length_map]
  · intro hmem
    have := hbelow _ hmem
    omega
  · rw [taskApprovalIds_map_deps]
    exact snodup
  · intro x hx
    rw [taskApprovalIds_map_deps] at hx
    have hb := sbound x hx
    refine ⟨by omega, fun hmem => ?_⟩
    have := hbelow _ hmem
    omega
  · refine ⟨fun d =>
      alookup (importTasks (s.nextId + 1 + 1) [(w.id, s.nextId)] sts).2.2.1 d, ?_, ?_⟩
    · intro k t hk
      have hks : sts[k]? = some
          ({ id := t.id, name := t.name, type := t.type, status := t.status,
             assignee := t.assignee, approvers := t.approvers, data := getHeap s t.dataRef,
             dependencies := t.dependencies, result := t.result,
             approvals := t.approvals } : SnapTask) := by
        rw [hsts, List.getElem?_map, hk]
        rfl
      obtain ⟨t1, ht1, hname, hdeps, hlk⟩ := sidx k _ hks
      refine ⟨{ t1 with
          dependencies :=
            t1.dependencies.filterMap (fun d =>
              alookup (importTasks (s.nextId + 1 + 1) [(w.id, s.nextId)] sts).2.2.1 d) },
        ?_, ?_, ?_, ?_⟩
      · rw [List.getElem?_map, ht1]
        rfl
      · exact hname
      · exact hlk
      · dsimp only
        rw [hdeps]
    · intro d hd
      have hd1 : d ≠ w.id := fun hda => hd (by simp [workflowIds, hda])
      have hd2 : d ∉ taskApprovalIds w.tasks := fun hdr => hd (by simp [workflowIds, hdr])
      have h1 := smap d (by rw [hsnapids]; exact hd2)
      have h2 : alookup [(w.id, s.nextId)] d = (none : Option Nat) := by
        rw [alookup]
        rw [if_neg (fun hh : w.id = d => hd1 hh.symm)]
        rfl
      exact h1.trans h2

/-- Witness for c9_export_import at the sample two-task workflow with one
intra-workflow dependency and one dangling dependency id. -/
theorem c9_export_import_witness :
    ∃ s2, import_workflow sampleS9 sampleSnap9 = (100, s2) ∧
    ∃ w2, lookupW s2 100 = some w2 ∧
      w2.tasks.length = sampleWF9.tasks.length ∧
      (100 : Nat) ∉ workflowIds sampleWF9 ∧
      (taskApprovalIds w2.tasks).Nodup ∧
      (∀ x ∈ taskApprovalIds w2.tasks, 100 < x ∧ x ∉ workflowIds sampleWF9) ∧
      ∃ tr : Nat → Option Nat,
        (∀ (k : Nat) (t : Task), sampleWF9.tasks[k]? = some t →
          ∃ t2 : Task, w2.tasks[k]? = some t2 ∧ t2.name = t.name ∧
            tr t.id = some t2.id ∧ t2.dependencies = t.dependencies.filterMap tr) ∧
        (∀ d, d ∉ workflowIds sampleWF9 → tr d = none) :=
  c9_export_import sampleS9 0 sampleWF9 sampleSnap9 rfl rfl (by decide) (by decide)

/-! ### C6 — handler failure during automatic dispatch -/

/-- C6: when the handler registered for a task's type raises during dispatch,
the exception is captured (execute_task returns a successor state instead of
re-raising — its return type is a plain Engine), the task transitions to
FAILED, the owning workflow transitions to FAILED, and a task_failed history
event carrying the raised error message is appended to the workflow's
history. -/
theorem c6_execute_task_handler_error (fuel : Nat) (h : Handlers) (s : Engine)
    (wid tid : Nat) (w : Workflow) (task : Task) (i : Nat)
    (handler : Nat → Nat → DataMap → Except String DataMap) (msg : String)
    (hw : lookupW s wid = some w) (ht : findTask w.tasks tid = some (task, i))
    (hh : h task.type = some handler)
    (he : handler wid tid (getHeap s task.dataRef) = Except.error msg) :
    taskStatusOf (execute_task (fuel + 1) h s wid tid) wid tid = some TaskStatus.failed ∧
    wfStatusOf (execute_task (fuel + 1) h s wid tid) wid = some WorkflowStatus.failed ∧
    ∃ hist, historyOf (execute_task (fuel + 1) h s wid tid) wid = some hist ∧
      ∃ e ∈ hist, e.type = "task_failed" ∧ ("reason", Val.vs msg) ∈ e.data := by
  have hid : task.id = tid := findTask_some_id ht
  have hc : execute_task (fuel + 1) h s wid tid =
      execute_task_fail s wid tid task.name w.name msg := by
    simp only [execute_task, hw, ht, hh, he]
  rw [hc]
  unfold execute_task_fail
  have hw1 : lookupW (modifyTask s wid tid (fun t => { t with status := TaskStatus.failed }))
      wid = some { w with
        tasks := updFirstTask w.tasks tid (fun t => { t with status := TaskStatus.failed }) } := by
    simp [modifyTask, hw]
  refine ⟨?_, ?_, ?_⟩
  · simp only [trigger_event_eq, taskStatusOf_add_history, taskStatusOf_modifyW_status]
    exact taskStatusOf_modifyTask _ hw ht hid
  · simp only [trigger_event_eq, wfStatusOf_add_history, wfStatusOf_modifyW_status]
    simp [hw1]
  · simp only [trigger_event_eq, historyOf_add_history, historyOf_modifyW_status]
    rw [historyOf_modifyTask_eq tid _ hw]
    refine ⟨_, rfl, ?_⟩
    refine ⟨{ id := s.nextId, type := "task_failed",
              data := [("workflow_id", Val.vn wid), ("task_id", Val.vn tid),
                       ("task_name", Val.vs task.name), ("reason", Val.vs msg)] }, ?_, ?_⟩
    · simp
    · simp

/-! ### C1 — rejection and consensus -/

/-- Counterexample to C1 as stated: rejecting approver A's PENDING approval
while approver B's approval is still PENDING leaves the task in
WAITING_APPROVAL and the workflow RUNNING — neither becomes FAILED, because
the consensus loop only acts once no approval is PENDING. -/
theorem c1_counterexample :
    (exOk (approve_task hNone sampleS1 0 1 10 false "no")).bind
        (fun s2 => taskStatusOf s2 0 1) = some TaskStatus.waiting_approval ∧
    some TaskStatus.waiting_approval ≠ some TaskStatus.failed ∧
    (exOk (approve_task hNone sampleS1 0 1 10 false "no")).bind
        (fun s2 => wfStatusOf s2 0) = some WorkflowStatus.running ∧
    some WorkflowStatus.running ≠ some WorkflowStatus.failed := by
  refine ⟨by decide, by decide, by decide, by decide⟩

/-- C1 amended: a rejection forces the task and the workflow to FAILED only
when it leaves no approval PENDING; while some approval of the task is still
PENDING, the rejection is merely recorded — the task stays WAITING_APPROVAL
and the workflow's status and cursor are unchanged. -/
theorem c1_rejection_consensus (h : Handlers) (s : Engine) (wid tid aid : Nat)
    (comment : String) (w : Workflow) (task : Task) (i : Nat) (ap : Approval)
    (hw : lookupW s wid = some w) (ht : findTask w.tasks tid = some (task, i))
    (hst : task.status = TaskStatus.waiting_approval)
    (hap : findApproval task.approvals aid = some ap)
    (hpend : ap.status = ApprovalStatus.pending) :
    ((∃ b ∈ recordVerdict task.approvals aid ApprovalStatus.rejected comment,
        b.status = ApprovalStatus.pending) →
      ∃ s2, approve_task h s wid tid aid false comment = Except.ok s2 ∧
        taskStatusOf s2 wid tid = some TaskStatus.waiting_approval ∧
        wfStatusOf s2 wid = some w.status ∧
        cursorOf s2 wid = some w.current_task_index) ∧
    ((∀ b ∈ recordVerdict task.approvals aid ApprovalStatus.rejected comment,
        b.status ≠ ApprovalStatus.pending) →
      ∃ s2, approve_task h s wid tid aid false comment = Except.ok s2 ∧
        taskStatusOf s2 wid tid = some TaskStatus.failed ∧
        wfStatusOf s2 wid = some WorkflowStatus.failed) := by
  have hid : task.id = tid := findTask_some_id ht
  constructor
  · rintro ⟨b, hb, hbp⟩
    simp only [recordVerdict] at hb
    have hscan : (scanApprovals false (updFirstApproval task.approvals aid (fun a => { a with status := ApprovalStatus.rejected, comment := comment }))).1
        = false := scanApprovals_fst_false false hb hbp
    have hc : approve_task h s wid tid aid false comment = Except.ok
        (add_history_event
          (modifyTask s wid tid (fun t =>
            { t with approvals :=
                updFirstApproval task.approvals aid (fun a => { a with status := ApprovalStatus.rejected, comment := comment }) }))
          wid "task_rejected"
          [("workflow_id", Val.vn wid), ("task_id", Val.vn tid),
           ("task_name", Val.vs task.name), ("approver", Val.vs ap.approver),
           ("comment", Val.vs comment)]) := by
      simp only [approve_task, hw, ht, hst, hap, hpend, if_true, if_false,
        Bool.false_eq_true, reduceIte, trigger_event_eq]
      rw [if_neg (by rw [hscan]; exact Bool.false_ne_true)]
    refine ⟨_, hc, ?_, ?_, ?_⟩
    · rw [taskStatusOf_add_history]
      rw [taskStatusOf_modifyTask _ hw ht (by simpa using hid)]
      simpa using hst
    · rw [wfStatusOf_add_history, wfStatusOf_modifyTask]
      simp [wfStatusOf, hw]
    · rw [cursorOf_add_history, cursorOf_modifyTask]
      simp [cursorOf, hw]
  · intro hnp
    simp only [recordVerdict] at hnp
    have hmem := updFirstApproval_mem_updated
      (fun a => { a with status := ApprovalStatus.rejected, comment := comment }) hap
    have hscan : scanApprovals false (updFirstApproval task.approvals aid (fun a => { a with status := ApprovalStatus.rejected, comment := comment }))
        = (true, true) := scanApprovals_rejected false hnp hmem rfl
    have hw1 : lookupW (modifyTask s wid tid (fun t =>
        { t with approvals :=
                updFirstApproval task.approvals aid (fun a => { a with status := ApprovalStatus.rejected, comment := comment }) }))
        wid = some { w with
          tasks := updFirstTask w.tasks tid (fun t =>
            { t with approvals :=
                updFirstApproval task.approvals aid (fun a => { a with status := ApprovalStatus.rejected, comment := comment }) }) } := by
      simp [modifyTask, hw]
    have ht1 : findTask (updFirstTask w.tasks tid (fun t =>
        { t with approvals :=
                updFirstApproval task.approvals aid (fun a => { a with status := ApprovalStatus.rejected, comment := comment }) }))
        tid = some ({ task with
            approvals := updFirstApproval task.approvals aid
              (fun a => { a with status := ApprovalStatus.rejected, comment := comment }) },
          i) :=
      findTask_updFirstTask _ ht (by simpa using hid)
    have hc : approve_task h s wid tid aid false comment = Except.ok
        (add_history_event
          (modifyW
            (add_history_event
              (modifyTask
                (add_history_event
                  (modifyTask s wid tid (fun t =>
                    { t with approvals :=
                updFirstApproval task.approvals aid (fun a => { a with status := ApprovalStatus.rejected, comment := comment }) }))
                  wid "task_rejected"
                  [("workflow_id", Val.vn wid), ("task_id", Val.vn tid),
                   ("task_name", Val.vs task.name), ("approver", Val.vs ap.approver),
                   ("comment", Val.vs comment)])
                wid tid (fun t => { t with status := TaskStatus.failed }))
              wid "task_failed"
              [("workflow_id", Val.vn wid), ("task_id", Val.vn tid),
               ("task_name", Val.vs task.name),
               ("reason", Val.vs "Genehmigung abgelehnt")])
            wid (fun w2 => { w2 with status := WorkflowStatus.failed }))
          wid "workflow_failed"
          [("workflow_id", Val.vn wid), ("workflow_name", Val.vs w.name),
           ("reason", Val.vs ("Task fehlgeschlagen: " ++ task.name))]) := by
      simp only [approve_task, hw, ht, hst, hap, hpend, if_true, if_false,
        Bool.false_eq_true, reduceIte, trigger_event_eq, hscan]
    have hwB : lookupW
        (add_history_event
          (modifyTask s wid tid (fun t =>
            { t with approvals :=
                updFirstApproval task.approvals aid (fun a => { a with status := ApprovalStatus.rejected, comment := comment }) }))
          wid "task_rejected"
          [("workflow_id", Val.vn wid), ("task_id", Val.vn tid),
           ("task_name", Val.vs task.name), ("approver", Val.vs ap.approver),
           ("comment", Val.vs comment)]) wid
        = some { w with
            tasks := updFirstTask w.tasks tid (fun t =>
              { t with approvals :=
                  updFirstApproval task.approvals aid (fun a => { a with status := ApprovalStatus.rejected, comment := comment }) }),
            history := w.history ++ [{ id := s.nextId, type := "task_rejected", data := [("workflow_id", Val.vn wid), ("task_id", Val.vn tid), ("task_name", Val.vs task.name), ("approver", Val.vs ap.approver), ("comment", Val.vs comment)] }] } := by
      rw [lookupW_add_history_self]
      simp [modifyTask, hw]
    refine ⟨_, hc, ?_, ?_⟩
    · exact (failureChain_status _ _ _ _ hwB ht1).1
    · exact (failureChain_status _ _ _ _ hwB ht1).2

/-- Witness for c1_rejection_consensus: rejecting approval 10 of the sample
task while approval 11 is still PENDING leaves the task WAITING_APPROVAL and
the workflow RUNNING with the cursor unmoved. -/
theorem c1_rejection_consensus_witness :
    ∃ s2, approve_task hNone sampleS1 0 1 10 false "no" = Except.ok s2 ∧
      taskStatusOf s2 0 1 = some TaskStatus.waiting_approval ∧
      wfStatusOf s2 0 = some WorkflowStatus.running ∧
      cursorOf s2 0 = some 0 :=
  (c1_rejection_consensus hNone sampleS1 0 1 10 "no" sampleWF1 sampleTaskAB 0
    { id := 10, approver := "A", status := ApprovalStatus.pending, comment := "" }
    rfl rfl rfl rfl rfl).1 (by decide)

/-- Witness for c6_execute_task_handler_error: dispatching the sample running
automatic task against the always-raising handler registry. -/
theorem c6_execute_task_handler_error_witness :
    taskStatusOf (execute_task 1 hBoom sampleS7 0 6) 0 6 = some TaskStatus.failed ∧
    wfStatusOf (execute_task 1 hBoom sampleS7 0 6) 0 = some WorkflowStatus.failed ∧
    ∃ hist, historyOf (execute_task 1 hBoom sampleS7 0 6) 0 = some hist ∧
      ∃ e ∈ hist, e.type = "task_failed" ∧ ("reason", Val.vs "boom") ∈ e.data :=
  c6_execute_task_handler_error 0 hBoom sampleS7 0 6 sampleWF7 sampleTaskAuto2 0
    (fun _ _ _ => Except.error "boom") "boom" rfl rfl rfl rfl

/-! ### C3 — dependency gate and starvation -/

/-- An approval found by id is a member of the list. -/
theorem findApproval_mem {l : List Approval} {aid : Nat} {a : Approval}
    (hf : findApproval l aid = some a) : a ∈ l := by
  induction l with
  | nil => simp [findApproval] at hf
  | cons b bs ih =>
    rw [findApproval] at hf
    by_cases hb : b.id = aid
    · rw [if_pos hb] at hf
      injection hf with hf
      subst hf
      exact List.mem_cons_self _ _
    · rw [if_neg hb] at hf
      exact List.mem_cons_of_mem b (ih hf)

@[simp]
theorem lookupW_modifyTask_ne (s : Engine) (wid wid2 tid : Nat) (f : Task → Task)
    (h : wid ≠ wid2) :
    lookupW (modifyTask s wid tid f) wid2 = lookupW s wid2 := by
  unfold modifyTask
  exact lookupW_modifyW_ne _ _ _ _ h

theorem lookupW_execute_task_fail_ne (s : Engine) (wid wid2 tid : Nat) (n1 n2 r : String)
    (h : wid ≠ wid2) :
    lookupW (execute_task_fail s wid tid n1 n2 r) wid2 = lookupW s wid2 := by
  unfold execute_task_fail
  simp [h]

/-- The recursive processing core only ever touches its own workflow: every
other workflow reads back unchanged. -/
theorem lookup_other_trio (fuel : Nat) :
    (∀ h s wid wid2, wid ≠ wid2 →
      lookupW (process_next_task fuel h s wid) wid2 = lookupW s wid2) ∧
    (∀ h s wid tid wid2, wid ≠ wid2 →
      lookupW (execute_task fuel h s wid tid) wid2 = lookupW s wid2) ∧
    (∀ h s wid tid r s2 wid2, wid ≠ wid2 →
      complete_task_fuel fuel h s wid tid r = Except.ok s2 →
      lookupW s2 wid2 = lookupW s wid2) := by
  induction fuel with
  | zero =>
    refine ⟨fun h s wid wid2 _ => rfl, fun h s wid tid wid2 _ => rfl,
      fun h s wid tid r s2 wid2 _ hok => ?_⟩
    simp only [complete_task_fuel, Except.ok.injEq] at hok
    subst hok
    rfl
  | succ n ih =>
    obtain ⟨ihp, ihe, ihc⟩ := ih
    refine ⟨?_, ?_, ?_⟩
    · intro h s wid wid2 hne
      cases hw : lookupW s wid with
      | none => simp [process_next_task, hw]
      | some w =>
        simp only [process_next_task, hw]
        by_cases hlen : w.tasks.length ≤ w.current_task_index
        · rw [if_pos hlen]
          simp [hne]
        · rw [if_neg hlen]
          cases hget : w.tasks[w.current_task_index]? with
          | none => simp
          | some task =>
            dsimp only
            by_cases hdep : depsMet w.tasks task.dependencies
            · rw [if_pos hdep]
              rw [ihe h _ wid task.id wid2 hne]
              simp [hne]
            · rw [if_neg hdep]
              simp [hne]
    · intro h s wid tid wid2 hne
      cases hw : lookupW s wid with
      | none => simp [execute_task, hw]
      | some w =>
        cases ht : findTask w.tasks tid with
        | none => simp [execute_task, hw, ht]
        | some p =>
          obtain ⟨t, i⟩ := p
          simp only [execute_task, hw, ht]
          cases hh : h t.type with
          | some handler =>
            dsimp only
            cases hr : handler wid tid (getHeap s t.dataRef) with
            | ok result =>
              dsimp only
              cases hcc : complete_task_fuel n h s wid tid result with
              | ok s1 =>
                dsimp only
                exact ihc h s wid tid result s1 wid2 hne hcc
              | error e =>
                dsimp only
                exact lookupW_execute_task_fail_ne s wid wid2 tid t.name w.name e hne
            | error e =>
              dsimp only
              exact lookupW_execute_task_fail_ne s wid wid2 tid t.name w.name e hne
          | none =>
            dsimp only
            by_cases hman : t.type = "manual"
            · rw [if_pos hman]
              split <;> rfl
            · rw [if_neg hman]
              by_cases hinp : t.type = "input"
              · rw [if_pos hinp]
                split <;> simp [hne]
              · rw [if_neg hinp]
                exact lookupW_execute_task_fail_ne s wid wid2 tid t.name w.name _ hne
    · intro h s wid tid r s2 wid2 hne hok
      cases hw : lookupW s wid with
      | none => simp [complete_task_fuel, hw] at hok
      | some w =>
        cases ht : findTask w.tasks tid with
        | none => simp [complete_task_fuel, hw, ht] at hok
        | some p =>
          obtain ⟨t, i⟩ := p
          simp only [complete_task_fuel, hw, ht] at hok
          by_cases hrun : t.status = TaskStatus.running ∨ t.status = TaskStatus.waiting_input
          · rw [if_pos hrun] at hok
            by_cases hemp : t.approvers.isEmpty
            · rw [if_pos hemp] at hok
              injection hok with hok2
              subst hok2
              rw [ihp h _ wid wid2 hne]
              simp [hne]
            · rw [if_neg hemp] at hok
              injection hok with hok2
              subst hok2
              simp [hne]
          · rw [if_neg hrun] at hok
            exact absurd hok (by simp)

/-- Reading the starvation invariant back as facts about the stored
workflow. -/
theorem stuckAt_spec {s : Engine} {wid : Nat} (hst : stuckAt s wid = true) :
    ∃ w, lookupW s wid = some w ∧ w.status = WorkflowStatus.waiting ∧
      (∃ task, w.tasks[w.current_task_index]? = some task ∧
        depsMet w.tasks task.dependencies = false) ∧
      ∀ t ∈ w.tasks, t.status ≠ TaskStatus.running ∧ t.status ≠ TaskStatus.waiting_input ∧
        (t.status = TaskStatus.waiting_approval →
          ∀ a ∈ t.approvals, a.status ≠ ApprovalStatus.pending) := by
  unfold stuckAt at hst
  cases hw : lookupW s wid with
  | none => rw [hw] at hst; exact absurd hst (by simp)
  | some w =>
    rw [hw] at hst
    simp only [Bool.and_eq_true, decide_eq_true_eq] at hst
    obtain ⟨⟨hws, hblk⟩, hall⟩ := hst
    refine ⟨w, rfl, hws, ?_, ?_⟩
    · cases hget : w.tasks[w.current_task_index]? with
      | none => rw [hget] at hblk; exact absurd hblk (by simp)
      | some task =>
        rw [hget] at hblk
        exact ⟨task, rfl, by simpa using hblk⟩
    · intro t htm
      have hq := List.all_eq_true.mp hall t htm
      simp only [taskQuiescent, Bool.and_eq_true, Bool.or_eq_true, Bool.not_eq_true',
        decide_eq_false_iff_not, List.all_eq_true] at hq
      obtain ⟨⟨h1, h2⟩, h3⟩ := hq
      refine ⟨h1, h2, fun hwa a ham => ?_⟩
      cases h3 with
      | inl h => exact absurd hwa h
      | inr h => exact h a ham

/-- The starvation invariant depends on the engine only through workflow
wid. -/
theorem stuckAt_congr {s1 s2 : Engine} {wid : Nat}
    (h : lookupW s1 wid = lookupW s2 wid) : stuckAt s1 wid = stuckAt s2 wid := by
  unfold stuckAt
  rw [h]

/-- A WAITING workflow cannot be started. -/
theorem start_workflow_stuck {h : Handlers} {s : Engine} {wid : Nat} {w : Workflow}
    (hw : lookupW s wid = some w) (hws : w.status = WorkflowStatus.waiting) :
    ∀ s3, start_workflow h s wid ≠ Except.ok s3 := by
  intro s3
  simp only [start_workflow, hw]
  rw [if_neg (by rw [hws]; decide)]
  simp

/-- complete_task cannot act on a workflow none of whose tasks is RUNNING or
WAITING_INPUT: it either raises, leaving the state unchanged, or (out of fuel)
returns the state unchanged. -/
theorem complete_task_fuel_stuck {h : Handlers} {s : Engine} {wid : Nat} {w : Workflow}
    (hw : lookupW s wid = some w)
    (hq : ∀ t ∈ w.tasks, t.status ≠ TaskStatus.running ∧ t.status ≠ TaskStatus.waiting_input) :
    ∀ fuel tid r s3, complete_task_fuel fuel h s wid tid r = Except.ok s3 → s3 = s := by
  intro fuel tid r s3 hok
  cases fuel with
  | zero =>
    simp only [complete_task_fuel, Except.ok.injEq] at hok
    exact hok.symm
  | succ n =>
    cases ht : findTask w.tasks tid with
    | none => simp [complete_task_fuel, hw, ht] at hok
    | some p =>
      obtain ⟨t, i⟩ := p
      simp only [complete_task_fuel, hw, ht] at hok
      have hc := hq t (findTask_mem ht)
      rw [if_neg (fun hor => Or.elim hor hc.1 hc.2)] at hok
      exact absurd hok (by simp)

/-- approve_task cannot act when every WAITING_APPROVAL task has no PENDING
approval. -/
theorem approve_task_stuck {h : Handlers} {s : Engine} {wid : Nat} {w : Workflow}
    (hw : lookupW s wid = some w)
    (hq : ∀ t ∈ w.tasks, t.status = TaskStatus.waiting_approval →
      ∀ a ∈ t.approvals, a.status ≠ ApprovalStatus.pending) :
    ∀ tid aid b c s3, approve_task h s wid tid aid b c ≠ Except.ok s3 := by
  intro tid aid b c s3
  simp only [approve_task, hw]
  cases ht : findTask w.tasks tid with
  | none => simp
  | some p =>
    obtain ⟨t, i⟩ := p
    dsimp only
    by_cases hwa : t.status = TaskStatus.waiting_approval
    · rw [if_pos hwa]
      cases ha : findApproval t.approvals aid with
      | none => simp
      | some ap =>
        dsimp only
        rw [if_neg (hq t (findTask_mem ht) hwa ap (findApproval_mem ha))]
        simp
    · rw [if_neg hwa]
      simp

/-- delegate_approval cannot act under the same quiescence condition. -/
theorem delegate_approval_stuck {s : Engine} {wid : Nat} {w : Workflow}
    (hw : lookupW s wid = some w)
    (hq : ∀ t ∈ w.tasks, t.status = TaskStatus.waiting_approval →
      ∀ a ∈ t.approvals, a.status ≠ ApprovalStatus.pending) :
    ∀ tid aid na c s3, delegate_approval s wid tid aid na c ≠ Except.ok s3 := by
  intro tid aid na c s3
  simp only [delegate_approval, hw]
  cases ht : findTask w.tasks tid with
  | none => simp
  | some p =>
    obtain ⟨t, i⟩ := p
    dsimp only
    by_cases hwa : t.status = TaskStatus.waiting_approval
    · rw [if_pos hwa]
      cases ha : findApproval t.approvals aid with
      | none => simp
      | some ap =>
        dsimp only
        rw [if_neg (hq t (findTask_mem ht) hwa ap (findApproval_mem ha))]
        simp
    · rw [if_neg hwa]
      simp

/-- provide_input cannot act when no task is WAITING_INPUT. -/
theorem provide_input_stuck {h : Handlers} {s : Engine} {wid : Nat} {w : Workflow}
    (hw : lookupW s wid = some w)
    (hq : ∀ t ∈ w.tasks, t.status ≠ TaskStatus.waiting_input) :
    ∀ tid d s3, provide_input h s wid tid d ≠ Except.ok s3 := by
  intro tid d s3
  simp only [provide_input, hw]
  cases ht : findTask w.tasks tid with
  | none => simp
  | some p =>
    obtain ⟨t, i⟩ := p
    dsimp only
    rw [if_neg (hq t (findTask_mem ht))]
    simp

/-- start_workflow leaves every other workflow unchanged. -/
theorem start_workflow_frame {h : Handlers} {s s3 : Engine} {wid wid2 : Nat}
    (hne : wid ≠ wid2) (hok : start_workflow h s wid = Except.ok s3) :
    lookupW s3 wid2 = lookupW s wid2 := by
  cases hw : lookupW s wid with
  | none => simp [start_workflow, hw] at hok
  | some w =>
    simp only [start_workflow, hw] at hok
    by_cases hc : w.status = WorkflowStatus.created
    · rw [if_pos hc] at hok
      injection hok with hok2
      subst hok2
      rw [(lookup_other_trio _).1 h _ wid wid2 hne]
      simp [hne]
    · rw [if_neg hc] at hok
      exact absurd hok (by simp)

/-- complete_task leaves every other workflow unchanged. -/
theorem complete_task_frame {h : Handlers} {s s3 : Engine} {wid wid2 tid : Nat} {r : DataMap}
    (hne : wid ≠ wid2) (hok : complete_task h s wid tid r = Except.ok s3) :
    lookupW s3 wid2 = lookupW s wid2 :=
  (lookup_other_trio (fuelFor s wid)).2.2 h s wid tid r s3 wid2 hne hok

/-- approve_task leaves every other workflow unchanged. -/
theorem approve_task_frame {h : Handlers} {s s3 : Engine} {wid wid2 tid aid : Nat}
    {b : Bool} {c : String}
    (hne : wid ≠ wid2) (hok : approve_task h s wid tid aid b c = Except.ok s3) :
    lookupW s3 wid2 = lookupW s wid2 := by
  cases hw : lookupW s wid with
  | none => simp [approve_task, hw] at hok
  | some w =>
    cases ht : findTask w.tasks tid with
    | none => simp [approve_task, hw, ht] at hok
    | some p =>
      obtain ⟨t, i⟩ := p
      simp only [approve_task, hw, ht] at hok
      by_cases hwa : t.status = TaskStatus.waiting_approval
      · rw [if_pos hwa] at hok
        cases ha : findApproval t.approvals aid with
        | none =>
          rw [ha] at hok
          simp at hok
        | some ap =>
          rw [ha] at hok
          dsimp only at hok
          by_cases hap : ap.status = ApprovalStatus.pending
          · rw [if_pos hap] at hok
            repeat' split at hok
            all_goals injection hok with hok2
            all_goals subst hok2
            all_goals
              try rw [(lookup_other_trio _).1 h _ wid wid2 hne]
            all_goals simp [hne]
          · rw [if_neg hap] at hok
            exact absurd hok (by simp)
      · rw [if_neg hwa] at hok
        exact absurd hok (by simp)

/-- delegate_approval leaves every other workflow unchanged. -/
theorem delegate_approval_frame {s s3 : Engine} {wid wid2 tid aid : Nat}
    {na c : String}
    (hne : wid ≠ wid2) (hok : delegate_approval s wid tid aid na c = Except.ok s3) :
    lookupW s3 wid2 = lookupW s wid2 := by
  cases hw : lookupW s wid with
  | none => simp [delegate_approval, hw] at hok
  | some w =>
    cases ht : findTask w.tasks tid with
    | none => simp [delegate_approval, hw, ht] at hok
    | some p =>
      obtain ⟨t, i⟩ := p
      simp only [delegate_approval, hw, ht] at hok
      by_cases hwa : t.status = TaskStatus.waiting_approval
      · rw [if_pos hwa] at hok
        cases ha : findApproval t.approvals aid with
        | none =>
          rw [ha] at hok
          simp at hok
        | some ap =>
          rw [ha] at hok
          dsimp only at hok
          by_cases hap : ap.status = ApprovalStatus.pending
          · rw [if_pos hap] at hok
            injection hok with hok2
            subst hok2
            simp [hne, Engine.freshId]
          · rw [if_neg hap] at hok
            exact absurd hok (by simp)
      · rw [if_neg hwa] at hok
        exact absurd hok (by simp)

/-- provide_input leaves every other workflow unchanged. -/
theorem provide_input_frame {h : Handlers} {s s3 : Engine} {wid wid2 tid : Nat}
    {d : DataMap}
    (hne : wid ≠ wid2) (hok : provide_input h s wid tid d = Except.ok s3) :
    lookupW s3 wid2 = lookupW s wid2 := by
  cases hw : lookupW s wid with
  | none => simp [provide_input, hw] at hok
  | some w =>
    cases ht : findTask w.tasks tid with
    | none => simp [provide_input, hw, ht] at hok
    | some p =>
      obtain ⟨t, i⟩ := p
      simp only [provide_input, hw, ht] at hok
      by_cases hwi : t.status = TaskStatus.waiting_input
      · rw [if_pos hwi] at hok
        injection hok with hok2
        subst hok2
        rw [(lookup_other_trio _).2.1 h _ wid tid wid2 hne]
        simp [hne]
      · rw [if_neg hwi] at hok
        exact absurd hok (by simp)

/-- One advancement step out of a stuck configuration leaves workflow wid
literally unchanged: the five entry points all raise when aimed at wid, and
leave wid untouched when aimed elsewhere. -/
theorem advStep_stuck {h : Handlers} {s s2 : Engine} {wid : Nat}
    (hst : stuckAt s wid = true) (hstep : AdvStep h s s2) :
    lookupW s2 wid = lookupW s wid := by
  obtain ⟨w, hw, hws, hblk, hq⟩ := stuckAt_spec hst
  cases hstep with
  | start wid2 =>
    cases hr : start_workflow h s wid2 with
    | error e => rfl
    | ok s3 =>
      by_cases he : wid2 = wid
      · subst he
        exact absurd hr (start_workflow_stuck hw hws s3)
      · exact start_workflow_frame he hr
  | complete wid2 tid r =>
    cases hr : complete_task h s wid2 tid r with
    | error e => rfl
    | ok s3 =>
      by_cases he : wid2 = wid
      · subst he
        have h3 := complete_task_fuel_stuck hw
          (fun t htm => ⟨(hq t htm).1, (hq t htm).2.1⟩) _ tid r s3 hr
        rw [h3]
        rfl
      · exact complete_task_frame he hr
  | approve wid2 tid aid b c =>
    cases hr : approve_task h s wid2 tid aid b c with
    | error e => rfl
    | ok s3 =>
      by_cases he : wid2 = wid
      · subst he
        exact absurd hr (approve_task_stuck hw
          (fun t htm => (hq t htm).2.2) tid aid b c s3)
      · exact approve_task_frame he hr
  | delegate wid2 tid aid na c =>
    cases hr : delegate_approval s wid2 tid aid na c with
    | error e => rfl
    | ok s3 =>
      by_cases he : wid2 = wid
      · subst he
        exact absurd hr (delegate_approval_stuck hw
          (fun t htm => (hq t htm).2.2) tid aid na c s3)
      · exact delegate_approval_frame he hr
  | input wid2 tid d =>
    cases hr : provide_input h s wid2 tid d with
    | error e => rfl
    | ok s3 =>
      by_cases he : wid2 = wid
      · subst he
        exact absurd hr (provide_input_stuck hw
          (fun t htm => (hq t htm).2.1) tid d s3)
      · exact provide_input_frame he hr

/-- C3: when processing reaches the cursor task and some dependency id
resolves to no task or to a task whose status is not COMPLETED, the workflow
transitions to WAITING and the cursor task is not started (its status and the
cursor are unchanged); and from any stuck configuration — workflow WAITING,
cursor task with an unmet dependency (in particular task B at the cursor
depending on a later, hence PENDING, task C), all tasks quiescent — no
sequence of normal advancement steps (start_workflow, complete_task,
approve_task, delegate_approval, provide_input, on any workflow, failed calls
stuttering) ever changes the workflow: it stays WAITING indefinitely and its
cursor task is never started. -/
theorem c3_dependency_gate_starvation (h : Handlers) (s : Engine) (wid : Nat) :
    (∀ (fuel : Nat) (w : Workflow) (task : Task), lookupW s wid = some w →
      w.tasks[w.current_task_index]? = some task →
      depsMet w.tasks task.dependencies = false →
      wfStatusOf (process_next_task (fuel + 1) h s wid) wid = some WorkflowStatus.waiting ∧
      taskStatusOf (process_next_task (fuel + 1) h s wid) wid task.id =
        taskStatusOf s wid task.id ∧
      cursorOf (process_next_task (fuel + 1) h s wid) wid = some w.current_task_index) ∧
    (∀ s2, stuckAt s wid = true → Relation.ReflTransGen (AdvStep h) s s2 →
      lookupW s2 wid = lookupW s wid ∧
      wfStatusOf s2 wid = some WorkflowStatus.waiting ∧
      ∀ w2 task2, lookupW s2 wid = some w2 →
        w2.tasks[w2.current_task_index]? = some task2 →
        task2.status ≠ TaskStatus.running) := by
  constructor
  · intro fuel w task hw hget hdeps
    have hlen : ¬ w.tasks.length ≤ w.current_task_index := by
      intro hle
      rw [List.getElem?_eq_none_iff.mpr hle] at hget
      exact Option.noConfusion hget
    simp only [process_next_task, hw]
    rw [if_neg hlen, hget]
    dsimp only
    rw [if_neg (by simp [hdeps])]
    refine ⟨?_, ?_, ?_⟩
    · simp [hw]
    · simp
    · simp [cursorOf, hw]
  · intro s2 hst hchain
    have hpres : lookupW s2 wid = lookupW s wid := by
      induction hchain with
      | refl => rfl
      | @tail b c hab hbc ih =>
        have hstb : stuckAt b wid = true := by
          rw [stuckAt_congr ih]
          exact hst
        exact (advStep_stuck hstb hbc).trans ih
    obtain ⟨w, hw, hws, hblk, hq⟩ := stuckAt_spec hst
    refine ⟨hpres, ?_, ?_⟩
    · simp [wfStatusOf, hpres, hw, hws]
    · intro w2 task2 hw2 hget2
      rw [hpres, hw] at hw2
      injection hw2 with hw2
      subst hw2
      exact (hq task2 (List.mem_iff_getElem?.mpr ⟨_, hget2⟩)).1

/-- Witness for c3_dependency_gate_starvation: the sample workflow whose
cursor task B depends on the later task C; the gate parks it WAITING, and a
stuttering provide_input advancement step leaves it stuck. -/
theorem c3_dependency_gate_starvation_witness :
    (wfStatusOf (process_next_task (4 + 1) hNone sampleS4 0) 0 =
        some WorkflowStatus.waiting ∧
      taskStatusOf (process_next_task (4 + 1) hNone sampleS4 0) 0 4 =
        taskStatusOf sampleS4 0 4 ∧
      cursorOf (process_next_task (4 + 1) hNone sampleS4 0) 0 = some 0) ∧
    (lookupW (advResult (provide_input hNone sampleS4 0 4 []) sampleS4) 0 =
        lookupW sampleS4 0 ∧
      wfStatusOf (advResult (provide_input hNone sampleS4 0 4 []) sampleS4) 0 =
        some WorkflowStatus.waiting ∧
      ∀ w2 task2,
        lookupW (advResult (provide_input hNone sampleS4 0 4 []) sampleS4) 0 = some w2 →
        w2.tasks[w2.current_task_index]? = some task2 →
        task2.status ≠ TaskStatus.running) :=
  ⟨(c3_dependency_gate_starvation hNone sampleS4 0).1 4 sampleWF4 sampleTaskB rfl rfl
      (by decide),
   (c3_dependency_gate_starvation hNone sampleS4 0).2
      (advResult (provide_input hNone sampleS4 0 4 []) sampleS4) (by decide)
      (Relation.ReflTransGen.single (AdvStep.input sampleS4 0 4 []))⟩

/-! ### C10 — approval-gated tasks never end COMPLETED -/

/-- Reading the invariant back as a proposition about the stored workflow. -/
theorem noComp_iff {s : Engine} {wid : Nat} :
    noCompletedApproverTask s wid = true ↔
      ∀ w, lookupW s wid = some w → ∀ t ∈ w.tasks,
        t.approvers = [] ∨ t.status ≠ TaskStatus.completed := by
  unfold noCompletedApproverTask
  cases hw : lookupW s wid with
  | none => simp
  | some w =>
    rw [List.all_eq_true]
    constructor
    · intro hall w2 hw2 t htm
      injection hw2 with hw2
      subst hw2
      have := hall t htm
      simpa [List.isEmpty_iff] using this
    · intro hp t htm
      have := hp w rfl t htm
      simpa [List.isEmpty_iff] using this

/-- The invariant depends on the engine only through workflow wid. -/
theorem noComp_congr {s1 s2 : Engine} {wid : Nat}
    (h : lookupW s1 wid = lookupW s2 wid) :
    noCompletedApproverTask s1 wid = noCompletedApproverTask s2 wid := by
  unfold noCompletedApproverTask
  rw [h]

/-- Two successive first-match updates with the same id compose, provided the
first update keeps the id. -/
theorem updFirstTask_comp (ts : List Task) (tid : Nat) (f g : Task → Task)
    (hf : ∀ t, (f t).id = t.id) :
    updFirstTask (updFirstTask ts tid f) tid g = updFirstTask ts tid (fun t => g (f t)) := by
  induction ts with
  | nil => rfl
  | cons a as ih =>
    by_cases ha : a.id = tid
    · rw [updFirstTask, if_pos ha, updFirstTask, if_pos (by rw [hf a]; exact ha),
        updFirstTask, if_pos ha]
    · rw [updFirstTask, if_neg ha, updFirstTask, if_neg ha, updFirstTask, if_neg ha, ih]

/-- Membership after a first-match update: an element is an untouched original
or the update of the found task. -/
theorem updFirstTask_mem_of_find {ts : List Task} {tid : Nat} {task : Task} {i : Nat}
    {f : Task → Task} {t2 : Task}
    (hft : findTask ts tid = some (task, i)) (h : t2 ∈ updFirstTask ts tid f) :
    t2 ∈ ts ∨ t2 = f task := by
  induction ts generalizing i with
  | nil => simp [updFirstTask] at h
  | cons a as ih =>
    rw [findTask] at hft
    rw [updFirstTask] at h
    by_cases ha : a.id = tid
    · rw [if_pos ha] at hft h
      simp only [Option.some.injEq, Prod.mk.injEq] at hft
      rcases List.mem_cons.mp h with rfl | hmem
      · right
        rw [hft.1]
      · left
        exact List.mem_cons_of_mem _ hmem
    · rw [if_neg ha] at hft h
      cases hfa : findTask as tid with
      | none =>
        rw [hfa] at hft
        exact absurd hft (by simp)
      | some p =>
        rw [hfa] at hft
        obtain ⟨t3, j⟩ := p
        simp only [Option.map_some', Option.some.injEq, Prod.mk.injEq] at hft
        obtain ⟨ht3, hj⟩ := hft
        subst ht3
        rcases List.mem_cons.mp h with rfl | hmem
        · left
          exact List.mem_cons_self _ _
        · rcases ih hfa hmem with hin | heq
          · left
            exact List.mem_cons_of_mem _ hin
          · right
            exact heq

/-- The invariant survives workflow updates that keep the task list. -/
theorem noComp_modifyW {s : Engine} {wid : Nat} {f : Workflow → Workflow}
    (hf : ∀ w2, (f w2).tasks = w2.tasks)
    (hs : noCompletedApproverTask s wid = true) :
    noCompletedApproverTask (modifyW s wid f) wid = true := by
  rw [noComp_iff] at hs ⊢
  intro w2 hw2 t htm
  rw [lookupW_modifyW_self] at hw2
  cases hw : lookupW s wid with
  | none =>
    rw [hw] at hw2
    exact absurd hw2 (by simp)
  | some w =>
    rw [hw] at hw2
    simp only [Option.map_some', Option.some.injEq] at hw2
    subst hw2
    rw [hf w] at htm
    exact hs w hw t htm

/-- The invariant survives history events. -/
theorem noComp_add_history {s : Engine} {wid : Nat} {ty : String} {p : List (String × Val)}
    (hs : noCompletedApproverTask s wid = true) :
    noCompletedApproverTask (add_history_event s wid ty p) wid = true := by
  rw [noComp_iff] at hs ⊢
  intro w2 hw2 t htm
  rw [lookupW_add_history_self] at hw2
  cases hw : lookupW s wid with
  | none =>
    rw [hw] at hw2
    exact absurd hw2 (by simp)
  | some w =>
    rw [hw] at hw2
    simp only [Option.map_some', Option.some.injEq] at hw2
    subst hw2
    exact hs w hw t htm

/-- The invariant survives a first-match task update that never produces
COMPLETED. -/
theorem noComp_modifyTask_safe {s : Engine} {wid tid : Nat} {f : Task → Task}
    (hf : ∀ t, (f t).approvers = t.approvers ∧ (f t).status ≠ TaskStatus.completed)
    (hs : noCompletedApproverTask s wid = true) :
    noCompletedApproverTask (modifyTask s wid tid f) wid = true := by
  rw [noComp_iff] at hs ⊢
  intro w2 hw2 t htm
  unfold modifyTask at hw2
  rw [lookupW_modifyW_self] at hw2
  cases hw : lookupW s wid with
  | none =>
    rw [hw] at hw2
    exact absurd hw2 (by simp)
  | some w =>
    rw [hw] at hw2
    simp only [Option.map_some', Option.some.injEq] at hw2
    subst hw2
    obtain ⟨t1, htm1, hor⟩ := updFirstTask_mem htm
    rcases hor with rfl | rfl
    · exact hs w hw t htm1
    · exact Or.inr (hf t1).2

/-- The invariant survives a first-match task update that keeps approvers and
status. -/
theorem noComp_modifyTask_pres {s : Engine} {wid tid : Nat} {f : Task → Task}
    (hf : ∀ t, (f t).approvers = t.approvers ∧ (f t).status = t.status)
    (hs : noCompletedApproverTask s wid = true) :
    noCompletedApproverTask (modifyTask s wid tid f) wid = true := by
  rw [noComp_iff] at hs ⊢
  intro w2 hw2 t htm
  unfold modifyTask at hw2
  rw [lookupW_modifyW_self] at hw2
  cases hw : lookupW s wid with
  | none =>
    rw [hw] at hw2
    exact absurd hw2 (by simp)
  | some w =>
    rw [hw] at hw2
    simp only [Option.map_some', Option.some.injEq] at hw2
    subst hw2
    obtain ⟨t1, htm1, hor⟩ := updFirstTask_mem htm
    rcases hor with rfl | rfl
    · exact hs w hw t htm1
    · rcases hs w hw t1 htm1 with he | hne
      · exact Or.inl ((hf t1).1.trans he)
      · exact Or.inr (by rw [(hf t1).2]; exact hne)

/-- The invariant survives completing a task whose approver list is empty. -/
theorem noComp_modifyTask_empty {s : Engine} {wid tid : Nat} {w : Workflow} {task : Task}
    {i : Nat} {f : Task → Task}
    (hw : lookupW s wid = some w) (hft : findTask w.tasks tid = some (task, i))
    (hemp : task.approvers = []) (hf : ∀ t, (f t).approvers = t.approvers)
    (hs : noCompletedApproverTask s wid = true) :
    noCompletedApproverTask (modifyTask s wid tid f) wid = true := by
  rw [noComp_iff] at hs ⊢
  intro w2 hw2 t htm
  unfold modifyTask at hw2
  rw [lookupW_modifyW_self, hw] at hw2
  simp only [Option.map_some', Option.some.injEq] at hw2
  subst hw2
  rcases updFirstTask_mem_of_find hft htm with hin | rfl
  · exact hs w hw t hin
  · exact Or.inl ((hf task).trans hemp)

/-- The invariant survives a cursor-task update that never produces
COMPLETED. -/
theorem noComp_modifyW_upd {s : Engine} {wid : Nat} {g : Task → Task}
    (hg : ∀ t, (g t).approvers = t.approvers ∧ (g t).status ≠ TaskStatus.completed)
    (hs : noCompletedApproverTask s wid = true) :
    noCompletedApproverTask (modifyW s wid (fun w2 =>
      { w2 with tasks := updTaskAt w2.tasks w2.current_task_index g })) wid = true := by
  rw [noComp_iff] at hs ⊢
  intro w2 hw2 t htm
  rw [lookupW_modifyW_self] at hw2
  cases hw : lookupW s wid with
  | none =>
    rw [hw] at hw2
    exact absurd hw2 (by simp)
  | some w =>
    rw [hw] at hw2
    simp only [Option.map_some', Option.some.injEq] at hw2
    subst hw2
    obtain ⟨t1, htm1, hor⟩ := updTaskAt_mem htm
    rcases hor with rfl | rfl
    · exact hs w hw t htm1
    · exact Or.inr (hg t1).2

/-- The invariant survives the task/workflow failure chain. -/
theorem noComp_execute_task_fail {s : Engine} {wid tid : Nat} {n1 n2 r : String}
    (hs : noCompletedApproverTask s wid = true) :
    noCompletedApproverTask (execute_task_fail s wid tid n1 n2 r) wid = true := by
  unfold execute_task_fail
  simp only [trigger_event_eq]
  exact noComp_add_history (noComp_modifyW (fun w2 => rfl)
    (noComp_add_history (noComp_modifyTask_safe (fun t => ⟨rfl, by simp⟩) hs)))

/-- The invariant survives complete-then-repark: the transient COMPLETED
status written by complete_task is overwritten by WAITING_APPROVAL within the
same call. -/
theorem noComp_repark {s : Engine} {wid tid : Nat} {w : Workflow}
    (hw : lookupW s wid = some w)
    (f1 f2 : Task → Task)
    (hf1 : ∀ t, (f1 t).id = t.id)
    (hsafe : ∀ t, (f2 (f1 t)).approvers = t.approvers ∧
      (f2 (f1 t)).status ≠ TaskStatus.completed)
    {ty1 ty2 : String} {p1 p2 : List (String × Val)}
    (hs : noCompletedApproverTask s wid = true) :
    noCompletedApproverTask
      (add_history_event (modifyTask (add_history_event (modifyTask s wid tid f1) wid ty1 p1)
        wid tid f2) wid ty2 p2) wid = true := by
  apply noComp_add_history
  rw [noComp_iff]
  intro w2 hw2 t htm
  unfold modifyTask at hw2
  rw [lookupW_modifyW_self, lookupW_add_history_self, lookupW_modifyW_self, hw] at hw2
  simp only [Option.map_some', Option.some.injEq] at hw2
  subst hw2
  have htm2 : t ∈ updFirstTask (updFirstTask w.tasks tid f1) tid f2 := htm
  rw [updFirstTask_comp _ _ _ _ hf1] at htm2
  obtain ⟨t1, htm1, hor⟩ := updFirstTask_mem htm2
  rcases hor with rfl | rfl
  · rw [noComp_iff] at hs
    exact hs w hw t htm1
  · exact Or.inr (hsafe t1).2

/-- The invariant is preserved by the whole recursive processing core: the
dispatcher only writes RUNNING / WAITING_INPUT / FAILED, and complete_task
either completes a task with no approvers or immediately re-parks it in
WAITING_APPROVAL. -/
theorem trio_no_completed (fuel : Nat) :
    (∀ h s wid, noCompletedApproverTask s wid = true →
      noCompletedApproverTask (process_next_task fuel h s wid) wid = true) ∧
    (∀ h s wid tid, noCompletedApproverTask s wid = true →
      noCompletedApproverTask (execute_task fuel h s wid tid) wid = true) ∧
    (∀ h s wid tid r s2, noCompletedApproverTask s wid = true →
      complete_task_fuel fuel h s wid tid r = Except.ok s2 →
      noCompletedApproverTask s2 wid = true) := by
  induction fuel with
  | zero =>
    refine ⟨fun h s wid hs => hs, fun h s wid tid hs => hs,
      fun h s wid tid r s2 hs hok => ?_⟩
    simp only [complete_task_fuel, Except.ok.injEq] at hok
    subst hok
    exact hs
  | succ n ih =>
    obtain ⟨ihp, ihe, ihc⟩ := ih
    refine ⟨?_, ?_, ?_⟩
    · intro h s wid hs
      cases hw : lookupW s wid with
      | none => simpa [process_next_task, hw] using hs
      | some w =>
        simp only [process_next_task, hw]
        by_cases hlen : w.tasks.length ≤ w.current_task_index
        · rw [if_pos hlen]
          exact noComp_add_history (noComp_modifyW (fun w2 => rfl) hs)
        · rw [if_neg hlen]
          cases hget : w.tasks[w.current_task_index]? with
          | none => exact hs
          | some task =>
            dsimp only
            by_cases hdep : depsMet w.tasks task.dependencies
            · rw [if_pos hdep]
              exact ihe h _ wid task.id
                (noComp_add_history (noComp_modifyW_upd (fun t => ⟨rfl, by simp⟩) hs))
            · rw [if_neg hdep]
              exact noComp_add_history (noComp_modifyW (fun w2 => rfl) hs)
    · intro h s wid tid hs
      cases hw : lookupW s wid with
      | none => simpa [execute_task, hw] using hs
      | some w =>
        cases ht : findTask w.tasks tid with
        | none => simpa [execute_task, hw, ht] using hs
        | some p =>
          obtain ⟨t, i⟩ := p
          simp only [execute_task, hw, ht]
          cases hh : h t.type with
          | some handler =>
            dsimp only
            cases hr : handler wid tid (getHeap s t.dataRef) with
            | ok result =>
              dsimp only
              cases hcc : complete_task_fuel n h s wid tid result with
              | ok s1 =>
                dsimp only
                exact ihc h s wid tid result s1 hs hcc
              | error e =>
                dsimp only
                exact noComp_execute_task_fail hs
            | error e =>
              dsimp only
              exact noComp_execute_task_fail hs
          | none =>
            dsimp only
            by_cases hman : t.type = "manual"
            · rw [if_pos hman]
              split <;> exact hs
            · rw [if_neg hman]
              by_cases hinp : t.type = "input"
              · rw [if_pos hinp]
                split <;>
                  exact noComp_add_history
                    (noComp_modifyTask_safe (fun t2 => ⟨rfl, by simp⟩) hs)
              · rw [if_neg hinp]
                exact noComp_execute_task_fail hs
    · intro h s wid tid r s2 hs hok
      cases hw : lookupW s wid with
      | none => simp [complete_task_fuel, hw] at hok
      | some w =>
        cases ht : findTask w.tasks tid with
        | none => simp [complete_task_fuel, hw, ht] at hok
        | some p =>
          obtain ⟨t, i⟩ := p
          simp only [complete_task_fuel, hw, ht] at hok
          by_cases hrun : t.status = TaskStatus.running ∨ t.status = TaskStatus.waiting_input
          · rw [if_pos hrun] at hok
            by_cases hemp : t.approvers.isEmpty
            · rw [if_pos hemp] at hok
              injection hok with hok2
              subst hok2
              refine ihp h _ wid (noComp_modifyW (fun w2 => rfl) ?_)
              exact noComp_add_history
                (noComp_modifyTask_empty hw ht (List.isEmpty_iff.mp hemp) (fun t2 => rfl) hs)
            · rw [if_neg hemp] at hok
              injection hok with hok2
              subst hok2
              refine noComp_repark hw _ _ ?_ ?_ hs
              · intro t2
                rfl
              · intro t2
                exact ⟨rfl, by simp⟩
          · rw [if_neg hrun] at hok
            exact absurd hok (by simp)

/-- start_workflow preserves the invariant on its own workflow. -/
theorem noComp_start_workflow {h : Handlers} {s s2 : Engine} {wid : Nat}
    (hok : start_workflow h s wid = Except.ok s2)
    (hs : noCompletedApproverTask s wid = true) :
    noCompletedApproverTask s2 wid = true := by
  cases hw : lookupW s wid with
  | none => simp [start_workflow, hw] at hok
  | some w =>
    simp only [start_workflow, hw] at hok
    by_cases hc : w.status = WorkflowStatus.created
    · rw [if_pos hc] at hok
      injection hok with hok2
      subst hok2
      exact (trio_no_completed _).1 h _ wid
        (noComp_add_history (noComp_modifyW (fun w2 => rfl) hs))
    · rw [if_neg hc] at hok
      exact absurd hok (by simp)

set_option maxHeartbeats 1000000 in
/-- approve_task preserves the invariant on its own workflow: every branch
only rewrites approvals, writes FAILED, or moves the cursor and resumes
processing. -/
theorem noComp_approve_task {h : Handlers} {s s2 : Engine} {wid tid aid : Nat}
    {b : Bool} {c : String}
    (hok : approve_task h s wid tid aid b c = Except.ok s2)
    (hs : noCompletedApproverTask s wid = true) :
    noCompletedApproverTask s2 wid = true := by
  cases hw : lookupW s wid with
  | none => simp [approve_task, hw] at hok
  | some w =>
    cases ht : findTask w.tasks tid with
    | none => simp [approve_task, hw, ht] at hok
    | some p =>
      obtain ⟨t, i⟩ := p
      simp only [approve_task, hw, ht] at hok
      by_cases hwa : t.status = TaskStatus.waiting_approval
      · rw [if_pos hwa] at hok
        cases ha : findApproval t.approvals aid with
        | none =>
          rw [ha] at hok
          simp at hok
        | some ap =>
          rw [ha] at hok
          dsimp only at hok
          by_cases hap : ap.status = ApprovalStatus.pending
          · rw [if_pos hap] at hok
            repeat' split at hok
            all_goals injection hok with hok2
            all_goals subst hok2
            all_goals
              first
              | exact (trio_no_completed _).1 h _ wid (noComp_modifyW (fun w2 => rfl)
                  (noComp_add_history (noComp_modifyTask_pres (fun t2 => ⟨rfl, rfl⟩) hs)))
              | exact noComp_add_history (noComp_modifyTask_pres (fun t2 => ⟨rfl, rfl⟩) hs)
              | exact noComp_add_history (noComp_modifyW (fun w2 => rfl)
                  (noComp_add_history (noComp_modifyTask_safe (fun t2 => ⟨rfl, by simp⟩)
                    (noComp_add_history
                      (noComp_modifyTask_pres (fun t2 => ⟨rfl, rfl⟩) hs)))))
          · rw [if_neg hap] at hok
            exact absurd hok (by simp)
      · rw [if_neg hwa] at hok
        exact absurd hok (by simp)

/-- delegate_approval preserves the invariant on its own workflow. -/
theorem noComp_delegate_approval {s s2 : Engine} {wid tid aid : Nat} {na c : String}
    (hok : delegate_approval s wid tid aid na c = Except.ok s2)
    (hs : noCompletedApproverTask s wid = true) :
    noCompletedApproverTask s2 wid = true := by
  cases hw : lookupW s wid with
  | none => simp [delegate_approval, hw] at hok
  | some w =>
    cases ht : findTask w.tasks tid with
    | none => simp [delegate_approval, hw, ht] at hok
    | some p =>
      obtain ⟨t, i⟩ := p
      simp only [delegate_approval, hw, ht] at hok
      by_cases hwa : t.status = TaskStatus.waiting_approval
      · rw [if_pos hwa] at hok
        cases ha : findApproval t.approvals aid with
        | none =>
          rw [ha] at hok
          simp at hok
        | some ap =>
          rw [ha] at hok
          dsimp only at hok
          by_cases hap : ap.status = ApprovalStatus.pending
          · rw [if_pos hap] at hok
            injection hok with hok2
            subst hok2
            refine noComp_add_history (noComp_modifyTask_pres (fun t2 => ⟨rfl, rfl⟩) ?_)
            exact (noComp_congr rfl).trans hs
          · rw [if_neg hap] at hok
            exact absurd hok (by simp)
      · rw [if_neg hwa] at hok
        exact absurd hok (by simp)

/-- provide_input preserves the invariant on its own workflow. -/
theorem noComp_provide_input {h : Handlers} {s s2 : Engine} {wid tid : Nat} {d : DataMap}
    (hok : provide_input h s wid tid d = Except.ok s2)
    (hs : noCompletedApproverTask s wid = true) :
    noCompletedApproverTask s2 wid = true := by
  cases hw : lookupW s wid with
  | none => simp [provide_input, hw] at hok
  | some w =>
    cases ht : findTask w.tasks tid with
    | none => simp [provide_input, hw, ht] at hok
    | some p =>
      obtain ⟨t, i⟩ := p
      simp only [provide_input, hw, ht] at hok
      by_cases hwi : t.status = TaskStatus.waiting_input
      · rw [if_pos hwi] at hok
        injection hok with hok2
        subst hok2
        refine (trio_no_completed _).2.1 h _ wid tid (noComp_add_history ?_)
        exact (noComp_congr rfl).trans
          (noComp_modifyTask_safe (fun t2 => ⟨rfl, by simp⟩) hs)
      · rw [if_neg hwi] at hok
        exact absurd hok (by simp)

/-- One advancement step preserves the invariant: aimed at this workflow each
entry point only writes non-COMPLETED statuses (or completes approver-less
tasks); aimed elsewhere it leaves this workflow untouched. -/
theorem advStep_no_completed {h : Handlers} {s s2 : Engine} {wid : Nat}
    (hs : noCompletedApproverTask s wid = true) (hstep : AdvStep h s s2) :
    noCompletedApproverTask s2 wid = true := by
  cases hstep with
  | start wid2 =>
    cases hr : start_workflow h s wid2 with
    | error e => exact hs
    | ok s3 =>
      by_cases he : wid2 = wid
      · subst he
        exact noComp_start_workflow hr hs
      · exact (noComp_congr (start_workflow_frame he hr)).trans hs
  | complete wid2 tid r =>
    cases hr : complete_task h s wid2 tid r with
    | error e => exact hs
    | ok s3 =>
      by_cases he : wid2 = wid
      · subst he
        exact (trio_no_completed _).2.2 h s wid2 tid r s3 hs hr
      · exact (noComp_congr (complete_task_frame he hr)).trans hs
  | approve wid2 tid aid b c =>
    cases hr : approve_task h s wid2 tid aid b c with
    | error e => exact hs
    | ok s3 =>
      by_cases he : wid2 = wid
      · subst he
        exact noComp_approve_task hr hs
      · exact (noComp_congr (approve_task_frame he hr)).trans hs
  | delegate wid2 tid aid na c =>
    cases hr : delegate_approval s wid2 tid aid na c with
    | error e => exact hs
    | ok s3 =>
      by_cases he : wid2 = wid
      · subst he
        exact noComp_delegate_approval hr hs
      · exact (noComp_congr (delegate_approval_frame he hr)).trans hs
  | input wid2 tid d =>
    cases hr : provide_input h s wid2 tid d with
    | error e => exact hs
    | ok s3 =>
      by_cases he : wid2 = wid
      · subst he
        exact noComp_provide_input hr hs
      · exact (noComp_congr (provide_input_frame he hr)).trans hs

/-- Updating the first task with a different id is invisible to findTask. -/
theorem findTask_updFirstTask_ne {ts : List Task} {tid2 tid : Nat} {f : Task → Task}
    (hne : tid2 ≠ tid) (hfid : ∀ t, (f t).id = t.id) :
    findTask (updFirstTask ts tid2 f) tid = findTask ts tid := by
  induction ts with
  | nil => rfl
  | cons a as ih =>
    by_cases ha : a.id = tid2
    · rw [updFirstTask, if_pos ha, findTask, findTask]
      rw [if_neg (by rw [hfid a, ha]; exact hne), if_neg (by rw [ha]; exact hne)]
    · rw [updFirstTask, if_neg ha, findTask, findTask]
      by_cases hb : a.id = tid
      · rw [if_pos hb, if_pos hb]
      · rw [if_neg hb, if_neg hb, ih]

/-- Updating the task at an index whose id differs is invisible to findTask. -/
theorem findTask_updTaskAt_ne {ts : List Task} {c tid : Nat} {f : Task → Task}
    (hc : ∀ t2, ts[c]? = some t2 → t2.id ≠ tid) (hfid : ∀ t, (f t).id = t.id) :
    findTask (updTaskAt ts c f) tid = findTask ts tid := by
  induction ts generalizing c with
  | nil => rfl
  | cons a as ih =>
    cases c with
    | zero =>
      have hane : a.id ≠ tid := hc a (by simp)
      rw [updTaskAt, findTask, findTask]
      rw [if_neg (by rw [hfid a]; exact hane), if_neg hane]
    | succ c2 =>
      rw [updTaskAt, findTask, findTask]
      by_cases hb : a.id = tid
      · rw [if_pos hb, if_pos hb]
      · rw [if_neg hb, if_neg hb, ih (fun t2 h2 => hc t2 (by simpa using h2))]

/-- An id-preserving update of a task with a different id does not change the
observed status of task tid. -/
theorem taskStatusOf_modifyTask_ne {s : Engine} {wid tid2 tid : Nat} {f : Task → Task}
    (hne : tid2 ≠ tid) (hfid : ∀ t, (f t).id = t.id) :
    taskStatusOf (modifyTask s wid tid2 f) wid tid = taskStatusOf s wid tid := by
  unfold taskStatusOf modifyTask
  rw [lookupW_modifyW_self]
  cases hw : lookupW s wid with
  | none => rfl
  | some w => simp [findTask_updFirstTask_ne hne hfid]

/-- Moving the cursor does not change any task status. -/
@[simp]
theorem taskStatusOf_modifyW_cursor (s : Engine) (wid tid x : Nat) :
    taskStatusOf (modifyW s wid (fun w => { w with current_task_index := x })) wid tid =
      taskStatusOf s wid tid := by
  simp only [taskStatusOf, lookupW_modifyW_self]
  cases lookupW s wid <;> simp

/-- The failure chain aimed at a different task id does not change the
observed status of task tid. -/
theorem taskStatusOf_execute_task_fail_ne {s : Engine} {wid tid2 tid : Nat}
    {n1 n2 r : String} (hne : tid2 ≠ tid) :
    taskStatusOf (execute_task_fail s wid tid2 n1 n2 r) wid tid = taskStatusOf s wid tid := by
  unfold execute_task_fail
  simp only [trigger_event_eq, taskStatusOf_add_history, taskStatusOf_modifyW_status]
  exact taskStatusOf_modifyTask_ne hne (fun t => rfl)

/-- Dispatching a task with a different id, in a workflow none of whose task
types has a registered handler, does not change the observed status of task
tid. -/
theorem taskStatusOf_execute_no_handler (fuel : Nat) (h : Handlers) (s : Engine)
    (wid tid2 tid : Nat) (hne : tid2 ≠ tid)
    (hnh : ∀ w2, lookupW s wid = some w2 → ∀ t2 ∈ w2.tasks, h t2.type = none) :
    taskStatusOf (execute_task fuel h s wid tid2) wid tid = taskStatusOf s wid tid := by
  cases fuel with
  | zero => simp [execute_task]
  | succ fuel =>
    cases hw : lookupW s wid with
    | none => simp [execute_task, hw]
    | some w =>
      cases ht : findTask w.tasks tid2 with
      | none => simp [execute_task, hw, ht]
      | some p =>
        obtain ⟨t, i⟩ := p
        simp only [execute_task, hw, ht, hnh w hw t (findTask_mem ht)]
        by_cases hman : t.type = "manual"
        · rw [if_pos hman]
          split <;> rfl
        · rw [if_neg hman]
          by_cases hinp : t.type = "input"
          · rw [if_pos hinp]
            split <;>
              (simp only [trigger_event_eq, notify_assignee_eq, taskStatusOf_add_history]
               exact taskStatusOf_modifyTask_ne hne (fun t3 => rfl))
          · rw [if_neg hinp]
            exact taskStatusOf_execute_task_fail_ne hne

/-- One processing step from a workflow with no registered handlers and whose
cursor does not sit on (a task sharing an id with) task tid leaves the
observed status of task tid unchanged. -/
theorem taskStatusOf_processNext_no_cascade (fuel : Nat) (h : Handlers) (s : Engine)
    (wid tid : Nat) (w : Workflow) (hw : lookupW s wid = some w)
    (hnh : ∀ t ∈ w.tasks, h t.type = none)
    (hcur : ∀ t2, w.tasks[w.current_task_index]? = some t2 → t2.id ≠ tid) :
    taskStatusOf (process_next_task (fuel + 1) h s wid) wid tid = taskStatusOf s wid tid := by
  simp only [process_next_task, hw]
  by_cases hlen : w.tasks.length ≤ w.current_task_index
  · rw [if_pos hlen]
    simp
  · rw [if_neg hlen]
    cases hget : w.tasks[w.current_task_index]? with
    | none => exact absurd (List.getElem?_eq_none_iff.mp hget) hlen
    | some task =>
      dsimp only
      by_cases hdep : depsMet w.tasks task.dependencies
      · rw [if_pos hdep]
        rw [taskStatusOf_execute_no_handler _ h _ wid task.id tid (hcur task hget) ?_]
        · simp only [trigger_event_eq, taskStatusOf_add_history]
          unfold taskStatusOf
          rw [lookupW_modifyW_self, hw]
          simp only [Option.map_some', Option.some_bind]
          rw [findTask_updTaskAt_ne
            (f := fun t3 => { t3 with status := TaskStatus.running }) hcur (fun t3 => rfl)]
        · intro w2 hw2 t2 ht2
          rw [trigger_event_eq, lookupW_add_history_self] at hw2
          rw [lookupW_modifyW_self, hw] at hw2
          simp only [Option.map_some', Option.some.injEq] at hw2
          subst hw2
          have ht2b : t2 ∈ updTaskAt w.tasks w.current_task_index
              (fun t3 => { t3 with status := TaskStatus.running }) := by
            simpa using ht2
          obtain ⟨t3, htm, hor⟩ := updTaskAt_mem ht2b
          rcases hor with rfl | rfl
          · exact hnh _ htm
          · simpa using hnh _ htm
      · rw [if_neg hdep]
        simp

/-- Public-fuel version of the previous lemma. -/
theorem taskStatusOf_processNext_fuelFor (h : Handlers) (s : Engine) (wid tid : Nat)
    (w : Workflow) (hw : lookupW s wid = some w)
    (hnh : ∀ t ∈ w.tasks, h t.type = none)
    (hcur : ∀ t2, w.tasks[w.current_task_index]? = some t2 → t2.id ≠ tid) :
    taskStatusOf (process_next_task (fuelFor s wid) h s wid) wid tid =
      taskStatusOf s wid tid := by
  have hf : fuelFor s wid = (3 * w.tasks.length + 8) + 1 := by
    simp [fuelFor, hw]
  rw [hf]
  exact taskStatusOf_processNext_no_cascade _ h s wid tid w hw hnh hcur

/-- A dependency resolving to a WAITING_APPROVAL task makes depsMet false. -/
theorem depsMet_waiting_approval {ts : List Task} {deps : List Nat} {d : Nat} {t : Task}
    {i : Nat} (hd : d ∈ deps) (hft : findTask ts d = some (t, i))
    (hst : t.status = TaskStatus.waiting_approval) :
    depsMet ts deps = false := by
  cases hx : depsMet ts deps with
  | false => rfl
  | true =>
    have hall := List.all_eq_true.mp hx d hd
    rw [hft] at hall
    dsimp only at hall
    rw [hst] at hall
    exact absurd hall (by decide)

/-- Positions survive a first-match update with their ids intact. -/
theorem updFirstTask_getElem_id {ts : List Task} {tid : Nat} {f : Task → Task} {j : Nat}
    {t2 : Task} (h : (updFirstTask ts tid f)[j]? = some t2)
    (hfid : ∀ t, (f t).id = t.id) :
    ∃ t1, ts[j]? = some t1 ∧ t2.id = t1.id := by
  induction ts generalizing j with
  | nil => simp [updFirstTask] at h
  | cons a as ih =>
    rw [updFirstTask] at h
    by_cases ha : a.id = tid
    · rw [if_pos ha] at h
      cases j with
      | zero =>
        simp only [List.getElem?_cons_zero, Option.some.injEq] at h
        subst h
        exact ⟨a, by simp, hfid a⟩
      | succ j2 =>
        simp only [List.getElem?_cons_succ] at h
        exact ⟨t2, by simpa using h, rfl⟩
    · rw [if_neg ha] at h
      cases j with
      | zero =>
        simp only [List.getElem?_cons_zero, Option.some.injEq] at h
        subst h
        exact ⟨a, by simp, rfl⟩
      | succ j2 =>
        simp only [List.getElem?_cons_succ] at h
        obtain ⟨t1, ht1, hid⟩ := ih h
        exact ⟨t1, by simpa using ht1, hid⟩

/-- C10: a task with a non-empty approver list never ends an engine operation
with status COMPLETED.  (i) complete_task immediately re-parks it in
WAITING_APPROVAL; (ii) approve_task resolving unanimous approval (no cascade:
no registered handlers, and the follow-up cursor position does not share the
task's id) leaves the status WAITING_APPROVAL while advancing the cursor;
(iii) along any sequence of advancement steps the invariant "no task with
approvers has status COMPLETED" is preserved; (iv) hence such a task never
satisfies a dependency check, which demands COMPLETED. -/
theorem c10_approval_gate_never_completed (h : Handlers) (s : Engine) (wid tid : Nat) :
    (∀ (w : Workflow) (task : Task) (i : Nat) (r : DataMap),
      lookupW s wid = some w → findTask w.tasks tid = some (task, i) →
      (task.status = TaskStatus.running ∨ task.status = TaskStatus.waiting_input) →
      task.approvers ≠ [] →
      ∃ s2, complete_task h s wid tid r = Except.ok s2 ∧
        taskStatusOf s2 wid tid = some TaskStatus.waiting_approval) ∧
    (∀ (comment : String) (w : Workflow) (task : Task) (i aid : Nat) (ap : Approval),
      lookupW s wid = some w → findTask w.tasks tid = some (task, i) →
      task.status = TaskStatus.waiting_approval →
      findApproval task.approvals aid = some ap → ap.status = ApprovalStatus.pending →
      w.current_task_index = i →
      (∀ b ∈ recordVerdict task.approvals aid ApprovalStatus.approved comment,
        b.status ≠ ApprovalStatus.pending ∧ b.status ≠ ApprovalStatus.rejected) →
      (∀ t ∈ w.tasks, h t.type = none) →
      (∀ t2, w.tasks[i + 1]? = some t2 → t2.id ≠ tid) →
      ∃ s2, approve_task h s wid tid aid true comment = Except.ok s2 ∧
        taskStatusOf s2 wid tid = some TaskStatus.waiting_approval ∧
        cursorOf s2 wid = some (w.current_task_index + 1)) ∧
    (∀ s2, noCompletedApproverTask s wid = true →
      Relation.ReflTransGen (AdvStep h) s s2 →
      noCompletedApproverTask s2 wid = true) ∧
    (∀ (ts : List Task) (deps : List Nat) (d : Nat) (t : Task) (i : Nat),
      d ∈ deps → findTask ts d = some (t, i) →
      t.status = TaskStatus.waiting_approval → depsMet ts deps = false) := by
  refine ⟨?_, ?_, ?_, ?_⟩
  · intro w task i r hw ht hrun hne
    have hid0 : task.id = tid := findTask_some_id ht
    have hemp : task.approvers.isEmpty = false := by
      cases he : task.approvers.isEmpty
      · rfl
      · exact absurd (List.isEmpty_iff.mp he) hne
    have hf : fuelFor s wid = (3 * w.tasks.length + 8) + 1 := by
      simp [fuelFor, hw]
    have hc : complete_task h s wid tid r = Except.ok
        (add_history_event
          (modifyTask
            (add_history_event
              (modifyTask s wid tid (fun t =>
                { t with status := TaskStatus.completed, result := some r }))
              wid "task_completed"
              [("workflow_id", Val.vn wid), ("task_id", Val.vn tid),
               ("task_name", Val.vs task.name)])
            wid tid (fun t => { t with status := TaskStatus.waiting_approval }))
          wid "task_waiting_approval"
          [("workflow_id", Val.vn wid), ("task_id", Val.vn tid),
           ("task_name", Val.vs task.name),
           ("approvers", Val.vss (task.approvals.map (fun a => a.approver)))]) := by
      rw [complete_task, hf]
      simp only [complete_task_fuel, hw, ht, hrun, if_true, hemp, Bool.false_eq_true,
        reduceIte, trigger_event_eq]
    refine ⟨_, hc, ?_⟩
    rw [taskStatusOf_add_history]
    have hw1 : lookupW (modifyTask s wid tid (fun t =>
        { t with status := TaskStatus.completed, result := some r })) wid = some
        { w with tasks := updFirstTask w.tasks tid (fun t =>
            { t with status := TaskStatus.completed, result := some r }) } := by
      unfold modifyTask
      rw [lookupW_modifyW_self, hw]
      rfl
    have hw2 := lookupW_add_history_self (modifyTask s wid tid (fun t =>
        { t with status := TaskStatus.completed, result := some r })) wid
      "task_completed"
      [("workflow_id", Val.vn wid), ("task_id", Val.vn tid),
       ("task_name", Val.vs task.name)]
    rw [hw1] at hw2
    simp only [Option.map_some'] at hw2
    have ht2 : findTask (updFirstTask w.tasks tid (fun t =>
        { t with status := TaskStatus.completed, result := some r })) tid = some
        ({ task with status := TaskStatus.completed, result := some r }, i) :=
      findTask_updFirstTask _ ht (by simpa using hid0)
    rw [taskStatusOf_modifyTask _ hw2 ht2 (by simpa using hid0)]
  · intro comment w task i aid ap hw ht hst hap hpend hcur hres hnh hnext
    have hid0 : task.id = tid := findTask_some_id ht
    have hfApp : ∀ b ∈ updFirstApproval task.approvals aid
        (fun a => { a with status := ApprovalStatus.approved, comment := comment }),
        b.status ≠ ApprovalStatus.pending ∧ b.status ≠ ApprovalStatus.rejected := by
      simpa [recordVerdict] using hres
    have hscan : scanApprovals false (updFirstApproval task.approvals aid
        (fun a => { a with status := ApprovalStatus.approved, comment := comment }))
        = (true, false) := scanApprovals_resolved false hfApp
    have hc : approve_task h s wid tid aid true comment = Except.ok
        (process_next_task
          (fuelFor
            (modifyW
              (add_history_event
                (modifyTask s wid tid (fun t =>
                  { t with approvals :=
                      updFirstApproval task.approvals aid (fun a => { a with status := ApprovalStatus.approved, comment := comment }) }))
                wid "task_approved"
                [("workflow_id", Val.vn wid), ("task_id", Val.vn tid),
                 ("task_name", Val.vs task.name), ("approver", Val.vs ap.approver),
                 ("comment", Val.vs comment)])
              wid (fun w2 => { w2 with current_task_index := i + 1 }))
            wid)
          h
          (modifyW
            (add_history_event
              (modifyTask s wid tid (fun t =>
                { t with approvals :=
                    updFirstApproval task.approvals aid (fun a => { a with status := ApprovalStatus.approved, comment := comment }) }))
              wid "task_approved"
              [("workflow_id", Val.vn wid), ("task_id", Val.vn tid),
               ("task_name", Val.vs task.name), ("approver", Val.vs ap.approver),
               ("comment", Val.vs comment)])
            wid (fun w2 => { w2 with current_task_index := i + 1 }))
          wid) := by
      simp only [approve_task, hw, ht, hst, hap, hpend, if_true, if_false,
        Bool.false_eq_true, reduceIte, trigger_event_eq, hscan]
    refine ⟨_, hc, ?_, ?_⟩
    · refine (taskStatusOf_processNext_fuelFor h _ wid tid
        { w with
          tasks := updFirstTask w.tasks tid (fun t =>
            { t with approvals :=
                updFirstApproval task.approvals aid (fun a => { a with status := ApprovalStatus.approved, comment := comment }) }),
          history := w.history ++ [{ id := s.nextId, type := "task_approved", data := [("workflow_id", Val.vn wid), ("task_id", Val.vn tid), ("task_name", Val.vs task.name), ("approver", Val.vs ap.approver), ("comment", Val.vs comment)] }],
          current_task_index := i + 1 } ?_ ?_ ?_).trans ?_
      · rw [lookupW_modifyW_self, lookupW_add_history_self]
        simp [modifyTask, hw]
      · intro t2 ht2
        obtain ⟨t3, htm, hor⟩ := updFirstTask_mem ht2
        rcases hor with rfl | rfl
        · exact hnh _ htm
        · simpa using hnh _ htm
      · intro t2 hget2
        obtain ⟨t1, ht1, hid1⟩ := updFirstTask_getElem_id hget2 (fun t3 => rfl)
        rw [hid1]
        exact hnext t1 ht1
      · rw [taskStatusOf_modifyW_cursor, taskStatusOf_add_history]
        rw [taskStatusOf_modifyTask _ hw ht (by simpa using hid0)]
        simpa using hst
    · rw [hcur]
      refine cursorOf_processNext_fuelFor h _ wid
        { w with
          tasks := updFirstTask w.tasks tid (fun t =>
            { t with approvals :=
                updFirstApproval task.approvals aid (fun a => { a with status := ApprovalStatus.approved, comment := comment }) }),
          history := w.history ++ [{ id := s.nextId, type := "task_approved", data := [("workflow_id", Val.vn wid), ("task_id", Val.vn tid), ("task_name", Val.vs task.name), ("approver", Val.vs ap.approver), ("comment", Val.vs comment)] }],
          current_task_index := i + 1 } ?_ ?_
      · rw [lookupW_modifyW_self, lookupW_add_history_self]
        simp [modifyTask, hw]
      · intro t2 ht2
        obtain ⟨t3, htm, hor⟩ := updFirstTask_mem ht2
        rcases hor with rfl | rfl
        · exact hnh _ htm
        · simpa using hnh _ htm
  · intro s2 hs hchain
    induction hchain with
    | refl => exact hs
    | @tail b c hab hbc ih => exact advStep_no_completed ih hbc
  · intro ts deps d t i hd hft hst
    exact depsMet_waiting_approval hd hft hst

/-- Witness for c10_approval_gate_never_completed: completing the running
approval-gated sample task parks it WAITING_APPROVAL; resolving the remaining
approval of the sample two-approval task keeps it WAITING_APPROVAL while the
cursor advances; a stuttering start_workflow step preserves the invariant; the
gated task fails the dependency check. -/
theorem c10_approval_gate_never_completed_witness :
    (∃ s2, complete_task hNone sampleS10 0 8 [] = Except.ok s2 ∧
      taskStatusOf s2 0 8 = some TaskStatus.waiting_approval) ∧
    (∃ s3, approve_task hNone sampleS3b 0 1 11 true "ok" = Except.ok s3 ∧
      taskStatusOf s3 0 1 = some TaskStatus.waiting_approval ∧
      cursorOf s3 0 = some (sampleWF3b.current_task_index + 1)) ∧
    noCompletedApproverTask (advResult (start_workflow hNone sampleS10 0) sampleS10) 0
      = true ∧
    depsMet sampleWF1.tasks [1] = false :=
  ⟨(c10_approval_gate_never_completed hNone sampleS10 0 8).1 sampleWF10 sampleTaskRun 0 []
      rfl rfl (Or.inl rfl) (by decide),
   (c10_approval_gate_never_completed hNone sampleS3b 0 1).2.1 "ok" sampleWF3b sampleTaskAB2
      0 11 { id := 11, approver := "B", status := ApprovalStatus.pending, comment := "" }
      rfl rfl rfl rfl rfl rfl (by decide) (fun t _ => rfl) (by decide),
   (c10_approval_gate_never_completed hNone sampleS10 0 8).2.2.1
      (advResult (start_workflow hNone sampleS10 0) sampleS10) (by decide)
      (Relation.ReflTransGen.single (AdvStep.start sampleS10 0)),
   (c10_approval_gate_never_completed hNone sampleS10 0 8).2.2.2 sampleWF1.tasks [1] 1
      sampleTaskAB 0 (by decide) rfl rfl⟩

end DOB
